import Mathlib

/-!
# WebSphere Liberty operator: pod template customisation, validation, status ledger, SSO

A shallow embedding of `utils/utils.go` and of the status-condition ledger,
`Initialize` and the label getters of `api/v1/webspherelibertyapplication_types.go`.

Conventions of the embedding:
* a Go slice is a `List`, a Go pointer that may be nil is an `Option`;
* a Go `map[string]T` is an association list read with `GoMap.get` (first match)
  and written with `GoMap.set`; the data map of a secret without data keys is
  nil, written `[]`, and an assignment into it aborts;
* a Go function that can panic (index out of range, nil dereference, explicit
  `panic`) returns an `Option`, `none` standing for the abort;
* a slice that is rewritten in place while a range loop runs over it (`Remove`)
  is a list of backing-array cells together with the current length;
* the clock, the quantity parser and the cluster client are explicit inputs.
-/

namespace WLO

/-! ## Kubernetes object fragments (k8s.io/api/core/v1) -/

/-- corev1.SecretKeySelector: the referenced secret's name and the key in it. -/
structure SecretKeySelector where
  Name : String
  Key : String
deriving DecidableEq, Repr

/-- corev1.EnvVarSource, reduced to the one source the operator produces. -/
structure EnvVarSource where
  SecretKeyRef : Option SecretKeySelector := none
deriving DecidableEq, Repr

/-- corev1.EnvVar. -/
structure EnvVar where
  Name : String
  Value : String := ""
  ValueFrom : Option EnvVarSource := none
deriving DecidableEq, Repr

/-- corev1.VolumeMount. -/
structure VolumeMount where
  Name : String
  MountPath : String := ""
deriving DecidableEq, Repr

/-- corev1.PersistentVolumeClaimVolumeSource. -/
structure PersistentVolumeClaimVolumeSource where
  ClaimName : String
deriving DecidableEq, Repr

/-- corev1.Volume with its VolumeSource flattened. -/
structure Volume where
  Name : String
  PersistentVolumeClaim : Option PersistentVolumeClaimVolumeSource := none
deriving DecidableEq, Repr

/-- corev1.Container: the fields the operator reads or writes. -/
structure Container where
  Name : String := ""
  Env : List EnvVar := []
  VolumeMounts : List VolumeMount := []
deriving DecidableEq, Repr

/-- corev1.PodSpec. -/
structure PodSpec where
  Containers : List Container := []
  Volumes : List Volume := []
deriving DecidableEq, Repr

/-- corev1.PodTemplateSpec. -/
structure PodTemplateSpec where
  Annotations : List (String × String) := []
  Spec : PodSpec := {}
deriving DecidableEq, Repr

/-! ## Go maps -/

/-- A Go `map[string]string` (byte slices are kept as strings). -/
abbrev GoMap := List (String × String)

/-- The map read `m[k]`, with the zero value when the key is absent. -/
def GoMap.get (m : GoMap) (k : String) : String :=
  match m.lookup k with
  | some v => v
  | none => ""

/-- The map write `m[k] = v`. -/
def GoMap.set : GoMap → String → String → GoMap
  | [], k, v => [(k, v)]
  | (k0, v0) :: rest, k, v =>
    if k0 = k then (k0, v) :: rest else (k0, v0) :: GoMap.set rest k v

/-- The keys of the map, each once. -/
def GoMap.keys (m : GoMap) : List String :=
  (m.map Prod.fst).dedup

/-! ## The custom resource (api/v1) -/

/-- WebSphereLibertyApplicationServiceability. -/
structure WebSphereLibertyApplicationServiceability where
  Size : String := ""
  VolumeClaimName : String := ""
  StorageClassName : String := ""
deriving DecidableEq, Repr

/-- OidcClient. -/
structure OidcClient where
  ID : String := ""
  DiscoveryEndpoint : String := ""
  GroupNameAttribute : String := ""
  UserNameAttribute : String := ""
  DisplayName : String := ""
  UserInfoEndpointEnabled : Option Bool := none
  RealmNameAttribute : String := ""
  Scope : String := ""
  TokenEndpointAuthMethod : String := ""
  HostNameVerificationEnabled : Option Bool := none
deriving DecidableEq, Repr

/-- OAuth2Client. -/
structure OAuth2Client where
  ID : String := ""
  TokenEndpoint : String := ""
  AuthorizationEndpoint : String := ""
  GroupNameAttribute : String := ""
  UserNameAttribute : String := ""
  DisplayName : String := ""
  RealmNameAttribute : String := ""
  RealmName : String := ""
  Scope : String := ""
  TokenEndpointAuthMethod : String := ""
  AccessTokenHeaderName : String := ""
  AccessTokenRequired : Option Bool := none
  AccessTokenSupported : Option Bool := none
  UserApiType : String := ""
  UserApi : String := ""
deriving DecidableEq, Repr

/-- GithubLogin. -/
structure GithubLogin where
  Hostname : String := ""
deriving DecidableEq, Repr

/-- WebSphereLibertyApplicationSSO. -/
structure WebSphereLibertyApplicationSSO where
  OIDC : List OidcClient := []
  Oauth2 : List OAuth2Client := []
  Github : Option GithubLogin := none
  RedirectToRPHostAndPort : String := ""
  MapToUserRegistry : Option Bool := none
deriving DecidableEq, Repr

/-- StatusConditionType of api/v1: a string type. -/
abbrev StatusConditionType := String

/-- The one declared condition type. -/
def StatusConditionTypeReconciled : StatusConditionType := "Reconciled"

/-- StatusCondition of api/v1; the transition time is a clock reading. -/
structure StatusCondition where
  LastTransitionTime : Option Nat := none
  Reason : String := ""
  Message : String := ""
  Status : String := ""
  Type_ : StatusConditionType := ""
deriving DecidableEq, Repr

/-- corev1.ResourceRequirements. -/
structure ResourceRequirements where
  Limits : GoMap := []
  Requests : GoMap := []
deriving DecidableEq, Repr

/-- WebSphereLibertyApplicationService: the scalar fields and the annotations. -/
structure WebSphereLibertyApplicationService where
  Port : Int := 0
  Type_ : Option String := none
  NodePort : Option Int := none
  PortName : String := ""
  Annotations : Option GoMap := none
  TargetPort : Option Int := none
  CertificateSecretRef : Option String := none
  Bindable : Option Bool := none
deriving DecidableEq, Repr

/-- WebSphereLibertyApplicationSpec: the fields read by the embedded code. -/
structure WebSphereLibertyApplicationSpec where
  ApplicationName : String := ""
  Serviceability : Option WebSphereLibertyApplicationServiceability := none
  SSO : Option WebSphereLibertyApplicationSSO := none
  ApplicationVersion : String := ""
  PullPolicy : Option String := none
  ResourceConstraints : Option ResourceRequirements := none
  Service : Option WebSphereLibertyApplicationService := none
deriving DecidableEq, Repr

/-- WebSphereLibertyApplicationStatus. -/
structure WebSphereLibertyApplicationStatus where
  Conditions : List StatusCondition := []
  RouteAvailable : Option Bool := none
  ImageReference : String := ""
deriving DecidableEq, Repr

/-- WebSphereLibertyApplication with the object metadata it carries. -/
structure WebSphereLibertyApplication where
  Name : String := ""
  Namespace : String := ""
  Labels : Option GoMap := none
  Spec : WebSphereLibertyApplicationSpec := {}
  Status : WebSphereLibertyApplicationStatus := {}
  Annotations : Option GoMap := none
deriving DecidableEq, Repr

/-- GetServiceability returns serviceability. -/
def WebSphereLibertyApplication.GetServiceability (cr : WebSphereLibertyApplication) :
    Option WebSphereLibertyApplicationServiceability :=
  cr.Spec.Serviceability

/-- GetSize returns the persistent volume size for serviceability. -/
def WebSphereLibertyApplicationServiceability.GetSize
    (s : WebSphereLibertyApplicationServiceability) : String :=
  s.Size

/-- GetVolumeClaimName returns the name of the custom claim for serviceability. -/
def WebSphereLibertyApplicationServiceability.GetVolumeClaimName
    (s : WebSphereLibertyApplicationServiceability) : String :=
  s.VolumeClaimName

/-! ## utils.go: constants, Validate, pod template customisation -/

def serviceabilityMountPath : String := "/serviceability"

def ssoEnvVarPrefix : String := "SEC_SSO_"

/-- Validate: the boolean and the error of the Go pair. `ParseQuantity` stands
for `resource.ParseQuantity` of the Kubernetes library. -/
def Validate {Q : Type} (ParseQuantity : String → Except String Q)
    (wlapp : WebSphereLibertyApplication) : Bool × Option String :=
  match wlapp.GetServiceability with
  | some svc =>
    if svc.GetVolumeClaimName = "" ∧ svc.GetSize = "" then
      (false, some ("Invalid input for Serviceability. Specify one of the following: " ++
        "spec.serviceability.size, spec.serviceability.volumeClaimName"))
    else if svc.GetVolumeClaimName = "" then
      match ParseQuantity svc.GetSize with
      | .error err =>
        (false, some ("validation failed: cannot parse '" ++ svc.GetSize ++ "': " ++ err))
      | .ok _ => (true, none)
    else (true, none)
  | none => (true, none)

/-- Whether a parse succeeded. -/
def parsed {Q : Type} : Except String Q → Bool
  | .ok _ => true
  | .error _ => false

/-- A quantity reader for concrete evaluations: digits with at most one decimal
point, an optional sign in front, and one of the Kubernetes unit suffixes behind.
The theorems are stated for every parser; this one instantiates them. -/
def sampleParseQuantity (s : String) : Except String String :=
  let isDigit : Char → Bool := fun ch => decide ('0' ≤ ch ∧ ch ≤ '9')
  let unsigned : List Char := match s.toList with
    | '+' :: r => r
    | '-' :: r => r
    | r => r
  let whole := unsigned.takeWhile isDigit
  let afterWhole := unsigned.dropWhile isDigit
  let frac := match afterWhole with
    | '.' :: r => r.takeWhile isDigit
    | _ => []
  let suffix := match afterWhole with
    | '.' :: r => r.dropWhile isDigit
    | r => r
  if (whole ++ frac).isEmpty then .error "quantities must match the regular expression"
  else if String.mk suffix ∈
      ["", "Ki", "Mi", "Gi", "Ti", "Pi", "Ei", "n", "u", "m", "k", "M", "G", "T", "P", "E"] then
    .ok s
  else .error "unable to parse quantity's suffix"

/-- findEnvVar checks if the environment variable is already present. -/
def findEnvVar (name : String) : List EnvVar → Option EnvVar
  | [] => none
  | val :: rest => if val.Name = name then some val else findEnvVar name rest

/-- The defaults CustomizeLibertyEnv wants to see in the first container. -/
def libertyTargetEnv (la : WebSphereLibertyApplication) : List EnvVar :=
  let targetEnv : List EnvVar := [
    { Name := "WLP_LOGGING_CONSOLE_LOGLEVEL", Value := "info" },
    { Name := "WLP_LOGGING_CONSOLE_SOURCE", Value := "message,accessLog,ffdc,audit" },
    { Name := "WLP_LOGGING_CONSOLE_FORMAT", Value := "json" }]
  match la.GetServiceability with
  | some _ =>
    targetEnv ++ [
      { Name := "IBM_HEAPDUMPDIR", Value := serviceabilityMountPath },
      { Name := "IBM_COREDIR", Value := serviceabilityMountPath },
      { Name := "IBM_JAVACOREDIR", Value := serviceabilityMountPath }]
  | none => targetEnv

/-- The loop shared by CustomizeLibertyEnv and CustomizeEnvSSO: every candidate
whose name is not found in `envList` (the list as it was before the loop) is
appended to the container's list. -/
def appendMissingEnv (envList : List EnvVar) (candidates : List EnvVar)
    (env : List EnvVar) : List EnvVar :=
  candidates.foldl
    (fun acc v => if (findEnvVar v.Name envList).isSome then acc else acc ++ [v]) env

/-- CustomizeLibertyEnv adds the configured liberty settings to the first
container; `none` is the index-out-of-range abort on a template without
containers. -/
def CustomizeLibertyEnv (pts : PodTemplateSpec) (la : WebSphereLibertyApplication) :
    Option PodTemplateSpec :=
  let targetEnv := libertyTargetEnv la
  match pts.Spec.Containers with
  | [] => none
  | c :: cs =>
    let envList := c.Env
    some { pts with Spec := { pts.Spec with
      Containers := { c with Env := appendMissingEnv envList targetEnv c.Env } :: cs } }

/-- ConfigureServiceability sets up the shared storage for serviceability. -/
def ConfigureServiceability (pts : PodTemplateSpec) (la : WebSphereLibertyApplication) :
    Option PodTemplateSpec :=
  match la.GetServiceability with
  | none => some pts
  | some svc =>
    let name := "serviceability"
    match pts.Spec.Containers with
    | [] => none
    | c :: cs =>
      let foundVolumeMount :=
        c.VolumeMounts.foldl (fun found v => if v.Name = name then true else found) false
      let mounts :=
        if !foundVolumeMount then
          c.VolumeMounts ++ [{ Name := name, MountPath := serviceabilityMountPath }]
        else c.VolumeMounts
      let foundVolume :=
        pts.Spec.Volumes.foldl (fun found v => if v.Name = name then true else found) false
      let volumes :=
        if !foundVolume then
          let claimName :=
            if svc.VolumeClaimName ≠ "" then svc.VolumeClaimName
            else la.Name ++ "-serviceability"
          pts.Spec.Volumes ++
            [{ Name := name, PersistentVolumeClaim := some { ClaimName := claimName } }]
        else pts.Spec.Volumes
      some { pts with Spec :=
        { Containers := { c with VolumeMounts := mounts } :: cs, Volumes := volumes } }

/-! ## The status condition ledger (api/v1) -/

namespace common

/-- StatusConditionType of the runtime-component-operator `common` package, the
type the ledger's interface speaks: a string type of its own. -/
structure StatusConditionType where
  val : String
deriving DecidableEq, Repr

/-- The `common` constant the ledger converts to and from. -/
def StatusConditionTypeReconciled : StatusConditionType := ⟨"Reconciled"⟩

end common

/-- convertToCommonStatusConditionType; `none` is the `panic(c)` of the default case. -/
def convertToCommonStatusConditionType (c : StatusConditionType) :
    Option common.StatusConditionType :=
  if c = StatusConditionTypeReconciled then some common.StatusConditionTypeReconciled
  else none

/-- convertFromCommonStatusConditionType; `none` is the `panic(c)` of the default case. -/
def convertFromCommonStatusConditionType (c : common.StatusConditionType) :
    Option StatusConditionType :=
  if c = common.StatusConditionTypeReconciled then some StatusConditionTypeReconciled
  else none

/-- GetType returns the status condition type. -/
def StatusCondition.GetType (c : StatusCondition) : Option common.StatusConditionType :=
  convertToCommonStatusConditionType c.Type_

/-- SetType sets the status condition type. -/
def StatusCondition.SetType (c : StatusCondition) (ct : common.StatusConditionType) :
    Option StatusCondition :=
  match convertFromCommonStatusConditionType ct with
  | some t => some { c with Type_ := t }
  | none => none

def StatusCondition.GetLastTransitionTime (c : StatusCondition) : Option Nat :=
  c.LastTransitionTime

def StatusCondition.SetLastTransitionTime (c : StatusCondition) (t : Option Nat) :
    StatusCondition :=
  { c with LastTransitionTime := t }

def StatusCondition.GetMessage (c : StatusCondition) : String := c.Message

def StatusCondition.SetMessage (c : StatusCondition) (m : String) : StatusCondition :=
  { c with Message := m }

def StatusCondition.GetReason (c : StatusCondition) : String := c.Reason

def StatusCondition.SetReason (c : StatusCondition) (r : String) : StatusCondition :=
  { c with Reason := r }

def StatusCondition.GetStatus (c : StatusCondition) : String := c.Status

def StatusCondition.SetStatus (c : StatusCondition) (s : String) : StatusCondition :=
  { c with Status := s }

/-- The scan of GetCondition over the stored conditions: the first one whose
type converts to `t`; a stored type that does not convert aborts the scan. -/
def GetCondition.scan : List StatusCondition → common.StatusConditionType →
    Option (Option StatusCondition)
  | [], _ => some none
  | x :: rest, t =>
    match x.GetType with
    | none => none
    | some ty => if ty = t then some (some x) else GetCondition.scan rest t

/-- GetCondition: outer `none` is an abort, `some none` the nil result. -/
def WebSphereLibertyApplicationStatus.GetCondition (s : WebSphereLibertyApplicationStatus)
    (t : common.StatusConditionType) : Option (Option StatusCondition) :=
  GetCondition.scan s.Conditions t

/-- The scan of SetCondition: it has no break, so the slot it ends with is the
index of the last stored condition whose type equals the incoming one. `i` is
the index of the head of the list, `slot` the match found so far. -/
def SetCondition.scan : List StatusCondition → StatusCondition → Nat → Option Nat →
    Option (Option Nat)
  | [], _, _, slot => some slot
  | x :: rest, c, i, slot =>
    match x.GetType with
    | none => none
    | some a =>
      match c.GetType with
      | none => none
      | some b => SetCondition.scan rest c (i + 1) (if a = b then some i else slot)

/-- SetCondition with the clock reading `now`; `none` is an abort. -/
def WebSphereLibertyApplicationStatus.SetCondition (s : WebSphereLibertyApplicationStatus)
    (c : StatusCondition) (now : Nat) : Option WebSphereLibertyApplicationStatus :=
  match SetCondition.scan s.Conditions c 0 none with
  | none => none
  | some slot =>
    let condition : StatusCondition := match slot with
      | some i => s.Conditions.getD i {}
      | none => {}
    let condition :=
      if condition.GetStatus ≠ c.GetStatus then condition.SetLastTransitionTime (some now)
      else condition
    let condition := condition.SetReason c.GetReason
    let condition := condition.SetMessage c.GetMessage
    let condition := condition.SetStatus c.GetStatus
    match c.GetType with
    | none => none
    | some ct =>
      match condition.SetType ct with
      | none => none
      | some condition =>
        match slot with
        | some i => some { s with Conditions := s.Conditions.set i condition }
        | none => some { s with Conditions := s.Conditions ++ [condition] }

/-! ## Go string helpers -/

namespace strings

/-- strings.ToUpper, letter by letter (ASCII letters are the ones mapped). -/
def ToUpper (s : String) : String :=
  String.mk (s.toList.map Char.toUpper)

/-- Whether `sub` occurs in `hay` as a contiguous run. -/
def containsChars (sub : List Char) : List Char → Bool
  | [] => sub.isEmpty
  | h :: t => sub.isPrefixOf (h :: t) || containsChars sub t

/-- strings.Contains. -/
def Contains (s substr : String) : Bool :=
  containsChars substr.toList s.toList

/-- strconv.FormatBool. -/
def FormatBool (b : Bool) : String :=
  if b then "true" else "false"

/-- The order of Go strings, read character by character. -/
def charsLE : List Char → List Char → Bool
  | [], _ => true
  | _ :: _, [] => false
  | a :: as, b :: bs => decide (a.toNat < b.toNat) || (a == b && charsLE as bs)

end strings

namespace sort

/-- sort.Strings. -/
def Strings (l : List String) : List String :=
  l.insertionSort (fun a b => strings.charsLE a.toList b.toList = true)

end sort

/-! ## utils.go: the SSO pipeline -/

/-- normalizeEnvVariableName: upper-case, then '-' and '.' become '_'. -/
def normalizeEnvVariableName (name : String) : String :=
  String.mk ((strings.ToUpper name).toList.map
    (fun ch => if ch = '-' then '_' else if ch = '.' then '_' else ch))

/-- The dynamic values handed to getValue: a string, a bool, or anything else. -/
inductive Value where
  | str (s : String)
  | bool (b : Bool)
  | other
deriving DecidableEq, Repr

/-- getValue returns value for string. -/
def getValue : Value → String
  | .str s => s
  | .bool b => strings.FormatBool b
  | .other => ""

/-- createEnvVarSSO creates an environment variable for SSO. -/
def createEnvVarSSO (loginID : String) (envSuffix : String) (value : Value) : EnvVar :=
  { Name := ssoEnvVarPrefix ++ loginID ++ envSuffix, Value := getValue value }

/-- corev1.Secret: name, namespace, data and the opaque revision token. A secret
without data keys is read from the cluster with a nil `Data` map: `Data = []`
is that nil map, which reads like an empty map and aborts on an assignment. -/
structure Secret where
  Name : String := ""
  Namespace : String := ""
  Data : GoMap := []
  ResourceVersion : String := ""
deriving DecidableEq, Repr

/-- routev1.Route: name, namespace and spec.host. -/
structure Route where
  Name : String := ""
  Namespace : String := ""
  Host : String := ""
deriving DecidableEq, Repr

/-- RegisterData, with the fields CustomizeEnvSSO fills in. -/
structure RegisterData where
  DiscoveryURL : String := ""
  RouteURL : String := ""
  RedirectToRPHostAndPort : String := ""
  InitialAccessToken : String := ""
  InitialClientId : String := ""
  InitialClientSecret : String := ""
  GrantTypes : String := ""
  Scopes : String := ""
  InsecureTLS : Bool := false
  ProviderId : String := ""
deriving DecidableEq, Repr

/-- An outbound call made during a pass. -/
inductive Call where
  | getSecret (name : String) (namespace_ : String)
  | getRoute (name : String) (namespace_ : String)
  | register (regData : RegisterData)
  | createOrUpdate (name : String) (namespace_ : String) (updates : GoMap)
deriving DecidableEq, Repr

/-- The cluster as seen through `client.Client` during one pass: the stored
secrets, the outcome of the k-th route lookup, an error injected into secret
writes, the revision token the store hands out on a write, the number of route
lookups made so far, and the log of outbound calls (oldest first). -/
structure Client where
  secrets : List Secret := []
  routeGet : Nat → String → String → Except String Route := fun _ _ _ => .error "not found"
  writeErr : Option String := none
  nextResourceVersion : String → String := fun v => v ++ "+"
  routeGets : Nat := 0
  calls : List Call := []

def Client.log (c : Client) (call : Call) : Client :=
  { c with calls := c.calls ++ [call] }

/-- The stored secret with this name and namespace, if any. -/
def Client.findSecret (c : Client) (name ns : String) : Option Secret :=
  c.secrets.find? (fun s => s.Name = name ∧ s.Namespace = ns)

/-- client.Get for a Secret. -/
def Client.GetSecret (c : Client) (name ns : String) : Client × Except String Secret :=
  let c1 := c.log (.getSecret name ns)
  match c.findSecret name ns with
  | some s => (c1, .ok s)
  | none => (c1, .error ("secrets \"" ++ name ++ "\" not found"))

/-- client.Get for a Route. -/
def Client.GetRoute (c : Client) (name ns : String) : Client × Except String Route :=
  ({ (c.log (.getRoute name ns)) with routeGets := c.routeGets + 1 },
    c.routeGet c.routeGets name ns)

/-- controllerutil.CreateOrUpdate on a Secret: the object is read back from the
store (or created when absent), the mutation is applied, and the result is
written unless it equals what is stored; a successful write gets a new revision
token. Returns the cluster, the in-memory object and the error; `none` is an
abort inside the mutation, which is not recovered. -/
def CreateOrUpdate (c : Client) (obj : Secret) (mutate : Secret → Option Secret) :
    Option (Client × Secret × Option String) :=
  match c.findSecret obj.Name obj.Namespace with
  | none =>
    match mutate obj with
    | none => none
    | some created =>
      match c.writeErr with
      | some e => some (c, created, some e)
      | none =>
        let rev := c.nextResourceVersion created.ResourceVersion
        let stored := { created with ResourceVersion := rev }
        some ({ c with secrets := c.secrets ++ [stored] }, stored, none)
  | some existing =>
    match mutate existing with
    | none => none
    | some changed =>
      if changed = existing then some (c, existing, none)
      else
        match c.writeErr with
        | some e => some (c, changed, some e)
        | none =>
          let rev := c.nextResourceVersion changed.ResourceVersion
          let stored := { changed with ResourceVersion := rev }
          let secrets := c.secrets.map
            (fun s => if s.Name = obj.Name ∧ s.Namespace = obj.Namespace then stored else s)
          some ({ c with secrets := secrets }, stored, none)

/-- writeSSOSecretIfNeeded: one create-or-update call when something is staged.
The mutation assigns every staged pair into the secret's `Data` map, without a
nil check: on a secret without data keys the first assignment aborts (`none`). -/
def writeSSOSecretIfNeeded (client : Client) (ssoSecret : Secret) (ssoSecretUpdates : GoMap) :
    Option (Client × Secret × Option String) :=
  if ssoSecretUpdates.length > 0 then
    CreateOrUpdate
      (client.log (.createOrUpdate ssoSecret.Name ssoSecret.Namespace ssoSecretUpdates))
      ssoSecret
      (fun s =>
        if s.Data = [] ∧ ssoSecretUpdates ≠ [] then none
        else
          let data := ssoSecretUpdates.foldl (fun data kv => GoMap.set data kv.1 kv.2) s.Data
          some { s with Data := data })
  else some (client, ssoSecret, none)

def ssoSecretNameSuffix : String := "-wlapp-sso"

def autoregFragment : String := "-autoreg-"

/-- The candidates CustomizeEnvSSO builds from the secret's keys. -/
def secretEnv (ssoSecret : Secret) : List EnvVar :=
  let secretKeys := sort.Strings
    (ssoSecret.Data.keys.filter (fun k => !strings.Contains k autoregFragment))
  secretKeys.map (fun k =>
    { Name := ssoEnvVarPrefix ++ normalizeEnvVariableName k,
      ValueFrom := some { SecretKeyRef := some { Name := ssoSecret.Name, Key := k } } })

/-- The cross-provider candidates built from the spec. -/
def commonEnv (sso : WebSphereLibertyApplicationSSO) : List EnvVar :=
  (match sso.MapToUserRegistry with
    | some b => [createEnvVarSSO "" "MAPTOUSERREGISTRY" (.bool b)]
    | none => []) ++
  (if sso.RedirectToRPHostAndPort ≠ "" then
    [createEnvVarSSO "" "REDIRECTTORPHOSTANDPORT" (.str sso.RedirectToRPHostAndPort)] else []) ++
  (match sso.Github with
    | some gh =>
      if gh.Hostname ≠ "" then [createEnvVarSSO "" "GITHUB_HOSTNAME" (.str gh.Hostname)] else []
    | none => [])

/-- A candidate for a string field, emitted when the field is not empty. -/
def strEnv (id suffix value : String) : List EnvVar :=
  if value ≠ "" then [createEnvVarSSO id suffix (.str value)] else []

/-- A candidate for a boolean pointer, emitted when the pointer is not nil. -/
def boolEnv (id suffix : String) (value : Option Bool) : List EnvVar :=
  match value with
  | some b => [createEnvVarSSO id suffix (.bool b)]
  | none => []

/-- The candidates of one OIDC descriptor, in the order of the source. -/
def oidcEnv (oidcClient : OidcClient) : List EnvVar :=
  let id := if strings.ToUpper oidcClient.ID = "" then "OIDC" else strings.ToUpper oidcClient.ID
  strEnv id "_DISCOVERYENDPOINT" oidcClient.DiscoveryEndpoint ++
  strEnv id "_GROUPNAMEATTRIBUTE" oidcClient.GroupNameAttribute ++
  strEnv id "_USERNAMEATTRIBUTE" oidcClient.UserNameAttribute ++
  strEnv id "_DISPLAYNAME" oidcClient.DisplayName ++
  boolEnv id "_USERINFOENDPOINTENABLED" oidcClient.UserInfoEndpointEnabled ++
  strEnv id "_REALMNAMEATTRIBUTE" oidcClient.RealmNameAttribute ++
  strEnv id "_SCOPE" oidcClient.Scope ++
  strEnv id "_TOKENENDPOINTAUTHMETHOD" oidcClient.TokenEndpointAuthMethod ++
  boolEnv id "_HOSTNAMEVERIFICATIONENABLED" oidcClient.HostNameVerificationEnabled

/-- The candidates of one OAuth2 descriptor, in the order of the source. -/
def oauth2Env (oauth2Client : OAuth2Client) : List EnvVar :=
  let id :=
    if strings.ToUpper oauth2Client.ID = "" then "OAUTH2" else strings.ToUpper oauth2Client.ID
  strEnv id "_TOKENENDPOINT" oauth2Client.TokenEndpoint ++
  strEnv id "_AUTHORIZATIONENDPOINT" oauth2Client.AuthorizationEndpoint ++
  strEnv id "_GROUPNAMEATTRIBUTE" oauth2Client.GroupNameAttribute ++
  strEnv id "_USERNAMEATTRIBUTE" oauth2Client.UserNameAttribute ++
  strEnv id "_DISPLAYNAME" oauth2Client.DisplayName ++
  strEnv id "_REALMNAMEATTRIBUTE" oauth2Client.RealmNameAttribute ++
  strEnv id "_REALMNAME" oauth2Client.RealmName ++
  strEnv id "_SCOPE" oauth2Client.Scope ++
  strEnv id "_TOKENENDPOINTAUTHMETHOD" oauth2Client.TokenEndpointAuthMethod ++
  strEnv id "_ACCESSTOKENHEADERNAME" oauth2Client.AccessTokenHeaderName ++
  boolEnv id "_ACCESSTOKENREQUIRED" oauth2Client.AccessTokenRequired ++
  boolEnv id "_ACCESSTOKENSUPPORTED" oauth2Client.AccessTokenSupported ++
  strEnv id "_USERAPITYPE" oauth2Client.UserApiType ++
  strEnv id "_USERAPI" oauth2Client.UserApi

/-- The name under which a descriptor's credentials are kept in the secret. -/
def oidcClientName (oidcClient : OidcClient) : String :=
  if oidcClient.ID = "" then "oidc" else oidcClient.ID

/-- The registration request assembled for one provider. -/
def registrationRequest (sso : WebSphereLibertyApplicationSSO) (ssoSecret : Secret)
    (oidcClient : OidcClient) (theRoute : Route) : RegisterData :=
  let clientName := oidcClientName oidcClient
  let pfx := clientName ++ autoregFragment
  let buf := ssoSecret.Data.get (pfx ++ "insecureTLS")
  let insecure := decide (strings.ToUpper buf = "TRUE")
  { DiscoveryURL := oidcClient.DiscoveryEndpoint,
    RouteURL := "https://" ++ theRoute.Host,
    RedirectToRPHostAndPort := sso.RedirectToRPHostAndPort,
    InitialAccessToken := ssoSecret.Data.get (pfx ++ "initialAccessToken"),
    InitialClientId := ssoSecret.Data.get (pfx ++ "initialClientId"),
    InitialClientSecret := ssoSecret.Data.get (pfx ++ "initialClientSecret"),
    GrantTypes := ssoSecret.Data.get (pfx ++ "grantTypes"),
    Scopes := ssoSecret.Data.get (pfx ++ "scopes"),
    InsecureTLS := insecure,
    ProviderId := clientName }

/-- The variables of CustomizeEnvSSO that the provider loop reads and writes. -/
structure SSOState where
  client : Client
  wlapp : WebSphereLibertyApplication
  ssoSecret : Secret
  ssoEnv : List EnvVar := []
  ssoSecretUpdates : GoMap := []

/-- How the provider loop ends: it ran through, or the function returned from
inside it with this error (nil for the deferral), or it aborted in the flush
that follows a failed registration (`st` is the state before the flush). -/
inductive LoopExit where
  | done (st : SSOState)
  | returned (err : Option String) (st : SSOState)
  | aborted (st : SSOState)

/-- The loop over `sso.OIDC`. `RegisterWithOidcProvider` is the registration call. -/
def oidcLoop (RegisterWithOidcProvider : RegisterData → Except String (String × String))
    (isOpenShift : Bool) (sso : WebSphereLibertyApplicationSSO) :
    List OidcClient → SSOState → LoopExit
  | [], st => .done st
  | oidcClient :: rest, st =>
    let st := { st with ssoEnv := st.ssoEnv ++ oidcEnv oidcClient }
    let clientName := oidcClientName oidcClient
    let clientId := st.ssoSecret.Data.get (clientName ++ "-clientId")
    if isOpenShift = true ∧ clientId = "" then
      match st.client.GetRoute st.wlapp.Name st.wlapp.Namespace with
      | (client, .error _) =>
        let status := { st.wlapp.Status with RouteAvailable := some false }
        .returned none { st with client := client, wlapp := { st.wlapp with Status := status } }
      | (client, .ok theRoute) =>
        let regData := registrationRequest sso st.ssoSecret oidcClient theRoute
        let client := client.log (.register regData)
        match RegisterWithOidcProvider regData with
        | .error err =>
          match writeSSOSecretIfNeeded client st.ssoSecret st.ssoSecretUpdates with
          | none => .aborted { st with client := client }
          | some (client, ssoSecret, _) =>
            let msg := "Error occured during registration with OIDC for provider " ++
              clientName ++ ": " ++ err
            .returned (some msg) { st with client := client, ssoSecret := ssoSecret }
        | .ok (clientId, clientSecret) =>
          let updates := st.ssoSecretUpdates
          let updates :=
            updates.set (clientName ++ autoregFragment ++ "RegisteredOidcClientId") clientId
          let updates :=
            updates.set (clientName ++ autoregFragment ++ "RegisteredOidcSecret") clientSecret
          let updates := updates.set (clientName ++ "-clientId") clientId
          let updates := updates.set (clientName ++ "-clientSecret") clientSecret
          let status := { st.wlapp.Status with RouteAvailable := some true }
          oidcLoop RegisterWithOidcProvider isOpenShift sso rest
            { st with
              client := client, ssoSecretUpdates := updates,
              wlapp := { st.wlapp with Status := status } }
    else oidcLoop RegisterWithOidcProvider isOpenShift sso rest st

/-- What a call of CustomizeEnvSSO leaves behind: the returned error, the pod
template, the resource with its status, and the cluster with its call log. -/
structure SSOResult where
  err : Option String
  pts : PodTemplateSpec
  wlapp : WebSphereLibertyApplication
  client : Client

/-- CustomizeEnvSSO processes the configuration for SSO login providers. `none`
is an abort (nil `spec.sso` after the secret was read, a write into the nil data
map of the secret, or no container). -/
def CustomizeEnvSSO (RegisterWithOidcProvider : RegisterData → Except String (String × String))
    (pts : PodTemplateSpec) (wlapp : WebSphereLibertyApplication) (client : Client)
    (isOpenShift : Bool) : Option SSOResult :=
  let secretName := wlapp.Name ++ ssoSecretNameSuffix
  match client.GetSecret secretName wlapp.Namespace with
  | (client, .error err) =>
    let msg := "Secret for Single sign-on (SSO) was not found. Create a secret named \"" ++
      secretName ++ "\" in namespace \"" ++ wlapp.Namespace ++
      "\" with the credentials for the login providers you selected in application image.: " ++
      err
    some { err := some msg, pts := pts, wlapp := wlapp, client := client }
  | (client, .ok ssoSecret) =>
    match wlapp.Spec.SSO with
    | none => none
    | some sso =>
      let ssoEnv := secretEnv ssoSecret ++ commonEnv sso
      match oidcLoop RegisterWithOidcProvider isOpenShift sso sso.OIDC
          { client := client, wlapp := wlapp, ssoSecret := ssoSecret, ssoEnv := ssoEnv } with
      | .returned err st => some { err := err, pts := pts, wlapp := st.wlapp, client := st.client }
      | .aborted _ => none
      | .done st =>
        match writeSSOSecretIfNeeded st.client st.ssoSecret st.ssoSecretUpdates with
        | none => none
        | some (client, _, some err) =>
          let msg := "Error occured when updating SSO secret: " ++ err
          some { err := some msg, pts := pts, wlapp := st.wlapp, client := client }
        | some (client, ssoSecret, none) =>
          let ssoEnv := st.ssoEnv ++ (sso.Oauth2.map oauth2Env).flatten
          let secretRev : EnvVar := { Name := "SSO_SECRET_REV", Value := ssoSecret.ResourceVersion }
          let ssoEnv := ssoEnv ++ [secretRev]
          match pts.Spec.Containers with
          | [] => none
          | c :: cs =>
            let envList := c.Env
            let c := { c with Env := appendMissingEnv envList ssoEnv c.Env }
            let pts := { pts with Spec := { pts.Spec with Containers := c :: cs } }
            some { err := none, pts := pts, wlapp := st.wlapp, client := client }

/-- The state of the provider loop after a successful registration of
`oidcClient` through `theRoute` with result `(clientId, clientSecret)`. -/
def registeredState (sso : WebSphereLibertyApplicationSSO) (st : SSOState)
    (oidcClient : OidcClient) (theRoute : Route) (clientId clientSecret : String) : SSOState :=
  let clientName := oidcClientName oidcClient
  let regData := registrationRequest sso st.ssoSecret oidcClient theRoute
  let updates := st.ssoSecretUpdates
  let updates := updates.set (clientName ++ autoregFragment ++ "RegisteredOidcClientId") clientId
  let updates := updates.set (clientName ++ autoregFragment ++ "RegisteredOidcSecret") clientSecret
  let updates := updates.set (clientName ++ "-clientId") clientId
  let updates := updates.set (clientName ++ "-clientSecret") clientSecret
  let status := { st.wlapp.Status with RouteAvailable := some true }
  { st with
    ssoEnv := st.ssoEnv ++ oidcEnv oidcClient,
    client := (st.client.GetRoute st.wlapp.Name st.wlapp.Namespace).1.log (.register regData),
    ssoSecretUpdates := updates,
    wlapp := { st.wlapp with Status := status } }

/-- The update map `updates` carries, under the four keys of the client name
`N`, the credentials returned by a registration call logged in `calls`. -/
def Staged (RegisterWithOidcProvider : RegisterData → Except String (String × String))
    (calls : List Call) (updates : GoMap) (N : String) : Prop :=
  ∃ d id sec, Call.register d ∈ calls ∧ d.ProviderId = N ∧
    RegisterWithOidcProvider d = .ok (id, sec) ∧
    (N ++ "-clientId", id) ∈ updates ∧ (N ++ "-clientSecret", sec) ∈ updates ∧
    (N ++ autoregFragment ++ "RegisteredOidcClientId", id) ∈ updates ∧
    (N ++ autoregFragment ++ "RegisteredOidcSecret", sec) ∈ updates

/-- The provider loop made no change to the cluster or the resource other than
status flags, counters and the call log. -/
def SameCluster (a b : SSOState) : Prop :=
  b.ssoSecret = a.ssoSecret ∧ b.client.secrets = a.client.secrets ∧
  b.client.writeErr = a.client.writeErr ∧ b.client.routeGet = a.client.routeGet ∧
  b.client.nextResourceVersion = a.client.nextResourceVersion ∧
  b.wlapp.Name = a.wlapp.Name ∧ b.wlapp.Namespace = a.wlapp.Namespace ∧
  b.wlapp.Spec = a.wlapp.Spec

/-! ## Sample inputs for concrete evaluations -/

/-- A secret that holds one bootstrap key and no client id. -/
def sampleSecret : Secret :=
  { Name := "demo-wlapp-sso", Namespace := "ns", Data := [("a-autoreg-scopes", "openid")],
    ResourceVersion := "1" }

/-- An application with two OIDC providers, `a` and `b`. -/
def sampleApp : WebSphereLibertyApplication :=
  { Name := "demo", Namespace := "ns",
    Spec := { SSO := some { OIDC := [{ ID := "a" }, { ID := "b" }] } } }

def samplePts : PodTemplateSpec :=
  { Spec := { Containers := [{ Name := "app" }] } }

/-- A provider that registers `a` and refuses everyone else. -/
def sampleRegister (d : RegisterData) : Except String (String × String) :=
  if d.ProviderId = "a" then .ok ("id-a", "secret-a") else .error "registration refused"

def sampleRoute : Route :=
  { Name := "demo", Namespace := "ns", Host := "demo.example.com" }

/-- A cluster where the route exists. -/
def clusterWithRoute : Client :=
  { secrets := [sampleSecret], routeGet := fun _ _ _ => .ok sampleRoute }

/-- A cluster where the route does not exist. -/
def clusterWithoutRoute : Client :=
  { secrets := [sampleSecret] }

/-- A cluster where the first route lookup succeeds and every later one fails. -/
def clusterRouteLost : Client :=
  { secrets := [sampleSecret],
    routeGet := fun k _ _ => if k = 0 then .ok sampleRoute else .error "route not found" }

/-- The cluster of `clusterWithRoute` with a secret that has no data keys. -/
def clusterEmptySecret : Client :=
  { secrets := [{ Name := "demo-wlapp-sso", Namespace := "ns", ResourceVersion := "1" }],
    routeGet := fun _ _ _ => .ok sampleRoute }

/-- The state the provider loop ends with, whichever way it ends. -/
def LoopExit.state : LoopExit → SSOState
  | .done st => st
  | .returned _ st => st
  | .aborted st => st

/-- The four secret keys written for the client name `N`. -/
def registrationKeys (N : String) : List String :=
  [N ++ autoregFragment ++ "RegisteredOidcClientId", N ++ autoregFragment ++ "RegisteredOidcSecret",
   N ++ "-clientId", N ++ "-clientSecret"]

/-- A provider that registers everyone, with credentials derived from the request. -/
def sampleRegisterAll (d : RegisterData) : Except String (String × String) :=
  .ok ("id-" ++ d.ProviderId, "secret-" ++ d.ProviderId)

/-- The candidate list `ssoEnv` as CustomizeEnvSSO holds it before the merge into
the pod template: secret-derived, cross-provider, per OIDC provider, per OAuth2
provider, and the revision variable with the token `rev`. -/
def ssoCandidates (ssoSecret : Secret) (sso : WebSphereLibertyApplicationSSO) (rev : String) :
    List EnvVar :=
  secretEnv ssoSecret ++ commonEnv sso ++ (sso.OIDC.map oidcEnv).flatten ++
    (sso.Oauth2.map oauth2Env).flatten ++ [{ Name := "SSO_SECRET_REV", Value := rev }]

/-- A template whose container already carries a revision variable. -/
def samplePtsWithRev : PodTemplateSpec :=
  { Spec := { Containers :=
      [{ Name := "app", Env := [{ Name := "SSO_SECRET_REV", Value := "0" }] }] } }

/-- The cluster of `clusterWithRoute` at a later revision of the same secret. -/
def clusterWithRouteRev2 : Client :=
  { secrets := [{ sampleSecret with ResourceVersion := "2" }],
    routeGet := fun _ _ _ => .ok sampleRoute }

/-- An application whose two OIDC descriptors differ in the case of their ID only. -/
def sampleAppCaseIds : WebSphereLibertyApplication :=
  { Name := "demo", Namespace := "ns",
    Spec := { SSO := some { OIDC := [{ ID := "a", DiscoveryEndpoint := "https://one" },
                                     { ID := "A", DiscoveryEndpoint := "https://two" }] } } }

/-- An application with one OIDC and one OAuth2 descriptor of the same ID. -/
def sampleAppSharedId : WebSphereLibertyApplication :=
  { Name := "demo", Namespace := "ns",
    Spec := { SSO := some { OIDC := [{ ID := "x", Scope := "openid" }],
                            Oauth2 := [{ ID := "x", Scope := "profile" }] } } }

/-- A template whose container has two variables, one of them with the name of
an SSO candidate. -/
def samplePresetPts : PodTemplateSpec :=
  let env : List EnvVar :=
    [{ Name := "JAVA_OPTS", Value := "-Xmx1g" }, { Name := "SEC_SSO_A_SCOPE", Value := "preset" }]
  { Spec := { Containers := [{ Name := "app", Env := env }] } }

/-- An application with two OIDC descriptors and one OAuth2 descriptor. -/
def sampleThreeProviders : WebSphereLibertyApplicationSSO :=
  { OIDC := [{ ID := "a", DiscoveryEndpoint := "https://one", Scope := "openid" },
             { ID := "b", Scope := "email" }],
    Oauth2 := [{ ID := "c", TokenEndpoint := "https://token" }] }

/-- The secret of `clusterWithCredentials`. -/
def sampleCredentials : Secret :=
  { Name := "demo-wlapp-sso", Namespace := "ns",
    Data := [("b-clientSecret", "y"), ("a-clientId", "x")], ResourceVersion := "7" }

/-- A cluster whose secret holds credentials of the providers. -/
def clusterWithCredentials : Client :=
  { secrets := [sampleCredentials] }

/-- A cluster whose secret has two keys that normalize to one name. -/
def clusterTwinKeys : Client :=
  { secrets := [{ Name := "demo-wlapp-sso", Namespace := "ns",
                  Data := [("k-1", "v"), ("k.1", "w")], ResourceVersion := "1" }] }

/-! ## api/v1: Initialize, labels and annotations -/

/-- The map operation `delete(m, k)`. -/
def GoMap.delete (m : GoMap) (k : String) : GoMap :=
  m.filter (fun kv => kv.1 ≠ k)

/-- Initialize sets default values. -/
def WebSphereLibertyApplication.Initialize (cr : WebSphereLibertyApplication) :
    WebSphereLibertyApplication :=
  let spec := cr.Spec
  let spec :=
    if spec.PullPolicy = none then { spec with PullPolicy := some "IfNotPresent" } else spec
  let spec :=
    if spec.ResourceConstraints = none then { spec with ResourceConstraints := some {} }
    else spec
  let spec :=
    if spec.ApplicationName = "" then
      if cr.Labels ≠ none ∧ (cr.Labels.getD []).get "app.kubernetes.io/part-of" ≠ "" then
        { spec with ApplicationName := (cr.Labels.getD []).get "app.kubernetes.io/part-of" }
      else { spec with ApplicationName := cr.Name }
    else spec
  let labels := match cr.Labels with
    | some m => some (m.set "app.kubernetes.io/part-of" spec.ApplicationName)
    | none => none
  let service : WebSphereLibertyApplicationService := match spec.Service with
    | some svc => svc
    | none => {}
  let service :=
    if service.Type_ = none then { service with Type_ := some "ClusterIP" } else service
  let service := if service.Port = 0 then { service with Port := 9080 } else service
  { cr with Labels := labels, Spec := { spec with Service := some service } }

/-- GetLabels returns the set of labels to be added to all resources. -/
def WebSphereLibertyApplication.GetLabels (cr : WebSphereLibertyApplication) : GoMap :=
  let labels : GoMap := [
    ("app.kubernetes.io/instance", cr.Name),
    ("app.kubernetes.io/name", cr.Name),
    ("app.kubernetes.io/managed-by", "websphere-liberty-operator"),
    ("app.kubernetes.io/component", "backend"),
    ("app.kubernetes.io/part-of", cr.Spec.ApplicationName)]
  let labels :=
    if cr.Spec.ApplicationVersion ≠ "" then
      labels.set "app.kubernetes.io/version" cr.Spec.ApplicationVersion
    else labels
  let own := cr.Labels.getD []
  own.keys.foldl
    (fun labels key =>
      if key ≠ "app.kubernetes.io/instance" then labels.set key (own.get key) else labels)
    labels

/-- GetAnnotations returns the set of annotations to be added to all resources. -/
def WebSphereLibertyApplication.GetAnnotations (cr : WebSphereLibertyApplication) : GoMap :=
  let own := cr.Annotations.getD []
  let annotations : GoMap := own.keys.foldl (fun a k => a.set k (own.get k)) []
  annotations.delete "kubectl.kubernetes.io/last-applied-configuration"

/-! ## utils.go: the serviceability claim, Contains, Remove -/

/-- corev1.PersistentVolumeClaim with its spec flattened: `Requests` is
`Spec.Resources.Requests`, a map from resource name to quantity. -/
structure PersistentVolumeClaim (Q : Type) where
  Name : String := ""
  Namespace : String := ""
  Labels : GoMap := []
  Annotations : GoMap := []
  Requests : List (String × Q) := []
  AccessModes : List String := []
  StorageClassName : Option String := none

/-- CreateServiceabilityPVC creates the PersistentVolumeClaim for serviceability.
`ParseQuantity` stands for `resource.ParseQuantity`, which `resource.MustParse`
calls, aborting on its error; `none` is that abort, or the nil dereference when
serviceability is not configured. -/
def CreateServiceabilityPVC {Q : Type} (ParseQuantity : String → Except String Q)
    (wlapp : WebSphereLibertyApplication) : Option (PersistentVolumeClaim Q) :=
  match wlapp.GetServiceability with
  | none => none
  | some svc =>
    match ParseQuantity svc.GetSize with
    | .error _ => none
    | .ok quantity =>
      let persistentVolume : PersistentVolumeClaim Q :=
        { Name := wlapp.Name ++ "-serviceability",
          Namespace := wlapp.Namespace,
          Labels := wlapp.GetLabels,
          Annotations := wlapp.GetAnnotations,
          Requests := [("storage", quantity)],
          AccessModes := ["ReadWriteMany", "ReadWriteOnce"] }
      if svc.StorageClassName ≠ "" then
        some { persistentVolume with StorageClassName := some svc.StorageClassName }
      else some persistentVolume

/-- Contains: whether `s` is an element of `list`. -/
def Contains : List String → String → Bool
  | [], _ => false
  | v :: rest, s => if v = s then true else Contains rest s

/-- The range loop of Remove with `k` turns left, at index `i`. `cells` are the
cells of the backing array that the range expression spans, read and rewritten
in place (the append never exceeds the capacity), and `len` is the length of
`list` at this turn. The expression `list[:i]` is within the capacity; `none` is
the slice-bounds abort of `list[i+1:]` when `i + 1` exceeds `len`. -/
def Remove.loop (s : String) : Nat → Nat → List String → Nat → Option (List String)
  | 0, _, cells, len => some (cells.take len)
  | k + 1, i, cells, len =>
    if cells.getD i "" = s then
      if i + 1 ≤ len then
        Remove.loop s k (i + 1)
          (cells.take i ++ (cells.drop (i + 1)).take (len - (i + 1)) ++ cells.drop (len - 1))
          (len - 1)
      else none
    else Remove.loop s k (i + 1) cells len

/-- Remove: the range is over the slice as it was on entry. -/
def Remove (list : List String) (s : String) : Option (List String) :=
  Remove.loop s list.length 0 list list.length

/-- An application with serviceability by size. -/
def sampleServiceabilityApp : WebSphereLibertyApplication :=
  { Name := "demo", Namespace := "ns",
    Spec := { Serviceability := some { Size := "10Gi", StorageClassName := "fast" } } }

/-- A template with one container that already mounts another volume. -/
def sampleMountedPts : PodTemplateSpec :=
  let c : Container := { Name := "app", VolumeMounts := [{ Name := "tmp", MountPath := "/tmp" }] }
  { Spec := { Containers := [c], Volumes := [{ Name := "tmp" }] } }

/-- An application without application name that carries the part-of label. -/
def sampleLabelledApp : WebSphereLibertyApplication :=
  { Name := "demo", Namespace := "ns", Labels := some [("app.kubernetes.io/part-of", "suite")] }

/-- The cluster of `clusterWithRoute` with a store that refuses writes. -/
def clusterWriteRefused : Client :=
  { secrets := [sampleSecret], routeGet := fun _ _ _ => .ok sampleRoute,
    writeErr := some "forbidden" }

/-! ## Lemmas on the environment merge -/

theorem findEnvVar_isSome_iff (name : String) (l : List EnvVar) :
    (findEnvVar name l).isSome = true ↔ ∃ e ∈ l, e.Name = name := by
  induction l with
  | nil => simp [findEnvVar]
  | cons a t ih =>
    unfold findEnvVar
    by_cases h : a.Name = name
    · simp [h]
    · simp [h, ih]

theorem findEnvVar_isSome_append (name : String) (l1 l2 : List EnvVar) :
    (findEnvVar name (l1 ++ l2)).isSome =
      ((findEnvVar name l1).isSome || (findEnvVar name l2).isSome) := by
  rw [Bool.eq_iff_iff]
  simp only [Bool.or_eq_true, findEnvVar_isSome_iff, List.mem_append]
  constructor
  · rintro ⟨e, he | he, hn⟩
    · exact Or.inl ⟨e, he, hn⟩
    · exact Or.inr ⟨e, he, hn⟩
  · rintro (⟨e, he, hn⟩ | ⟨e, he, hn⟩)
    · exact ⟨e, Or.inl he, hn⟩
    · exact ⟨e, Or.inr he, hn⟩

theorem appendMissingEnv_eq (envList cands env : List EnvVar) :
    appendMissingEnv envList cands env =
      env ++ cands.filter (fun v => !(findEnvVar v.Name envList).isSome) := by
  unfold appendMissingEnv
  induction cands generalizing env with
  | nil => simp
  | cons v t ih =>
    simp only [List.foldl_cons, List.filter_cons]
    by_cases h : (findEnvVar v.Name envList).isSome = true
    · simp [h, ih]
    · simp [h, ih]

theorem appendMissingEnv_finds (envList cands : List EnvVar) (v : EnvVar) (hv : v ∈ cands) :
    (findEnvVar v.Name (appendMissingEnv envList cands envList)).isSome = true := by
  rw [appendMissingEnv_eq, findEnvVar_isSome_append]
  by_cases h : (findEnvVar v.Name envList).isSome = true
  · rw [h, Bool.true_or]
  · have hm : v ∈ cands.filter (fun w => !(findEnvVar w.Name envList).isSome) := by
      rw [List.mem_filter]
      refine ⟨hv, ?_⟩
      rw [Bool.not_eq_true] at h
      rw [h]
      rfl
    have : (findEnvVar v.Name
        (cands.filter (fun w => !(findEnvVar w.Name envList).isSome))).isSome = true :=
      (findEnvVar_isSome_iff _ _).2 ⟨v, hm, rfl⟩
    rw [this, Bool.or_true]

theorem appendMissingEnv_fixed (cands env : List EnvVar)
    (h : ∀ v ∈ cands, (findEnvVar v.Name env).isSome = true) :
    appendMissingEnv env cands env = env := by
  rw [appendMissingEnv_eq]
  have : cands.filter (fun v => !(findEnvVar v.Name env).isSome) = [] := by
    rw [List.filter_eq_nil_iff]
    intro v hv
    rw [h v hv]
    decide
  rw [this, List.append_nil]

theorem foundLoop_eq {α : Type} (p : α → Prop) [DecidablePred p] (l : List α) (b : Bool) :
    l.foldl (fun found v => if p v then true else found) b = (b || l.any (fun v => decide (p v))) := by
  induction l generalizing b with
  | nil => simp
  | cons a t ih =>
    simp only [List.foldl_cons, List.any_cons, ih]
    by_cases h : p a <;> simp [h]

/-! ## Pod template customisation: theorems -/

/-- C1: on a template whose first container is `c`, CustomizeLibertyEnv returns
the template with `c`'s env list followed by those of the three logging defaults
and, with serviceability configured, the three diagnostics directories, in this
order, whose name no entry of `c`'s list carries; nothing else changes. -/
theorem CustomizeLibertyEnv_appends_missing_defaults
    (pts : PodTemplateSpec) (la : WebSphereLibertyApplication)
    (c : Container) (cs : List Container) (h : pts.Spec.Containers = c :: cs) :
    CustomizeLibertyEnv pts la = some { pts with Spec := { pts.Spec with
      Containers := { c with Env := c.Env ++
        ((([{ Name := "WLP_LOGGING_CONSOLE_LOGLEVEL", Value := "info" },
           { Name := "WLP_LOGGING_CONSOLE_SOURCE", Value := "message,accessLog,ffdc,audit" },
           { Name := "WLP_LOGGING_CONSOLE_FORMAT", Value := "json" }] : List EnvVar) ++
          (if la.Spec.Serviceability.isSome then
            ([{ Name := "IBM_HEAPDUMPDIR", Value := "/serviceability" },
              { Name := "IBM_COREDIR", Value := "/serviceability" },
              { Name := "IBM_JAVACOREDIR", Value := "/serviceability" }] : List EnvVar)
           else [])).filter
          (fun v => decide (∀ e ∈ c.Env, e.Name ≠ v.Name))) } :: cs } } := by
  have hf : ∀ v : EnvVar, (!(findEnvVar v.Name c.Env).isSome) =
      decide (∀ e ∈ c.Env, e.Name ≠ v.Name) := by
    intro v
    rw [Bool.eq_iff_iff]
    simp only [Bool.not_eq_true', decide_eq_true_eq]
    rw [← Bool.not_eq_true, findEnvVar_isSome_iff]
    simp
  unfold CustomizeLibertyEnv
  simp only [h, appendMissingEnv_eq, hf]
  cases hs : la.Spec.Serviceability <;>
    simp [libertyTargetEnv, WebSphereLibertyApplication.GetServiceability, hs,
      serviceabilityMountPath]

/-- Witness of C1: a container that already sets the log level, with serviceability. -/
theorem CustomizeLibertyEnv_appends_missing_defaults_witness :
    CustomizeLibertyEnv
      { Spec := { Containers := [{ Env := [{ Name := "WLP_LOGGING_CONSOLE_LOGLEVEL", Value := "debug" }] }] } }
      { Spec := { Serviceability := some { Size := "1Gi" } } } =
    some { Spec := { Containers := [{ Env := [
      { Name := "WLP_LOGGING_CONSOLE_LOGLEVEL", Value := "debug" },
      { Name := "WLP_LOGGING_CONSOLE_SOURCE", Value := "message,accessLog,ffdc,audit" },
      { Name := "WLP_LOGGING_CONSOLE_FORMAT", Value := "json" },
      { Name := "IBM_HEAPDUMPDIR", Value := "/serviceability" },
      { Name := "IBM_COREDIR", Value := "/serviceability" },
      { Name := "IBM_JAVACOREDIR", Value := "/serviceability" }] }] } } := by
  rw [CustomizeLibertyEnv_appends_missing_defaults _ _
    { Env := [{ Name := "WLP_LOGGING_CONSOLE_LOGLEVEL", Value := "debug" }] } [] rfl]
  decide

theorem CustomizeLibertyEnv_fixed (p : PodTemplateSpec) (la : WebSphereLibertyApplication)
    (c : Container) (cs : List Container) (h : p.Spec.Containers = c :: cs)
    (hE : ∀ v ∈ libertyTargetEnv la, (findEnvVar v.Name c.Env).isSome = true) :
    CustomizeLibertyEnv p la = some p := by
  unfold CustomizeLibertyEnv
  simp only [h]
  rw [appendMissingEnv_fixed _ _ hE]
  obtain ⟨ann, ⟨conts, vols⟩⟩ := p
  simp only at h
  subst h
  rfl

theorem foundLoop_append_self {α : Type} (p : α → Prop) [DecidablePred p] (l : List α) (x : α)
    (hx : p x) :
    (if !(l.foldl (fun found v => if p v then true else found) false) then l ++ [x] else l).foldl
      (fun found v => if p v then true else found) false = true := by
  by_cases hf : l.foldl (fun found v => if p v then true else found) false = true
  · simp only [hf, Bool.not_true, Bool.false_eq_true, if_false]
  · rw [Bool.not_eq_true] at hf
    simp only [hf, Bool.not_false, if_true]
    rw [foundLoop_eq]
    simp [hx]

theorem ConfigureServiceability_idempotent (p p1 : PodTemplateSpec)
    (la : WebSphereLibertyApplication) (h : ConfigureServiceability p la = some p1) :
    ConfigureServiceability p1 la = some p1 := by
  unfold ConfigureServiceability at h ⊢
  cases hs : la.GetServiceability with
  | none => simp only [hs] at h ⊢
  | some svc =>
    simp only [hs] at h ⊢
    cases hc : p.Spec.Containers with
    | nil => simp [hc] at h
    | cons c cs =>
      simp only [hc, Option.some.injEq] at h
      subst h
      simp only
      have hm := foundLoop_append_self (fun v : VolumeMount => v.Name = "serviceability")
        c.VolumeMounts { Name := "serviceability", MountPath := serviceabilityMountPath } rfl
      have hv := foundLoop_append_self (fun v : Volume => v.Name = "serviceability")
        p.Spec.Volumes
        { Name := "serviceability", PersistentVolumeClaim := some { ClaimName :=
            if svc.VolumeClaimName ≠ "" then svc.VolumeClaimName
            else la.Name ++ "-serviceability" } } rfl
      simp only [hm, hv, Bool.not_true, Bool.false_eq_true, if_false]

theorem ConfigureServiceability_keeps_env (p p1 : PodTemplateSpec)
    (la : WebSphereLibertyApplication) (c : Container) (cs : List Container)
    (hc : p.Spec.Containers = c :: cs) (h : ConfigureServiceability p la = some p1) :
    ∃ c1, p1.Spec.Containers = c1 :: cs ∧ c1.Env = c.Env := by
  unfold ConfigureServiceability at h
  cases hs : la.GetServiceability with
  | none =>
    simp only [hs, Option.some.injEq] at h
    subst h
    exact ⟨c, hc, rfl⟩
  | some svc =>
    simp only [hs, hc, Option.some.injEq] at h
    subst h
    exact ⟨_, rfl, rfl⟩

theorem ConfigureServiceability_total (p : PodTemplateSpec) (la : WebSphereLibertyApplication)
    (hc : p.Spec.Containers ≠ []) : ∃ p1, ConfigureServiceability p la = some p1 := by
  unfold ConfigureServiceability
  cases la.GetServiceability with
  | none => exact ⟨_, rfl⟩
  | some svc =>
    cases hcs : p.Spec.Containers with
    | nil => exact absurd hcs hc
    | cons c cs => exact ⟨_, rfl⟩

/-- C2: on a template with at least one container, running CustomizeLibertyEnv
and then ConfigureServiceability succeeds, and running the pair again on the
result returns that result unchanged. -/
theorem customize_then_configure_idempotent
    (pts : PodTemplateSpec) (la : WebSphereLibertyApplication)
    (h : pts.Spec.Containers ≠ []) :
    ∃ p1, (CustomizeLibertyEnv pts la).bind (fun p => ConfigureServiceability p la) = some p1 ∧
      (CustomizeLibertyEnv p1 la).bind (fun p => ConfigureServiceability p la) = some p1 := by
  cases hc : pts.Spec.Containers with
  | nil => exact absurd hc h
  | cons c cs =>
    have h1 : CustomizeLibertyEnv pts la = some { pts with Spec := { pts.Spec with
        Containers := { c with Env := appendMissingEnv c.Env (libertyTargetEnv la) c.Env } :: cs } } := by
      unfold CustomizeLibertyEnv
      simp only [hc]
    obtain ⟨p1, hp1⟩ := ConfigureServiceability_total
      { pts with Spec := { pts.Spec with
        Containers := { c with Env := appendMissingEnv c.Env (libertyTargetEnv la) c.Env } :: cs } }
      la (by simp)
    obtain ⟨c1, hc1, he1⟩ := ConfigureServiceability_keeps_env _ p1 la _ cs rfl hp1
    refine ⟨p1, ?_, ?_⟩
    · rw [h1]
      exact hp1
    · have hfix : CustomizeLibertyEnv p1 la = some p1 := by
        apply CustomizeLibertyEnv_fixed p1 la c1 cs hc1
        intro v hv
        rw [he1]
        exact appendMissingEnv_finds c.Env (libertyTargetEnv la) v hv
      rw [hfix]
      exact ConfigureServiceability_idempotent _ _ la hp1

/-- Witness of C2: an empty container and a claim name given by the user. -/
theorem customize_then_configure_idempotent_witness :
    ∃ p1, (CustomizeLibertyEnv { Spec := { Containers := [{ Name := "app" }] } }
          { Name := "demo", Spec := { Serviceability := some { VolumeClaimName := "pvc-x" } } }).bind
        (fun p => ConfigureServiceability p
          { Name := "demo", Spec := { Serviceability := some { VolumeClaimName := "pvc-x" } } })
        = some p1 ∧
      (CustomizeLibertyEnv p1
          { Name := "demo", Spec := { Serviceability := some { VolumeClaimName := "pvc-x" } } }).bind
        (fun p => ConfigureServiceability p
          { Name := "demo", Spec := { Serviceability := some { VolumeClaimName := "pvc-x" } } })
        = some p1 :=
  customize_then_configure_idempotent { Spec := { Containers := [{ Name := "app" }] } }
    { Name := "demo", Spec := { Serviceability := some { VolumeClaimName := "pvc-x" } } }
    (by decide)

/-! ## Validate: theorems -/

theorem Validate_ok_iff {Q : Type} (ParseQuantity : String → Except String Q)
    (wlapp : WebSphereLibertyApplication) (svc : WebSphereLibertyApplicationServiceability)
    (hs : wlapp.Spec.Serviceability = some svc) :
    (Validate ParseQuantity wlapp).1 = true ↔
      (svc.VolumeClaimName ≠ "" ∨ (svc.Size ≠ "" ∧ parsed (ParseQuantity svc.Size) = true)) := by
  unfold Validate
  simp only [WebSphereLibertyApplication.GetServiceability, hs,
    WebSphereLibertyApplicationServiceability.GetVolumeClaimName,
    WebSphereLibertyApplicationServiceability.GetSize]
  by_cases hv : svc.VolumeClaimName = ""
  · by_cases hz : svc.Size = ""
    · simp [hv, hz]
    · cases hp : ParseQuantity svc.Size <;> simp [hv, hz, parsed]
  · simp [hv]

theorem Validate_bool_iff_no_error {Q : Type} (ParseQuantity : String → Except String Q)
    (wlapp : WebSphereLibertyApplication) :
    (Validate ParseQuantity wlapp).1 = true ↔ (Validate ParseQuantity wlapp).2 = none := by
  unfold Validate
  cases hs : wlapp.GetServiceability with
  | none => simp
  | some svc =>
    simp only
    by_cases hv : svc.GetVolumeClaimName = ""
    · by_cases hz : svc.GetSize = ""
      · simp [hv, hz]
      · cases hp : ParseQuantity svc.GetSize <;> simp [hv, hz]
    · simp [hv]

/-- C6: for a parser that accepts "10Gi" and rejects "bogus", Validate is ok
without serviceability; with serviceability and an empty volumeClaimName it is
ok exactly when size is non-empty and parses, so size "10Gi" is valid while
sizes "" and "bogus" are invalid; an empty size with claim name "pvc-x", or any
non-empty claim name, is valid; and the boolean is true exactly when the error
is nil. -/
theorem Validate_serviceability_cases {Q : Type} (ParseQuantity : String → Except String Q)
    (h10 : parsed (ParseQuantity "10Gi") = true)
    (hbogus : parsed (ParseQuantity "bogus") = false) :
    (∀ wlapp : WebSphereLibertyApplication, wlapp.Spec.Serviceability = none →
        Validate ParseQuantity wlapp = (true, none)) ∧
    (∀ (wlapp : WebSphereLibertyApplication) (svc : WebSphereLibertyApplicationServiceability),
        wlapp.Spec.Serviceability = some svc → svc.VolumeClaimName = "" →
        ((Validate ParseQuantity wlapp).1 = true ↔
          (svc.Size ≠ "" ∧ parsed (ParseQuantity svc.Size) = true))) ∧
    (∀ wlapp : WebSphereLibertyApplication,
        wlapp.Spec.Serviceability = some { Size := "10Gi", VolumeClaimName := "" } →
        Validate ParseQuantity wlapp = (true, none)) ∧
    (∀ wlapp : WebSphereLibertyApplication,
        wlapp.Spec.Serviceability = some { Size := "", VolumeClaimName := "" } →
        (Validate ParseQuantity wlapp).1 = false) ∧
    (∀ wlapp : WebSphereLibertyApplication,
        wlapp.Spec.Serviceability = some { Size := "bogus", VolumeClaimName := "" } →
        (Validate ParseQuantity wlapp).1 = false) ∧
    (∀ wlapp : WebSphereLibertyApplication,
        wlapp.Spec.Serviceability = some { Size := "", VolumeClaimName := "pvc-x" } →
        Validate ParseQuantity wlapp = (true, none)) ∧
    (∀ (wlapp : WebSphereLibertyApplication) (svc : WebSphereLibertyApplicationServiceability),
        wlapp.Spec.Serviceability = some svc → svc.Size = "" → svc.VolumeClaimName ≠ "" →
        Validate ParseQuantity wlapp = (true, none)) ∧
    (∀ wlapp : WebSphereLibertyApplication,
        (Validate ParseQuantity wlapp).1 = true ↔ (Validate ParseQuantity wlapp).2 = none) := by
  have hpair : ∀ wlapp : WebSphereLibertyApplication,
      (Validate ParseQuantity wlapp).1 = true → Validate ParseQuantity wlapp = (true, none) := by
    intro wlapp h1
    have h2 := (Validate_bool_iff_no_error ParseQuantity wlapp).1 h1
    exact Prod.ext h1 h2
  refine ⟨?_, ?_, ?_, ?_, ?_, ?_, ?_, Validate_bool_iff_no_error ParseQuantity⟩
  · intro wlapp hs
    simp [Validate, WebSphereLibertyApplication.GetServiceability, hs]
  · intro wlapp svc hs hv
    rw [Validate_ok_iff ParseQuantity wlapp svc hs]
    simp [hv]
  · intro wlapp hs
    apply hpair
    rw [Validate_ok_iff ParseQuantity wlapp _ hs]
    exact Or.inr ⟨by decide, h10⟩
  · intro wlapp hs
    rw [← Bool.not_eq_true, Validate_ok_iff ParseQuantity wlapp _ hs]
    simp
  · intro wlapp hs
    rw [← Bool.not_eq_true, Validate_ok_iff ParseQuantity wlapp _ hs]
    simp [hbogus]
  · intro wlapp hs
    apply hpair
    rw [Validate_ok_iff ParseQuantity wlapp _ hs]
    exact Or.inl (by decide)
  · intro wlapp svc hs _ hv
    apply hpair
    rw [Validate_ok_iff ParseQuantity wlapp svc hs]
    exact Or.inl hv

/-- Witness of C6: the sample quantity reader accepts "10Gi" and rejects "bogus". -/
theorem Validate_serviceability_cases_witness :
    Validate sampleParseQuantity
        { Spec := { Serviceability := some { Size := "10Gi", VolumeClaimName := "" } } } =
      (true, none) ∧
    (Validate sampleParseQuantity
        { Spec := { Serviceability := some { Size := "bogus", VolumeClaimName := "" } } }).1 =
      false :=
  ⟨(Validate_serviceability_cases sampleParseQuantity (by decide) (by decide)).2.2.1 _ rfl,
   (Validate_serviceability_cases sampleParseQuantity (by decide) (by decide)).2.2.2.2.1 _ rfl⟩

/-- Counterexample to C7: with size "bogus", which does not parse, and claim name
"pvc-x" both set, Validate returns ok, although it is not the case that exactly
one of the two is set and that the set size parses. -/
theorem Validate_accepts_both_set :
    (Validate sampleParseQuantity
        { Spec := { Serviceability := some { Size := "bogus", VolumeClaimName := "pvc-x" } } }).1 =
      true ∧
    ¬ ((("bogus" ≠ "" ∧ "pvc-x" = "") ∨ ("bogus" = "" ∧ "pvc-x" ≠ "")) ∧
        ("bogus" ≠ "" → parsed (sampleParseQuantity "bogus") = true)) := by
  decide

/-- C7 as amended: with serviceability configured, Validate returns ok only if at
least one of size and volumeClaimName is set and, whenever volumeClaimName is
empty, size parses as a quantity; a set volumeClaimName alone makes it ok. -/
theorem Validate_ok_requires_claim_or_parsable_size {Q : Type}
    (ParseQuantity : String → Except String Q)
    (wlapp : WebSphereLibertyApplication) (svc : WebSphereLibertyApplicationServiceability)
    (hs : wlapp.Spec.Serviceability = some svc) :
    ((Validate ParseQuantity wlapp).1 = true →
      (svc.Size ≠ "" ∨ svc.VolumeClaimName ≠ "") ∧
      (svc.VolumeClaimName = "" → parsed (ParseQuantity svc.Size) = true)) ∧
    (svc.VolumeClaimName ≠ "" → Validate ParseQuantity wlapp = (true, none)) := by
  constructor
  · intro h
    rcases (Validate_ok_iff ParseQuantity wlapp svc hs).1 h with hv | ⟨hz, hp⟩
    · exact ⟨Or.inr hv, fun h0 => absurd h0 hv⟩
    · exact ⟨Or.inl hz, fun _ => hp⟩
  · intro hv
    have h1 := (Validate_ok_iff ParseQuantity wlapp svc hs).2 (Or.inl hv)
    exact Prod.ext h1 ((Validate_bool_iff_no_error ParseQuantity wlapp).1 h1)

/-- Witness of C7 as amended: a claim name with an unparsable size. -/
theorem Validate_ok_requires_claim_or_parsable_size_witness :
    Validate sampleParseQuantity
        { Spec := { Serviceability := some { Size := "bogus", VolumeClaimName := "pvc-x" } } } =
      (true, none) :=
  (Validate_ok_requires_claim_or_parsable_size sampleParseQuantity
    { Spec := { Serviceability := some { Size := "bogus", VolumeClaimName := "pvc-x" } } }
    { Size := "bogus", VolumeClaimName := "pvc-x" } rfl).2 (by decide)

/-! ## The ledger: lemmas -/

theorem GetType_of_declared (x : StatusCondition) (h : x.Type_ = StatusConditionTypeReconciled) :
    x.GetType = some common.StatusConditionTypeReconciled := by
  simp [StatusCondition.GetType, convertToCommonStatusConditionType, h]

theorem GetType_some_declared (x : StatusCondition) (t : common.StatusConditionType)
    (h : x.GetType = some t) :
    x.Type_ = StatusConditionTypeReconciled ∧ t = common.StatusConditionTypeReconciled := by
  unfold StatusCondition.GetType convertToCommonStatusConditionType at h
  by_cases hx : x.Type_ = StatusConditionTypeReconciled
  · simp only [hx, if_true, Option.some.injEq] at h
    exact ⟨hx, h.symm⟩
  · simp [hx] at h

theorem SetCondition_scan_some (conds : List StatusCondition) (c : StatusCondition)
    (i : Nat) (slot r : Option Nat) (h : SetCondition.scan conds c i slot = some r) :
    (∀ x ∈ conds, x.Type_ = StatusConditionTypeReconciled) ∧
      (conds ≠ [] → c.Type_ = StatusConditionTypeReconciled) := by
  induction conds generalizing i slot with
  | nil => simp
  | cons x rest ih =>
    unfold SetCondition.scan at h
    cases hx : x.GetType with
    | none => simp [hx] at h
    | some a =>
      cases hc : c.GetType with
      | none => simp [hx, hc] at h
      | some b =>
        simp only [hx, hc] at h
        have h1 := ih _ _ h
        have hxd := (GetType_some_declared x a hx).1
        have hcd := (GetType_some_declared c b hc).1
        refine ⟨?_, fun _ => hcd⟩
        intro y hy
        rcases List.mem_cons.1 hy with rfl | hy
        · exact hxd
        · exact h1.1 y hy

theorem SetCondition_scan_declared (conds : List StatusCondition) (c : StatusCondition)
    (i : Nat) (slot : Option Nat)
    (hst : ∀ x ∈ conds, x.Type_ = StatusConditionTypeReconciled)
    (hc : c.Type_ = StatusConditionTypeReconciled) :
    SetCondition.scan conds c i slot =
      some (if conds = [] then slot else some (i + conds.length - 1)) := by
  induction conds generalizing i slot with
  | nil => simp [SetCondition.scan]
  | cons x rest ih =>
    unfold SetCondition.scan
    rw [GetType_of_declared x (hst x (List.mem_cons_self _ _)), GetType_of_declared c hc]
    simp only [if_true]
    rw [ih (i + 1) (some i) (fun y hy => hst y (List.mem_cons_of_mem _ hy))]
    cases rest with
    | nil => simp
    | cons y t =>
      simp only [List.length_cons, reduceCtorEq, if_false, Option.some.injEq]
      congr 1
      omega

theorem getD_snoc {α : Type} (pre : List α) (old d : α) :
    (pre ++ [old]).getD pre.length d = old := by
  induction pre with
  | nil => rfl
  | cons a t ih => simp

theorem set_snoc {α : Type} (pre : List α) (old v : α) :
    (pre ++ [old]).set pre.length v = pre ++ [v] := by
  induction pre with
  | nil => rfl
  | cons a t ih => simp

theorem SetCondition_empty (s : WebSphereLibertyApplicationStatus) (c : StatusCondition)
    (now : Nat) (hs : s.Conditions = []) (hc : c.Type_ = StatusConditionTypeReconciled) :
    s.SetCondition c now = some { s with Conditions :=
      [{ LastTransitionTime := if "" ≠ c.Status then some now else none,
         Reason := c.Reason, Message := c.Message, Status := c.Status, Type_ := c.Type_ }] } := by
  unfold WebSphereLibertyApplicationStatus.SetCondition
  rw [hs]
  simp only [SetCondition.scan, GetType_of_declared c hc]
  by_cases hd : "" = c.Status
  · simp [StatusCondition.GetStatus, StatusCondition.SetType, StatusCondition.SetStatus,
      StatusCondition.SetMessage, StatusCondition.SetReason, StatusCondition.GetReason,
      StatusCondition.GetMessage, StatusCondition.SetLastTransitionTime,
      convertFromCommonStatusConditionType, hd.symm, hc]
  · simp [StatusCondition.GetStatus, StatusCondition.SetType, StatusCondition.SetStatus,
      StatusCondition.SetMessage, StatusCondition.SetReason, StatusCondition.GetReason,
      StatusCondition.GetMessage, StatusCondition.SetLastTransitionTime,
      convertFromCommonStatusConditionType, hd, hc]

theorem SetCondition_snoc (s : WebSphereLibertyApplicationStatus) (c : StatusCondition)
    (now : Nat) (pre : List StatusCondition) (old : StatusCondition)
    (hs : s.Conditions = pre ++ [old])
    (hst : ∀ x ∈ s.Conditions, x.Type_ = StatusConditionTypeReconciled)
    (hc : c.Type_ = StatusConditionTypeReconciled) :
    s.SetCondition c now = some { s with Conditions := pre ++
      [{ LastTransitionTime :=
           if old.Status ≠ c.Status then some now else old.LastTransitionTime,
         Reason := c.Reason, Message := c.Message, Status := c.Status, Type_ := c.Type_ }] } := by
  unfold WebSphereLibertyApplicationStatus.SetCondition
  rw [SetCondition_scan_declared s.Conditions c 0 none hst hc, hs]
  have hne : pre ++ [old] ≠ [] := by simp
  have hlen : 0 + (pre ++ [old]).length - 1 = pre.length := by simp
  simp only [hne, if_false, hlen, getD_snoc, set_snoc, GetType_of_declared c hc]
  by_cases hd : old.Status = c.Status
  · simp [StatusCondition.GetStatus, StatusCondition.SetType, StatusCondition.SetStatus,
      StatusCondition.SetMessage, StatusCondition.SetReason, StatusCondition.GetReason,
      StatusCondition.GetMessage, StatusCondition.SetLastTransitionTime,
      convertFromCommonStatusConditionType, hd, hc]
  · simp [StatusCondition.GetStatus, StatusCondition.SetType, StatusCondition.SetStatus,
      StatusCondition.SetMessage, StatusCondition.SetReason, StatusCondition.GetReason,
      StatusCondition.GetMessage, StatusCondition.SetLastTransitionTime,
      convertFromCommonStatusConditionType, hd, hc]

theorem all_declared_types_eq (conds : List StatusCondition) (c : StatusCondition)
    (hst : ∀ x ∈ conds, x.Type_ = StatusConditionTypeReconciled)
    (hc : c.Type_ = StatusConditionTypeReconciled) : ∀ x ∈ conds, x.Type_ = c.Type_ :=
  fun x hx => (hst x hx).trans hc.symm

theorem GetCondition_scan_head (x : StatusCondition) (rest : List StatusCondition)
    (h : x.Type_ = StatusConditionTypeReconciled) :
    GetCondition.scan (x :: rest) common.StatusConditionTypeReconciled = some (some x) := by
  simp [GetCondition.scan, GetType_of_declared x h]

/-! ## The ledger: theorems -/

/-- C3: on a ledger whose stored conditions all have the declared type, with an
incoming condition `c` of the declared type, SetCondition returns. When no stored
condition has `c`'s type it appends one whose transition time is the clock value
if the empty status differs from `c`'s status and nil otherwise. When `old` is
the stored condition of `c`'s type that no later one follows, its slot gets the
clock value as transition time if `old`'s status differs from `c`'s and keeps
`old`'s transition time if the statuses are equal; all other slots are kept. -/
theorem SetCondition_stamps_iff_status_differs
    (s : WebSphereLibertyApplicationStatus) (c : StatusCondition) (now : Nat)
    (hst : ∀ x ∈ s.Conditions, x.Type_ = StatusConditionTypeReconciled)
    (hc : c.Type_ = StatusConditionTypeReconciled) :
    ((∀ x ∈ s.Conditions, x.Type_ ≠ c.Type_) →
      s.SetCondition c now = some { s with Conditions := s.Conditions ++
        [{ LastTransitionTime := if "" ≠ c.Status then some now else none,
           Reason := c.Reason, Message := c.Message, Status := c.Status,
           Type_ := c.Type_ }] }) ∧
    (∀ (pre : List StatusCondition) (old : StatusCondition) (post : List StatusCondition),
      s.Conditions = pre ++ old :: post → old.Type_ = c.Type_ →
      (∀ x ∈ post, x.Type_ ≠ c.Type_) →
      s.SetCondition c now = some { s with Conditions := pre ++
        { LastTransitionTime :=
            if old.Status ≠ c.Status then some now else old.LastTransitionTime,
          Reason := c.Reason, Message := c.Message, Status := c.Status,
          Type_ := c.Type_ } :: post }) := by
  have hall := all_declared_types_eq s.Conditions c hst hc
  constructor
  · intro hno
    have hnil : s.Conditions = [] := by
      cases hcs : s.Conditions with
      | nil => rfl
      | cons x rest =>
        have hx : x ∈ s.Conditions := by rw [hcs]; exact List.mem_cons_self _ _
        exact absurd (hall x hx) (hno x hx)
    rw [SetCondition_empty s c now hnil hc, hnil]
    rfl
  · intro pre old post hs _ hpost
    have hnil : post = [] := by
      cases post with
      | nil => rfl
      | cons y t =>
        have hy : y ∈ s.Conditions := by rw [hs]; simp
        exact absurd (hall y hy) (hpost y (List.mem_cons_self _ _))
    subst hnil
    exact SetCondition_snoc s c now pre old hs hst hc

/-- Witness of C3: the stored status True meets the incoming status False at clock 7. -/
theorem SetCondition_stamps_iff_status_differs_witness :
    WebSphereLibertyApplicationStatus.SetCondition
        { Conditions := [{ LastTransitionTime := some 3, Reason := "old", Message := "was",
                           Status := "True", Type_ := "Reconciled" }] }
        { Reason := "r", Message := "m", Status := "False", Type_ := "Reconciled" } 7 =
      some { Conditions := [{ LastTransitionTime := some 7, Reason := "r", Message := "m",
                              Status := "False", Type_ := "Reconciled" }] } :=
  (SetCondition_stamps_iff_status_differs
    { Conditions := [{ LastTransitionTime := some 3, Reason := "old", Message := "was",
                       Status := "True", Type_ := "Reconciled" }] }
    { Reason := "r", Message := "m", Status := "False", Type_ := "Reconciled" } 7
    (by decide) (by decide)).2 [] _ [] rfl rfl (by decide)

/-- Counterexample to C4: the ledger stores two conditions of type Reconciled,
with statuses True and False. SetCondition with status Unknown rewrites the
second, and GetCondition then returns the first, whose status, reason and
message are not the incoming ones. -/
theorem GetCondition_after_SetCondition_stale :
    WebSphereLibertyApplicationStatus.SetCondition
        { Conditions := [{ Status := "True", Type_ := "Reconciled" },
                         { Status := "False", Type_ := "Reconciled" }] }
        { Reason := "r", Message := "m", Status := "Unknown", Type_ := "Reconciled" } 7 =
      some { Conditions := [{ Status := "True", Type_ := "Reconciled" },
                            { LastTransitionTime := some 7, Reason := "r", Message := "m",
                              Status := "Unknown", Type_ := "Reconciled" }] } ∧
    WebSphereLibertyApplicationStatus.GetCondition
        { Conditions := [{ Status := "True", Type_ := "Reconciled" },
                         { LastTransitionTime := some 7, Reason := "r", Message := "m",
                           Status := "Unknown", Type_ := "Reconciled" }] }
        common.StatusConditionTypeReconciled =
      some (some { Status := "True", Type_ := "Reconciled" }) := by
  decide

/-- C4 as amended: on a ledger with at most one condition per type, with an
incoming condition `c` of the declared type, every result of SetCondition makes
GetCondition for `c`'s type return a condition with `c`'s status, reason,
message and type; and SetCondition does return when the stored conditions all
have the declared type. -/
theorem GetCondition_after_SetCondition
    (s : WebSphereLibertyApplicationStatus) (c : StatusCondition) (now : Nat)
    (hnodup : (s.Conditions.map (fun x => x.Type_)).Nodup)
    (hc : c.Type_ = StatusConditionTypeReconciled) :
    ((∀ x ∈ s.Conditions, x.Type_ = StatusConditionTypeReconciled) →
      ∃ s1, s.SetCondition c now = some s1) ∧
    (∀ s1, s.SetCondition c now = some s1 →
      ∃ t cond, c.GetType = some t ∧ s1.GetCondition t = some (some cond) ∧
        cond.Status = c.Status ∧ cond.Reason = c.Reason ∧ cond.Message = c.Message ∧
        cond.Type_ = c.Type_) := by
  have key : ∀ hst : (∀ x ∈ s.Conditions, x.Type_ = StatusConditionTypeReconciled),
      ∃ cond, s.SetCondition c now = some { s with Conditions := [cond] } ∧
        cond.Status = c.Status ∧ cond.Reason = c.Reason ∧ cond.Message = c.Message ∧
        cond.Type_ = c.Type_ := by
    intro hst
    cases hcs : s.Conditions with
    | nil => exact ⟨_, SetCondition_empty s c now hcs hc, rfl, rfl, rfl, rfl⟩
    | cons x rest =>
      cases rest with
      | nil =>
        exact ⟨_, SetCondition_snoc s c now [] x (by simpa using hcs) hst hc, rfl, rfl, rfl, rfl⟩
      | cons y t =>
        exfalso
        rw [hcs] at hnodup hst
        have hx := hst x (by simp)
        have hy := hst y (by simp)
        simp [hx, hy] at hnodup
  constructor
  · intro hst
    obtain ⟨cond, h1, _⟩ := key hst
    exact ⟨_, h1⟩
  · intro s1 hs1
    have hst : ∀ x ∈ s.Conditions, x.Type_ = StatusConditionTypeReconciled := by
      unfold WebSphereLibertyApplicationStatus.SetCondition at hs1
      cases hscan : SetCondition.scan s.Conditions c 0 none with
      | none => simp [hscan] at hs1
      | some r => exact (SetCondition_scan_some _ _ _ _ _ hscan).1
    obtain ⟨cond, h1, h2, h3, h4, h5⟩ := key hst
    rw [h1, Option.some.injEq] at hs1
    subst hs1
    refine ⟨common.StatusConditionTypeReconciled, cond, GetType_of_declared c hc, ?_,
      h2, h3, h4, h5⟩
    exact GetCondition_scan_head cond [] (h5.trans hc)

/-- Witness of C4 as amended: an empty ledger receives its first condition. -/
theorem GetCondition_after_SetCondition_witness :
    ∃ t cond, StatusCondition.GetType
          ({ Reason := "r", Message := "m", Status := "True", Type_ := "Reconciled" } :
            StatusCondition) = some t ∧
      WebSphereLibertyApplicationStatus.GetCondition
        { Conditions := [{ LastTransitionTime := some 7, Reason := "r", Message := "m",
                           Status := "True", Type_ := "Reconciled" }] } t = some (some cond) ∧
      cond.Status = "True" ∧ cond.Reason = "r" ∧ cond.Message = "m" ∧
      cond.Type_ = "Reconciled" :=
  (GetCondition_after_SetCondition {}
    { Reason := "r", Message := "m", Status := "True", Type_ := "Reconciled" } 7
    (by decide) (by decide)).2 _ (by decide)

/-- C5: on a ledger with at most one condition per type, every result of
SetCondition has at most one condition per type; it has one condition more when
no stored condition had the incoming type and as many otherwise; the stored
types stay in place as a prefix of the new ones, and a stored condition of
another type is kept as it is. SetCondition returns when the stored and the
incoming types are declared. -/
theorem SetCondition_keeps_one_per_type
    (s : WebSphereLibertyApplicationStatus) (c : StatusCondition) (now : Nat)
    (hnodup : (s.Conditions.map (fun x => x.Type_)).Nodup) :
    (((∀ x ∈ s.Conditions, x.Type_ = StatusConditionTypeReconciled) ∧
        c.Type_ = StatusConditionTypeReconciled) → ∃ s1, s.SetCondition c now = some s1) ∧
    (∀ s1, s.SetCondition c now = some s1 →
      (s1.Conditions.map (fun x => x.Type_)).Nodup ∧
      s1.Conditions.length =
        (if ∃ x ∈ s.Conditions, x.Type_ = c.Type_ then s.Conditions.length
         else s.Conditions.length + 1) ∧
      s.Conditions.map (fun x => x.Type_) <+: s1.Conditions.map (fun x => x.Type_) ∧
      (∀ x ∈ s.Conditions, x.Type_ ≠ c.Type_ → x ∈ s1.Conditions)) := by
  have key : ∀ (_ : ∀ x ∈ s.Conditions, x.Type_ = StatusConditionTypeReconciled)
      (_ : c.Type_ = StatusConditionTypeReconciled),
      ∃ cond, s.SetCondition c now = some { s with Conditions := [cond] } ∧
        cond.Type_ = c.Type_ ∧ (s.Conditions = [] ∨ ∃ x, s.Conditions = [x]) := by
    intro hst hc
    cases hcs : s.Conditions with
    | nil => exact ⟨_, SetCondition_empty s c now hcs hc, rfl, Or.inl rfl⟩
    | cons x rest =>
      cases rest with
      | nil =>
        exact ⟨_, SetCondition_snoc s c now [] x (by simpa using hcs) hst hc, rfl,
          Or.inr ⟨x, rfl⟩⟩
      | cons y t =>
        exfalso
        rw [hcs] at hnodup hst
        have hx := hst x (by simp)
        have hy := hst y (by simp)
        simp [hx, hy] at hnodup
  constructor
  · rintro ⟨hst, hc⟩
    obtain ⟨cond, h1, _⟩ := key hst hc
    exact ⟨_, h1⟩
  · intro s1 hs1
    have hdecl : (∀ x ∈ s.Conditions, x.Type_ = StatusConditionTypeReconciled) ∧
        c.Type_ = StatusConditionTypeReconciled := by
      unfold WebSphereLibertyApplicationStatus.SetCondition at hs1
      cases hscan : SetCondition.scan s.Conditions c 0 none with
      | none => simp [hscan] at hs1
      | some r =>
        refine ⟨(SetCondition_scan_some _ _ _ _ _ hscan).1, ?_⟩
        simp only [hscan] at hs1
        cases hg : c.GetType with
        | none => simp [hg] at hs1
        | some t => exact (GetType_some_declared c t hg).1
    obtain ⟨cond, h1, h2, h3⟩ := key hdecl.1 hdecl.2
    rw [h1, Option.some.injEq] at hs1
    subst hs1
    rcases h3 with h3 | ⟨x, h3⟩
    · simp [h3]
    · have hx : x.Type_ = c.Type_ := by
        have := hdecl.1 x (by rw [h3]; simp)
        rw [this, hdecl.2]
      simp [h3, hx, h2]

/-- Witness of C5: the stored Reconciled condition is rewritten in place. -/
theorem SetCondition_keeps_one_per_type_witness :
    (List.map (fun x => x.Type_)
        [({ LastTransitionTime := some 7, Reason := "r", Message := "m", Status := "False",
            Type_ := "Reconciled" } : StatusCondition)]).Nodup ∧
      [({ LastTransitionTime := some 7, Reason := "r", Message := "m", Status := "False",
          Type_ := "Reconciled" } : StatusCondition)].length = 1 :=
  have h := (SetCondition_keeps_one_per_type
    { Conditions := [{ Status := "True", Type_ := "Reconciled" }] }
    { Reason := "r", Message := "m", Status := "False", Type_ := "Reconciled" } 7
    (by decide)).2
    { Conditions := [{ LastTransitionTime := some 7, Reason := "r", Message := "m",
                       Status := "False", Type_ := "Reconciled" }] } (by decide)
  ⟨h.1, by decide⟩

/-! ## Go maps and secret keys: lemmas -/

theorem GoMap.get_cons (k0 v0 : String) (rest : GoMap) (k : String) :
    GoMap.get ((k0, v0) :: rest) k = if k0 = k then v0 else GoMap.get rest k := by
  unfold GoMap.get
  by_cases h : k0 = k
  · subst h
    simp [List.lookup]
  · have h2 : (k == k0) = false := by
      rw [beq_eq_false_iff_ne]
      exact fun e => h e.symm
    simp [List.lookup, h, h2]

theorem GoMap.get_set_same (m : GoMap) (k v : String) : (GoMap.set m k v).get k = v := by
  induction m with
  | nil => simp [GoMap.set, GoMap.get_cons]
  | cons kv rest ih =>
    obtain ⟨k0, v0⟩ := kv
    unfold GoMap.set
    by_cases h : k0 = k
    · simp [h, GoMap.get_cons]
    · simp [h, GoMap.get_cons, ih]

theorem GoMap.get_set_other (m : GoMap) (k v k1 : String) (hne : k1 ≠ k) :
    (GoMap.set m k v).get k1 = m.get k1 := by
  induction m with
  | nil =>
    have h2 : ¬ k = k1 := fun e => hne e.symm
    simp only [GoMap.set, GoMap.get_cons, h2, if_false]
  | cons kv rest ih =>
    obtain ⟨k0, v0⟩ := kv
    unfold GoMap.set
    by_cases h : k0 = k
    · have h2 : ¬ k0 = k1 := fun e => hne (e.symm.trans h)
      simp only [h, if_true, GoMap.get_cons]
      rw [h] at h2
      simp only [h2, if_false]
    · simp [h, GoMap.get_cons, ih]

theorem GoMap.keys_set (m : GoMap) (k v : String) :
    (GoMap.set m k v).map Prod.fst =
      if k ∈ m.map Prod.fst then m.map Prod.fst else m.map Prod.fst ++ [k] := by
  induction m with
  | nil => simp [GoMap.set]
  | cons kv rest ih =>
    obtain ⟨k0, v0⟩ := kv
    unfold GoMap.set
    by_cases h : k0 = k
    · simp [h]
    · have h2 : ¬ k = k0 := fun e => h e.symm
      simp only [h, if_false, List.map_cons, ih, List.mem_cons, h2, false_or]
      by_cases hm : k ∈ rest.map Prod.fst
      · simp [hm]
      · simp [hm]

theorem GoMap.nodup_set (m : GoMap) (k v : String) (hn : (m.map Prod.fst).Nodup) :
    ((GoMap.set m k v).map Prod.fst).Nodup := by
  rw [GoMap.keys_set]
  by_cases hm : k ∈ m.map Prod.fst
  · simp [hm, hn]
  · simp only [hm, if_false]
    rw [List.nodup_append]
    refine ⟨hn, List.nodup_singleton k, ?_⟩
    intro a ha hb
    rw [List.mem_singleton] at hb
    subst hb
    exact hm ha

theorem GoMap.set_ne_nil (m : GoMap) (k v : String) : GoMap.set m k v ≠ [] := by
  cases m with
  | nil => simp [GoMap.set]
  | cons kv rest =>
    obtain ⟨k0, v0⟩ := kv
    unfold GoMap.set
    by_cases h : k0 = k <;> simp [h]

theorem GoMap.get_of_not_mem (m : GoMap) (k : String) (h : k ∉ m.map Prod.fst) :
    m.get k = "" := by
  induction m with
  | nil => rfl
  | cons kv rest ih =>
    obtain ⟨k0, v0⟩ := kv
    simp only [List.map_cons, List.mem_cons, not_or] at h
    have h2 : ¬ k0 = k := fun e => h.1 e.symm
    rw [GoMap.get_cons, if_neg h2]
    exact ih h.2

/-- Writing the staged updates one by one: a staged key reads as staged, any
other key reads as before. -/
theorem GoMap.get_fold_set (u : GoMap) (hn : (u.map Prod.fst).Nodup) (data : GoMap)
    (k : String) :
    (u.foldl (fun d kv => GoMap.set d kv.1 kv.2) data).get k =
      if k ∈ u.map Prod.fst then u.get k else data.get k := by
  induction u generalizing data with
  | nil => simp
  | cons kv rest ih =>
    obtain ⟨k0, v0⟩ := kv
    simp only [List.map_cons, List.nodup_cons] at hn
    simp only [List.foldl_cons, List.map_cons, List.mem_cons]
    rw [ih hn.2, GoMap.get_cons]
    by_cases hk : k0 = k
    · subst hk
      simp [hn.1, GoMap.get_set_same]
    · have hk2 : ¬ k = k0 := fun e => hk e.symm
      simp only [hk, hk2, if_false, false_or]
      by_cases hm : k ∈ rest.map Prod.fst
      · simp [hm]
      · simp [hm, GoMap.get_set_other _ _ _ _ hk2]

theorem str_append_right_cancel (a b s : String) (h : a ++ s = b ++ s) : a = b := by
  rw [String.ext_iff] at h ⊢
  simpa using h

/-- Two keys with suffixes whose last `n` characters differ are different keys. -/
theorem str_append_ne (a b s t : String) (n : Nat)
    (hs : n ≤ s.data.length) (ht : n ≤ t.data.length)
    (hd : s.data.reverse.take n ≠ t.data.reverse.take n) : a ++ s ≠ b ++ t := by
  intro h
  rw [String.ext_iff] at h
  simp only [String.data_append] at h
  have h2 := congrArg (fun l => l.reverse.take n) h
  simp only [List.reverse_append] at h2
  rw [List.take_append_of_le_length (by simpa using hs),
    List.take_append_of_le_length (by simpa using ht)] at h2
  exact hd h2


theorem GoMap.mem_set_same (m : GoMap) (k v : String) : (k, v) ∈ GoMap.set m k v := by
  induction m with
  | nil => simp [GoMap.set]
  | cons kv rest ih =>
    obtain ⟨k0, v0⟩ := kv
    unfold GoMap.set
    by_cases h : k0 = k
    · simp [h]
    · simp [h, ih]

theorem GoMap.mem_set_other (m : GoMap) (k v k1 v1 : String) (hm : (k1, v1) ∈ m)
    (hne : k1 ≠ k) : (k1, v1) ∈ GoMap.set m k v := by
  induction m with
  | nil => simp at hm
  | cons kv rest ih =>
    obtain ⟨k0, v0⟩ := kv
    unfold GoMap.set
    rcases List.mem_cons.1 hm with heq | hrest
    · have h0 : k0 = k1 := (congrArg Prod.fst heq).symm
      have h1 : v0 = v1 := (congrArg Prod.snd heq).symm
      subst h0
      subst h1
      simp only [hne, if_false]
      exact List.mem_cons_self _ _
    · by_cases h : k0 = k
      · simp only [h, if_true]
        exact List.mem_cons_of_mem _ hrest
      · simp only [h, if_false]
        exact List.mem_cons_of_mem _ (ih hrest)

theorem GoMap.get_of_mem (m : GoMap) (hn : (m.map Prod.fst).Nodup) (k v : String)
    (hm : (k, v) ∈ m) : m.get k = v := by
  induction m with
  | nil => simp at hm
  | cons kv rest ih =>
    obtain ⟨k0, v0⟩ := kv
    simp only [List.map_cons, List.nodup_cons] at hn
    rw [GoMap.get_cons]
    rcases List.mem_cons.1 hm with heq | hrest
    · have h0 : k0 = k := (congrArg Prod.fst heq).symm
      have h1 : v0 = v := (congrArg Prod.snd heq).symm
      simp [h0, h1]
    · have hk : ¬ k0 = k := by
        intro e
        apply hn.1
        rw [e]
        exact List.mem_map_of_mem Prod.fst hrest
      simp only [hk, if_false]
      exact ih hn.2 hrest

/-- One turn of the provider loop that does not leave the function: either the
provider needs no registration, or its route lookup and registration succeeded. -/
theorem oidcLoop_cons_done
    (reg : RegisterData → Except String (String × String)) (os : Bool)
    (sso : WebSphereLibertyApplicationSSO) (p : OidcClient) (rest : List OidcClient)
    (st st1 : SSOState) (h : oidcLoop reg os sso (p :: rest) st = .done st1) :
    (¬ (os = true ∧ st.ssoSecret.Data.get (oidcClientName p ++ "-clientId") = "") ∧
      oidcLoop reg os sso rest { st with ssoEnv := st.ssoEnv ++ oidcEnv p } = .done st1) ∨
    (os = true ∧ st.ssoSecret.Data.get (oidcClientName p ++ "-clientId") = "" ∧
      ∃ rt id sec,
        st.client.routeGet st.client.routeGets st.wlapp.Name st.wlapp.Namespace = .ok rt ∧
        reg (registrationRequest sso st.ssoSecret p rt) = .ok (id, sec) ∧
        oidcLoop reg os sso rest (registeredState sso st p rt id sec) = .done st1) := by
  unfold oidcLoop at h
  by_cases hc : os = true ∧ st.ssoSecret.Data.get (oidcClientName p ++ "-clientId") = ""
  · right
    refine ⟨hc.1, hc.2, ?_⟩
    obtain ⟨hos, hid⟩ := hc
    subst hos
    simp only [hid, and_self, if_true, Client.GetRoute] at h
    cases hr : st.client.routeGet st.client.routeGets st.wlapp.Name st.wlapp.Namespace with
    | error e => simp [hr] at h
    | ok rt =>
      simp only [hr] at h
      cases hreg : reg (registrationRequest sso st.ssoSecret p rt) with
      | error e =>
        simp only [hreg] at h
        split at h <;> exact LoopExit.noConfusion h
      | ok pr =>
        obtain ⟨id, sec⟩ := pr
        simp only [hreg] at h
        exact ⟨rt, id, sec, rfl, hreg, h⟩
  · left
    refine ⟨hc, ?_⟩
    simp only [hc, if_false] at h
    exact h


/-! ## The four secret keys of a provider are never confused -/

theorem key_suffix_ne (a b : String) :
    a ++ "RegisteredOidcClientId" ≠ b ++ "RegisteredOidcSecret" ∧
    a ++ "RegisteredOidcClientId" ≠ b ++ "-clientId" ∧
    a ++ "RegisteredOidcClientId" ≠ b ++ "-clientSecret" ∧
    a ++ "RegisteredOidcSecret" ≠ b ++ "-clientId" ∧
    a ++ "RegisteredOidcSecret" ≠ b ++ "-clientSecret" ∧
    a ++ "-clientId" ≠ b ++ "-clientSecret" :=
  ⟨str_append_ne a b _ _ 1 (by decide) (by decide) (by decide),
   str_append_ne a b _ _ 8 (by decide) (by decide) (by decide),
   str_append_ne a b _ _ 1 (by decide) (by decide) (by decide),
   str_append_ne a b _ _ 1 (by decide) (by decide) (by decide),
   str_append_ne a b _ _ 7 (by decide) (by decide) (by decide),
   str_append_ne a b _ _ 1 (by decide) (by decide) (by decide)⟩

/-- The staged map after the four writes of a registration holds the four new pairs. -/
theorem mem_staged_new (u : GoMap) (M id sec : String) :
    let u4 := (((GoMap.set u (M ++ autoregFragment ++ "RegisteredOidcClientId") id).set
      (M ++ autoregFragment ++ "RegisteredOidcSecret") sec).set (M ++ "-clientId") id).set
      (M ++ "-clientSecret") sec
    (M ++ "-clientId", id) ∈ u4 ∧ (M ++ "-clientSecret", sec) ∈ u4 ∧
    (M ++ autoregFragment ++ "RegisteredOidcClientId", id) ∈ u4 ∧
    (M ++ autoregFragment ++ "RegisteredOidcSecret", sec) ∈ u4 := by
  intro u4
  have h := key_suffix_ne (M ++ autoregFragment) (M ++ autoregFragment)
  have h1 := key_suffix_ne (M ++ autoregFragment) M
  have h2 := key_suffix_ne M M
  refine ⟨?_, ?_, ?_, ?_⟩
  · exact GoMap.mem_set_other _ _ _ _ _ (GoMap.mem_set_same _ _ _) h2.2.2.2.2.2
  · exact GoMap.mem_set_same _ _ _
  · exact GoMap.mem_set_other _ _ _ _ _ (GoMap.mem_set_other _ _ _ _ _
      (GoMap.mem_set_other _ _ _ _ _ (GoMap.mem_set_same _ _ _) h.1) h1.2.1) h1.2.2.1
  · exact GoMap.mem_set_other _ _ _ _ _ (GoMap.mem_set_other _ _ _ _ _
      (GoMap.mem_set_same _ _ _) h1.2.2.2.1) h1.2.2.2.2.1

/-- A pair under a key other than the four written ones stays in the staged map. -/
theorem mem_staged_old (u : GoMap) (M id sec k v : String) (hm : (k, v) ∈ u)
    (h1 : k ≠ M ++ autoregFragment ++ "RegisteredOidcClientId")
    (h2 : k ≠ M ++ autoregFragment ++ "RegisteredOidcSecret")
    (h3 : k ≠ M ++ "-clientId") (h4 : k ≠ M ++ "-clientSecret") :
    (k, v) ∈ (((GoMap.set u (M ++ autoregFragment ++ "RegisteredOidcClientId") id).set
      (M ++ autoregFragment ++ "RegisteredOidcSecret") sec).set (M ++ "-clientId") id).set
      (M ++ "-clientSecret") sec :=
  GoMap.mem_set_other _ _ _ _ _ (GoMap.mem_set_other _ _ _ _ _
    (GoMap.mem_set_other _ _ _ _ _ (GoMap.mem_set_other _ _ _ _ _ hm h1) h2) h3) h4

theorem Staged_mono_calls (reg : RegisterData → Except String (String × String))
    (calls more : List Call) (u : GoMap) (N : String) (h : Staged reg calls u N) :
    Staged reg (calls ++ more) u N := by
  obtain ⟨d, id, sec, hd, h1, h2, h3⟩ := h
  exact ⟨d, id, sec, List.mem_append_left _ hd, h1, h2, h3⟩

/-- A registration for `M` keeps what is staged for every client name and stages `M`. -/
theorem Staged_registered (reg : RegisterData → Except String (String × String))
    (sso : WebSphereLibertyApplicationSSO) (st : SSOState) (p : OidcClient) (rt : Route)
    (id sec : String) (hreg : reg (registrationRequest sso st.ssoSecret p rt) = .ok (id, sec)) :
    Staged reg (registeredState sso st p rt id sec).client.calls
        (registeredState sso st p rt id sec).ssoSecretUpdates (oidcClientName p) ∧
    ∀ N, Staged reg st.client.calls st.ssoSecretUpdates N →
      Staged reg (registeredState sso st p rt id sec).client.calls
        (registeredState sso st p rt id sec).ssoSecretUpdates N := by
  have hnew : Staged reg (registeredState sso st p rt id sec).client.calls
      (registeredState sso st p rt id sec).ssoSecretUpdates (oidcClientName p) := by
    obtain ⟨m1, m2, m3, m4⟩ := mem_staged_new st.ssoSecretUpdates (oidcClientName p) id sec
    refine ⟨registrationRequest sso st.ssoSecret p rt, id, sec, ?_, rfl, hreg, m1, m2, m3, m4⟩
    simp [registeredState, Client.log]
  refine ⟨hnew, ?_⟩
  intro N hN
  by_cases hNM : N = oidcClientName p
  · rw [hNM]
    exact hnew
  · obtain ⟨d, id0, sec0, hd, h1, h2, m1, m2, m3, m4⟩ := hN
    have hcalls : Call.register d ∈ (registeredState sso st p rt id sec).client.calls := by
      simp only [registeredState, Client.log, Client.GetRoute, List.append_assoc,
        List.mem_append]
      exact Or.inl hd
    have e1 := key_suffix_ne (N ++ autoregFragment) (oidcClientName p ++ autoregFragment)
    have e2 := key_suffix_ne (N ++ autoregFragment) (oidcClientName p)
    have e3 := key_suffix_ne N (oidcClientName p)
    have f1 := key_suffix_ne (oidcClientName p ++ autoregFragment) (N ++ autoregFragment)
    have f2 := key_suffix_ne (oidcClientName p ++ autoregFragment) N
    have f3 := key_suffix_ne (oidcClientName p) N
    have c1 : ∀ s : String, N ++ s ≠ oidcClientName p ++ s :=
      fun s e => hNM (str_append_right_cancel _ _ _ e)
    have c2 : ∀ s : String, N ++ autoregFragment ++ s ≠ oidcClientName p ++ autoregFragment ++ s :=
      fun s e => hNM (str_append_right_cancel _ _ _ (str_append_right_cancel _ _ _ e))
    refine ⟨d, id0, sec0, hcalls, h1, h2, ?_, ?_, ?_, ?_⟩
    · exact mem_staged_old _ _ _ _ _ _ m1 (Ne.symm f2.2.1) (Ne.symm f2.2.2.2.1) (c1 _) e3.2.2.2.2.2
    · exact mem_staged_old _ _ _ _ _ _ m2 (Ne.symm f2.2.2.1) (Ne.symm f2.2.2.2.2.1)
        (Ne.symm f3.2.2.2.2.2) (c1 _)
    · exact mem_staged_old _ _ _ _ _ _ m3 (c2 _) e1.1 e2.2.1 e2.2.2.1
    · exact mem_staged_old _ _ _ _ _ _ m4 (Ne.symm f1.1) (c2 _) e2.2.2.2.1 e2.2.2.2.2.1

theorem SameCluster_refl (a : SSOState) : SameCluster a a :=
  ⟨rfl, rfl, rfl, rfl, rfl, rfl, rfl, rfl⟩

theorem SameCluster_trans (a b c : SSOState) (h1 : SameCluster a b) (h2 : SameCluster b c) :
    SameCluster a c := by
  obtain ⟨a1, a2, a3, a4, a5, a6, a7, a8⟩ := h1
  obtain ⟨b1, b2, b3, b4, b5, b6, b7, b8⟩ := h2
  exact ⟨b1.trans a1, b2.trans a2, b3.trans a3, b4.trans a4, b5.trans a5, b6.trans a6,
    b7.trans a7, b8.trans a8⟩

/-- What holds after the provider loop has run through a list of providers:
the cluster is as before, the log grew by route lookups and registration calls
only, the staged keys are distinct, and what was staged or had to be registered
is staged. -/
theorem oidcLoop_done_inv
    (reg : RegisterData → Except String (String × String)) (os : Bool)
    (sso : WebSphereLibertyApplicationSSO) (l : List OidcClient) (st st1 : SSOState)
    (h : oidcLoop reg os sso l st = .done st1)
    (hn : (st.ssoSecretUpdates.map Prod.fst).Nodup) :
    SameCluster st st1 ∧
    (∃ more, st1.client.calls = st.client.calls ++ more ∧
      ∀ c ∈ more, (∃ n ns, c = Call.getRoute n ns) ∨ (∃ d, c = Call.register d)) ∧
    (st1.ssoSecretUpdates.map Prod.fst).Nodup ∧
    (∀ N, Staged reg st.client.calls st.ssoSecretUpdates N →
      Staged reg st1.client.calls st1.ssoSecretUpdates N) ∧
    (∀ p ∈ l, os = true → st.ssoSecret.Data.get (oidcClientName p ++ "-clientId") = "" →
      Staged reg st1.client.calls st1.ssoSecretUpdates (oidcClientName p)) := by
  induction l generalizing st with
  | nil =>
    simp only [oidcLoop, LoopExit.done.injEq] at h
    subst h
    exact ⟨SameCluster_refl _, ⟨[], by simp, by simp⟩, hn, fun _ hN => hN, by simp⟩
  | cons p rest ih =>
    rcases oidcLoop_cons_done reg os sso p rest st st1 h with ⟨hskip, hrest⟩ | ⟨hos, hid, rt, id, sec, _, hreg, hrest⟩
    · obtain ⟨i1, i2, i3, i4, i5⟩ := ih _ hrest hn
      refine ⟨i1, i2, i3, i4, ?_⟩
      intro q hq hos hlack
      rcases List.mem_cons.1 hq with rfl | hq
      · exact absurd ⟨hos, hlack⟩ hskip
      · exact i5 q hq hos hlack
    · have hn2 : ((registeredState sso st p rt id sec).ssoSecretUpdates.map Prod.fst).Nodup :=
        GoMap.nodup_set _ _ _ (GoMap.nodup_set _ _ _ (GoMap.nodup_set _ _ _
          (GoMap.nodup_set _ _ _ hn)))
      obtain ⟨i1, ⟨more, i2, i2b⟩, i3, i4, i5⟩ := ih _ hrest hn2
      obtain ⟨snew, sold⟩ := Staged_registered reg sso st p rt id sec hreg
      refine ⟨SameCluster_trans _ _ _ ⟨rfl, rfl, rfl, rfl, rfl, rfl, rfl, rfl⟩ i1, ?_, i3,
        fun N hN => i4 N (sold N hN), ?_⟩
      · refine ⟨[Call.getRoute st.wlapp.Name st.wlapp.Namespace,
          Call.register (registrationRequest sso st.ssoSecret p rt)] ++ more, ?_, ?_⟩
        · rw [i2]
          simp [registeredState, Client.log, Client.GetRoute]
        · intro c hc
          rcases List.mem_append.1 hc with hc | hc
          · simp only [List.mem_cons, List.mem_singleton, List.not_mem_nil, or_false] at hc
            rcases hc with rfl | rfl
            · exact Or.inl ⟨_, _, rfl⟩
            · exact Or.inr ⟨_, rfl⟩
          · exact i2b c hc
      · intro q hq hos2 hlack
        rcases List.mem_cons.1 hq with rfl | hq
        · exact i4 _ snew
        · exact i5 q hq hos2 hlack

theorem oidcLoop_append_done
    (reg : RegisterData → Except String (String × String)) (os : Bool)
    (sso : WebSphereLibertyApplicationSSO) (l1 l2 : List OidcClient) (st st1 : SSOState)
    (h : oidcLoop reg os sso l1 st = .done st1) :
    oidcLoop reg os sso (l1 ++ l2) st = oidcLoop reg os sso l2 st1 := by
  induction l1 generalizing st with
  | nil =>
    simp only [oidcLoop, LoopExit.done.injEq] at h
    subst h
    rfl
  | cons p rest ih =>
    rcases oidcLoop_cons_done reg os sso p rest st st1 h with ⟨hskip, hrest⟩ | ⟨hos, hid, rt, id, sec, hrt, hreg, hrest⟩
    · rw [List.cons_append, oidcLoop]
      simp only [hskip, if_false]
      exact ih _ hrest
    · rw [List.cons_append, oidcLoop]
      subst hos
      simp only [hid, and_self, if_true, Client.GetRoute, hrt, hreg]
      exact ih _ hrest


/-- The turn of the provider loop in which the registration call fails. -/
theorem oidcLoop_cons_fail
    (reg : RegisterData → Except String (String × String))
    (sso : WebSphereLibertyApplicationSSO) (p : OidcClient) (rest : List OidcClient)
    (st : SSOState) (rt : Route) (e : String)
    (hid : st.ssoSecret.Data.get (oidcClientName p ++ "-clientId") = "")
    (hrt : st.client.routeGet st.client.routeGets st.wlapp.Name st.wlapp.Namespace = .ok rt)
    (hfail : reg (registrationRequest sso st.ssoSecret p rt) = .error e)
    (c2 : Client) (s2 : Secret) (e2 : Option String)
    (hw : writeSSOSecretIfNeeded
      ((st.client.GetRoute st.wlapp.Name st.wlapp.Namespace).1.log
        (.register (registrationRequest sso st.ssoSecret p rt)))
      st.ssoSecret st.ssoSecretUpdates = some (c2, s2, e2)) :
    oidcLoop reg true sso (p :: rest) st =
      .returned
        (some ("Error occured during registration with OIDC for provider " ++
          oidcClientName p ++ ": " ++ e))
        { st with ssoEnv := st.ssoEnv ++ oidcEnv p, client := c2, ssoSecret := s2 } := by
  rw [oidcLoop]
  simp only [Client.GetRoute] at hw
  simp only [hid, and_self, if_true, Client.GetRoute, hrt, hfail, hw]

/-- The turn of the provider loop in which the registration call fails and the
flush aborts. -/
theorem oidcLoop_cons_abort
    (reg : RegisterData → Except String (String × String))
    (sso : WebSphereLibertyApplicationSSO) (p : OidcClient) (rest : List OidcClient)
    (st : SSOState) (rt : Route) (e : String)
    (hid : st.ssoSecret.Data.get (oidcClientName p ++ "-clientId") = "")
    (hrt : st.client.routeGet st.client.routeGets st.wlapp.Name st.wlapp.Namespace = .ok rt)
    (hfail : reg (registrationRequest sso st.ssoSecret p rt) = .error e)
    (hw : writeSSOSecretIfNeeded
      ((st.client.GetRoute st.wlapp.Name st.wlapp.Namespace).1.log
        (.register (registrationRequest sso st.ssoSecret p rt)))
      st.ssoSecret st.ssoSecretUpdates = none) :
    oidcLoop reg true sso (p :: rest) st =
      .aborted
        { st with
          ssoEnv := st.ssoEnv ++ oidcEnv p,
          client := (st.client.GetRoute st.wlapp.Name st.wlapp.Namespace).1.log
            (.register (registrationRequest sso st.ssoSecret p rt)) } := by
  rw [oidcLoop]
  simp only [Client.GetRoute] at hw
  simp only [hid, and_self, if_true, Client.GetRoute, hrt, hfail, hw]

/-- The turn of the provider loop in which the route lookup fails. -/
theorem oidcLoop_cons_defer
    (reg : RegisterData → Except String (String × String))
    (sso : WebSphereLibertyApplicationSSO) (p : OidcClient) (rest : List OidcClient)
    (st : SSOState) (e : String)
    (hid : st.ssoSecret.Data.get (oidcClientName p ++ "-clientId") = "")
    (hrt : st.client.routeGet st.client.routeGets st.wlapp.Name st.wlapp.Namespace = .error e) :
    oidcLoop reg true sso (p :: rest) st =
      .returned none
        { st with
          ssoEnv := st.ssoEnv ++ oidcEnv p,
          client := (st.client.GetRoute st.wlapp.Name st.wlapp.Namespace).1,
          wlapp := { st.wlapp with
            Status := { st.wlapp.Status with RouteAvailable := some false } } } := by
  rw [oidcLoop]
  simp only [hid, and_self, if_true, Client.GetRoute, hrt]

theorem findSecret_replaced (secrets : List Secret) (name ns : String) (e stored : Secret)
    (hf : secrets.find? (fun s => s.Name = name ∧ s.Namespace = ns) = some e)
    (hs : stored.Name = name ∧ stored.Namespace = ns) :
    (secrets.map (fun s => if s.Name = name ∧ s.Namespace = ns then stored else s)).find?
      (fun s => s.Name = name ∧ s.Namespace = ns) = some stored := by
  induction secrets with
  | nil => simp at hf
  | cons a t ih =>
    by_cases ha : a.Name = name ∧ a.Namespace = ns
    · simp [List.find?, ha, hs]
    · have ha2 : decide (a.Name = name ∧ a.Namespace = ns) = false := by simpa using ha
      rw [List.find?, ha2] at hf
      simp only [List.map_cons, ha, if_false, List.find?, ha2]
      exact ih hf

theorem findSecret_named (c : Client) (name ns : String) (s : Secret)
    (h : c.findSecret name ns = some s) : s.Name = name ∧ s.Namespace = ns := by
  have := List.find?_some h
  simpa using this

/-- A write with something staged into a secret without data keys aborts. -/
theorem writeSSOSecretIfNeeded_nil_data (client : Client) (ssoSecret existing : Secret)
    (updates : GoMap) (hne : updates ≠ [])
    (hfind : client.findSecret ssoSecret.Name ssoSecret.Namespace = some existing)
    (hdata : existing.Data = []) :
    writeSSOSecretIfNeeded client ssoSecret updates = none := by
  have hlen : updates.length > 0 := List.length_pos.2 hne
  have hfind2 : (client.log (.createOrUpdate ssoSecret.Name ssoSecret.Namespace updates)).findSecret
      ssoSecret.Name ssoSecret.Namespace = some existing := hfind
  unfold writeSSOSecretIfNeeded CreateOrUpdate
  simp only [hlen, if_true, hfind2, hdata, hne, ne_eq, not_false_eq_true, and_self]

/-- A write with something staged into a secret that has data: it returns, one
create-or-update call is logged, and when the store takes writes the stored
secret reads every staged key as staged. -/
theorem writeSSOSecretIfNeeded_staged (client : Client) (ssoSecret existing : Secret)
    (updates : GoMap) (hne : updates ≠ []) (hn : (updates.map Prod.fst).Nodup)
    (hfind : client.findSecret ssoSecret.Name ssoSecret.Namespace = some existing)
    (hdata : existing.Data ≠ []) :
    ∃ w, writeSSOSecretIfNeeded client ssoSecret updates = some w ∧
      w.1.calls = client.calls ++ [.createOrUpdate ssoSecret.Name ssoSecret.Namespace updates] ∧
      (client.writeErr = none →
        w.2.2 = none ∧
        ∃ final, w.1.findSecret ssoSecret.Name ssoSecret.Namespace = some final ∧
          ∀ kv ∈ updates, final.Data.get kv.1 = kv.2) := by
  have hlen : updates.length > 0 := List.length_pos.2 hne
  have hfind2 : (client.log (.createOrUpdate ssoSecret.Name ssoSecret.Namespace updates)).findSecret
      ssoSecret.Name ssoSecret.Namespace = some existing := hfind
  have hnamed := findSecret_named client _ _ existing hfind
  have hget : ∀ kv ∈ updates,
      (updates.foldl (fun d kv => GoMap.set d kv.1 kv.2) existing.Data).get kv.1 = kv.2 := by
    intro kv hkv
    rw [GoMap.get_fold_set updates hn]
    have hk : kv.1 ∈ updates.map Prod.fst := List.mem_map_of_mem Prod.fst hkv
    simp only [hk, if_true]
    exact GoMap.get_of_mem updates hn kv.1 kv.2 hkv
  unfold writeSSOSecretIfNeeded CreateOrUpdate
  simp only [hlen, if_true, hfind2, hdata, false_and, if_false]
  generalize updates.foldl (fun d kv => GoMap.set d kv.1 kv.2) existing.Data = newData at hget ⊢
  by_cases hsame : ({ existing with Data := newData } : Secret) = existing
  · simp only [hsame, if_true]
    refine ⟨_, rfl, rfl, fun _ => And.intro rfl (Exists.intro existing (And.intro hfind ?_))⟩
    intro kv hkv
    have := hget kv hkv
    rw [← hsame]
    exact this
  · simp only [hsame, if_false]
    cases hw : client.writeErr with
    | some err =>
      have hw2 : (client.log (.createOrUpdate ssoSecret.Name ssoSecret.Namespace updates)).writeErr
          = some err := hw
      simp only [hw2]
      exact ⟨_, rfl, rfl, fun h => by simp at h⟩
    | none =>
      have hw2 : (client.log (.createOrUpdate ssoSecret.Name ssoSecret.Namespace updates)).writeErr
          = none := hw
      simp only [hw2]
      refine ⟨_, rfl, rfl, ?_⟩
      intro _
      refine And.intro rfl ?_
      exact ⟨_, findSecret_replaced client.secrets _ _ existing _ hfind hnamed, hget⟩


/-! ## The registration pass: theorems -/

/-- The flush after a failed registration, on a secret that has data keys: the
secret is found, `spec.sso` lists the providers `pre`, then `failing`, then
`post`; the loop runs through `pre`, at least one of which has no client id and
so was registered; `failing` has no client id, its route lookup succeeds and its
registration call fails. Then CustomizeEnvSSO returns the registration error,
the last call it made is a create-or-update of the secret whose update map
carries, for every provider of `pre` that had no client id, its four keys with
the credentials of a registration, and when the store takes writes the stored
secret reads every key of that map as staged. -/
theorem CustomizeEnvSSO_flushes_into_secret_with_data
    (reg : RegisterData → Except String (String × String))
    (pts : PodTemplateSpec) (wlapp : WebSphereLibertyApplication) (client : Client)
    (ssoSecret : Secret) (sso : WebSphereLibertyApplicationSSO)
    (pre : List OidcClient) (failing : OidcClient) (post : List OidcClient)
    (st1 : SSOState) (theRoute : Route) (e : String)
    (hsecret : client.findSecret (wlapp.Name ++ ssoSecretNameSuffix) wlapp.Namespace =
      some ssoSecret)
    (hsso : wlapp.Spec.SSO = some sso)
    (hoidc : sso.OIDC = pre ++ failing :: post)
    (hpre : oidcLoop reg true sso pre
      { client := client.log (.getSecret (wlapp.Name ++ ssoSecretNameSuffix) wlapp.Namespace),
        wlapp := wlapp, ssoSecret := ssoSecret,
        ssoEnv := secretEnv ssoSecret ++ commonEnv sso } = .done st1)
    (hearlier : ∃ p ∈ pre, ssoSecret.Data.get (oidcClientName p ++ "-clientId") = "")
    (hid : ssoSecret.Data.get (oidcClientName failing ++ "-clientId") = "")
    (hroute : client.routeGet st1.client.routeGets wlapp.Name wlapp.Namespace = .ok theRoute)
    (hfail : reg (registrationRequest sso ssoSecret failing theRoute) = .error e)
    (hdata : ssoSecret.Data ≠ []) :
    ∃ r updates, CustomizeEnvSSO reg pts wlapp client true = some r ∧
      r.err = some ("Error occured during registration with OIDC for provider " ++
        oidcClientName failing ++ ": " ++ e) ∧
      r.client.calls.getLast? =
        some (.createOrUpdate (wlapp.Name ++ ssoSecretNameSuffix) wlapp.Namespace updates) ∧
      (∀ p ∈ pre, ssoSecret.Data.get (oidcClientName p ++ "-clientId") = "" →
        Staged reg r.client.calls updates (oidcClientName p)) ∧
      (client.writeErr = none →
        ∃ final, r.client.findSecret (wlapp.Name ++ ssoSecretNameSuffix) wlapp.Namespace =
            some final ∧
          ∀ kv ∈ updates, final.Data.get kv.1 = kv.2) := by
  obtain ⟨⟨f1, f2, f3, f4, _, f6, f7, _⟩, _, hnodup, _, hstaged⟩ :=
    oidcLoop_done_inv reg true sso pre _ st1 hpre (by simp)
  obtain ⟨cl1, wl1, sec1, env1, upd1⟩ := st1
  simp only [Client.log] at f1 f2 f3 f4 f6 f7 hroute hnodup hstaged
  subst f1
  obtain ⟨hname, hns⟩ := findSecret_named client _ _ sec1 hsecret
  have hrt1 : cl1.routeGet cl1.routeGets wl1.Name wl1.Namespace = .ok theRoute := by
    rw [f4, f6, f7]
    exact hroute
  have hne : upd1 ≠ [] := by
    obtain ⟨p, hp, hlack⟩ := hearlier
    obtain ⟨_, _, _, _, _, _, hm, _⟩ := hstaged p hp trivial hlack
    exact List.ne_nil_of_mem hm
  have hfind : ((cl1.GetRoute wl1.Name wl1.Namespace).1.log
      (.register (registrationRequest sso sec1 failing theRoute))).findSecret
        sec1.Name sec1.Namespace = some sec1 := by
    simp only [Client.findSecret, Client.log, Client.GetRoute, f2, hname, hns]
    exact hsecret
  obtain ⟨⟨c2, s2, e2⟩, hwr, w1, w2⟩ :=
    writeSSOSecretIfNeeded_staged _ sec1 sec1 upd1 hne hnodup hfind hdata
  simp only at w1 w2
  have hloop := oidcLoop_cons_fail reg sso failing post
    { client := cl1, wlapp := wl1, ssoSecret := sec1, ssoEnv := env1, ssoSecretUpdates := upd1 }
    theRoute e hid hrt1 hfail c2 s2 e2 hwr
  have hres : CustomizeEnvSSO reg pts wlapp client true = some
      { err := some ("Error occured during registration with OIDC for provider " ++
          oidcClientName failing ++ ": " ++ e),
        pts := pts, wlapp := wl1, client := c2 } := by
    unfold CustomizeEnvSSO
    simp only [Client.GetSecret, hsecret, hsso, hoidc]
    rw [oidcLoop_append_done reg true sso pre (failing :: post) _ _ hpre, hloop]
  refine ⟨_, upd1, hres, rfl, ?_, ?_, ?_⟩
  · dsimp only
    rw [w1, hname, hns]
    simp
  · intro p hp hlack
    have hs := hstaged p hp trivial hlack
    dsimp only
    rw [w1]
    have h2 := Staged_mono_calls reg cl1.calls
      [Call.getRoute wl1.Name wl1.Namespace,
        Call.register (registrationRequest sso sec1 failing theRoute),
        Call.createOrUpdate sec1.Name sec1.Namespace upd1] upd1 _ hs
    simpa [Client.log, Client.GetRoute] using h2
  · intro hw
    have hw1 : ((cl1.GetRoute wl1.Name wl1.Namespace).1.log
        (.register (registrationRequest sso sec1 failing theRoute))).writeErr = none := by
      simp only [Client.log, Client.GetRoute, f3]
      exact hw
    obtain ⟨_, final, hfinal, hkv⟩ := w2 hw1
    refine ⟨final, ?_, hkv⟩
    rw [hname, hns] at hfinal
    exact hfinal


/-- C8 at its failing input: the secret demo-wlapp-sso has no data keys, provider
`a` registers and its four keys are staged, the registration of provider `b` is
refused. The flush that follows assigns into the nil data map of the secret:
the provider loop aborts there, after the calls secret read, route lookup,
registration of `a`, route lookup, registration of `b`, and CustomizeEnvSSO
returns neither an error nor anything else. On the same cluster with a secret
that has a data key, the pass returns the registration error and the stored
secret holds the client id of `a`. -/
theorem CustomizeEnvSSO_flush_aborts_on_secret_without_data :
    (∃ st, oidcLoop sampleRegister true { OIDC := [{ ID := "a" }, { ID := "b" }] }
        [{ ID := "a" }, { ID := "b" }]
        { client := clusterEmptySecret.log (.getSecret "demo-wlapp-sso" "ns"),
          wlapp := sampleApp, ssoSecret := { Name := "demo-wlapp-sso", Namespace := "ns" } } =
          .aborted st ∧
      st.ssoSecretUpdates =
        [("a-autoreg-RegisteredOidcClientId", "id-a"),
         ("a-autoreg-RegisteredOidcSecret", "secret-a"),
         ("a-clientId", "id-a"), ("a-clientSecret", "secret-a")] ∧
      st.client.calls = [.getSecret "demo-wlapp-sso" "ns", .getRoute "demo" "ns",
        .register { RouteURL := "https://demo.example.com", ProviderId := "a" },
        .getRoute "demo" "ns",
        .register { RouteURL := "https://demo.example.com", ProviderId := "b" }]) ∧
    CustomizeEnvSSO sampleRegister samplePts sampleApp clusterEmptySecret true = none ∧
    (∃ r final, CustomizeEnvSSO sampleRegister samplePts sampleApp clusterWithRoute true =
        some r ∧ r.err ≠ none ∧
      r.client.findSecret "demo-wlapp-sso" "ns" = some final ∧
      final.Data.get "a-clientId" = "id-a") :=
  ⟨⟨_, rfl, by decide, by decide⟩, rfl, ⟨_, _, rfl, by decide, rfl, by decide⟩⟩

/-- C9: the secret is found, `spec.sso` lists the providers `pre`, then
`deferred`, then `post`; the loop runs through `pre`; `deferred` has no client id
and its route lookup fails. Then CustomizeEnvSSO returns without error and with
the pod template untouched, Status.RouteAvailable is false, the stored secrets
are as before, the failed route lookup is the last call of the pass (so no
registration call follows it) and no call of the pass is a secret write. -/
theorem CustomizeEnvSSO_defers_without_route
    (reg : RegisterData → Except String (String × String))
    (pts : PodTemplateSpec) (wlapp : WebSphereLibertyApplication) (client : Client)
    (ssoSecret : Secret) (sso : WebSphereLibertyApplicationSSO)
    (pre : List OidcClient) (deferred : OidcClient) (post : List OidcClient)
    (st1 : SSOState) (e : String)
    (hsecret : client.findSecret (wlapp.Name ++ ssoSecretNameSuffix) wlapp.Namespace =
      some ssoSecret)
    (hsso : wlapp.Spec.SSO = some sso)
    (hoidc : sso.OIDC = pre ++ deferred :: post)
    (hpre : oidcLoop reg true sso pre
      { client := client.log (.getSecret (wlapp.Name ++ ssoSecretNameSuffix) wlapp.Namespace),
        wlapp := wlapp, ssoSecret := ssoSecret,
        ssoEnv := secretEnv ssoSecret ++ commonEnv sso } = .done st1)
    (hid : ssoSecret.Data.get (oidcClientName deferred ++ "-clientId") = "")
    (hroute : client.routeGet st1.client.routeGets wlapp.Name wlapp.Namespace = .error e) :
    ∃ r made, CustomizeEnvSSO reg pts wlapp client true = some r ∧
      r.err = none ∧ r.pts = pts ∧
      r.wlapp.Status.RouteAvailable = some false ∧
      r.client.secrets = client.secrets ∧
      r.client.calls = client.calls ++ made ∧
      made.getLast? = some (.getRoute wlapp.Name wlapp.Namespace) ∧
      (∀ c ∈ made, ∀ n ns u, c ≠ Call.createOrUpdate n ns u) := by
  obtain ⟨⟨f1, f2, _, f4, _, f6, f7, _⟩, ⟨more, hcalls, hmore⟩, _, _, _⟩ :=
    oidcLoop_done_inv reg true sso pre _ st1 hpre (by simp)
  obtain ⟨cl1, wl1, sec1, env1, upd1⟩ := st1
  simp only [Client.log] at f1 f2 f4 f6 f7 hroute hcalls
  subst f1
  have hrt1 : cl1.routeGet cl1.routeGets wl1.Name wl1.Namespace = .error e := by
    rw [f4, f6, f7]
    exact hroute
  have hloop := oidcLoop_cons_defer reg sso deferred post
    { client := cl1, wlapp := wl1, ssoSecret := sec1, ssoEnv := env1, ssoSecretUpdates := upd1 }
    e hid hrt1
  have hres : CustomizeEnvSSO reg pts wlapp client true = some
      { err := none, pts := pts,
        wlapp := { wl1 with Status := { wl1.Status with RouteAvailable := some false } },
        client := (cl1.GetRoute wl1.Name wl1.Namespace).1 } := by
    unfold CustomizeEnvSSO
    simp only [Client.GetSecret, hsecret, hsso, hoidc]
    rw [oidcLoop_append_done reg true sso pre (deferred :: post) _ _ hpre, hloop]
  refine ⟨_, [Call.getSecret (wlapp.Name ++ ssoSecretNameSuffix) wlapp.Namespace] ++ more ++
    [Call.getRoute wlapp.Name wlapp.Namespace], hres, rfl, rfl, rfl, ?_, ?_, ?_, ?_⟩
  · simp only [Client.GetRoute, Client.log]
    exact f2
  · show cl1.calls ++ [Call.getRoute wl1.Name wl1.Namespace] = _
    rw [hcalls, f6, f7]
    simp
  · exact List.getLast?_concat _
  · intro c hc n ns u hcu
    subst hcu
    simp only [List.mem_append, List.mem_singleton, reduceCtorEq, false_or, or_false] at hc
    rcases hmore _ hc with ⟨_, _, h⟩ | ⟨_, h⟩ <;> simp at h

/-- Witness of C9: no route exists when provider `a` is reached. -/
theorem CustomizeEnvSSO_defers_without_route_witness :
    ∃ r made, CustomizeEnvSSO sampleRegister samplePts sampleApp clusterWithoutRoute true =
        some r ∧
      r.err = none ∧ r.pts = samplePts ∧
      r.wlapp.Status.RouteAvailable = some false ∧
      r.client.secrets = clusterWithoutRoute.secrets ∧
      r.client.calls = clusterWithoutRoute.calls ++ made ∧
      made.getLast? = some (.getRoute sampleApp.Name sampleApp.Namespace) ∧
      (∀ c ∈ made, ∀ n ns u, c ≠ Call.createOrUpdate n ns u) :=
  CustomizeEnvSSO_defers_without_route sampleRegister samplePts sampleApp
    clusterWithoutRoute sampleSecret { OIDC := [{ ID := "a" }, { ID := "b" }] }
    [] { ID := "a" } [{ ID := "b" }] _ "not found"
    (by decide) rfl rfl rfl (by decide) rfl

/-- C10 at its failing input: provider `a` registers, then the route lookup made
for provider `b` fails. CustomizeEnvSSO returns without error; the calls of the
pass are the secret read, a route lookup, the registration call for `a`, which
succeeded, and the failed route lookup: no create-or-update call was made, and
the stored secret is the one found on entry, without `a-clientId`. -/
theorem CustomizeEnvSSO_deferral_drops_staged_updates :
    ∃ r, CustomizeEnvSSO sampleRegister samplePts sampleApp clusterRouteLost true = some r ∧
      r.err = none ∧
      r.wlapp.Status.RouteAvailable = some false ∧
      r.client.calls =
        [Call.getSecret "demo-wlapp-sso" "ns", Call.getRoute "demo" "ns",
         Call.register
           { RouteURL := "https://demo.example.com", Scopes := "openid", ProviderId := "a" },
         Call.getRoute "demo" "ns"] ∧
      sampleRegister
          { RouteURL := "https://demo.example.com", Scopes := "openid", ProviderId := "a" } =
        .ok ("id-a", "secret-a") ∧
      r.client.secrets = [sampleSecret] ∧
      sampleSecret.Data.get "a-clientId" = "" :=
  ⟨_, rfl, rfl, rfl, by decide, rfl, rfl, by decide⟩

/-! ## The provider loop: turns without registration, candidates, status flag -/

theorem oidcLoop_cons_skip
    (reg : RegisterData → Except String (String × String)) (os : Bool)
    (sso : WebSphereLibertyApplicationSSO) (p : OidcClient) (rest : List OidcClient)
    (st : SSOState)
    (h : ¬ (os = true ∧ st.ssoSecret.Data.get (oidcClientName p ++ "-clientId") = "")) :
    oidcLoop reg os sso (p :: rest) st =
      oidcLoop reg os sso rest { st with ssoEnv := st.ssoEnv ++ oidcEnv p } := by
  rw [oidcLoop]
  simp only [h, if_false]

theorem oidcLoop_no_registration
    (reg : RegisterData → Except String (String × String)) (os : Bool)
    (sso : WebSphereLibertyApplicationSSO) (l : List OidcClient) (st : SSOState)
    (hno : ∀ p ∈ l,
      ¬ (os = true ∧ st.ssoSecret.Data.get (oidcClientName p ++ "-clientId") = "")) :
    oidcLoop reg os sso l st =
      .done { st with ssoEnv := st.ssoEnv ++ (l.map oidcEnv).flatten } := by
  induction l generalizing st with
  | nil => simp [oidcLoop]
  | cons p rest ih =>
    rw [oidcLoop_cons_skip reg os sso p rest st (hno p (List.mem_cons_self _ _))]
    rw [ih { st with ssoEnv := st.ssoEnv ++ oidcEnv p }
      (fun q hq => hno q (List.mem_cons_of_mem _ hq))]
    simp

theorem oidcLoop_done_env
    (reg : RegisterData → Except String (String × String)) (os : Bool)
    (sso : WebSphereLibertyApplicationSSO) (l : List OidcClient) (st st1 : SSOState)
    (h : oidcLoop reg os sso l st = .done st1) :
    st1.ssoEnv = st.ssoEnv ++ (l.map oidcEnv).flatten := by
  induction l generalizing st with
  | nil =>
    simp only [oidcLoop, LoopExit.done.injEq] at h
    subst h
    simp
  | cons p rest ih =>
    rcases oidcLoop_cons_done reg os sso p rest st st1 h with
      ⟨_, hrest⟩ | ⟨_, _, rt, id, sec, _, _, hrest⟩
    · rw [ih _ hrest]
      simp
    · rw [ih _ hrest]
      simp [registeredState]

theorem oidcLoop_done_route_available
    (reg : RegisterData → Except String (String × String)) (os : Bool)
    (sso : WebSphereLibertyApplicationSSO) (l : List OidcClient) (st st1 : SSOState)
    (h : oidcLoop reg os sso l st = .done st1)
    (hr : st.wlapp.Status.RouteAvailable = some true ∨
      ∃ p ∈ l, os = true ∧ st.ssoSecret.Data.get (oidcClientName p ++ "-clientId") = "") :
    st1.wlapp.Status.RouteAvailable = some true := by
  induction l generalizing st with
  | nil =>
    simp only [oidcLoop, LoopExit.done.injEq] at h
    subst h
    rcases hr with hr | ⟨p, hp, _⟩
    · exact hr
    · simp at hp
  | cons p rest ih =>
    rcases oidcLoop_cons_done reg os sso p rest st st1 h with
      ⟨hskip, hrest⟩ | ⟨_, _, rt, id, sec, _, _, hrest⟩
    · apply ih _ hrest
      rcases hr with hr | ⟨q, hq, hos, hlack⟩
      · exact Or.inl hr
      · rcases List.mem_cons.1 hq with rfl | hq
        · exact absurd ⟨hos, hlack⟩ hskip
        · exact Or.inr ⟨q, hq, hos, hlack⟩
    · exact ih _ hrest (Or.inl rfl)

/-- A staged pair survives the turns of providers whose keys differ from its key. -/
theorem oidcLoop_done_keeps_pair
    (reg : RegisterData → Except String (String × String)) (os : Bool)
    (sso : WebSphereLibertyApplicationSSO) (l : List OidcClient) (st st1 : SSOState)
    (h : oidcLoop reg os sso l st = .done st1) (k v : String)
    (hm : (k, v) ∈ st.ssoSecretUpdates)
    (hk : ∀ q ∈ l, k ∉ registrationKeys (oidcClientName q)) :
    (k, v) ∈ st1.ssoSecretUpdates := by
  induction l generalizing st with
  | nil =>
    simp only [oidcLoop, LoopExit.done.injEq] at h
    subst h
    exact hm
  | cons p rest ih =>
    have hk0 := hk p (List.mem_cons_self _ _)
    simp only [registrationKeys, List.mem_cons, List.mem_singleton, List.not_mem_nil,
      or_false, not_or] at hk0
    rcases oidcLoop_cons_done reg os sso p rest st st1 h with
      ⟨_, hrest⟩ | ⟨_, _, rt, id, sec, _, _, hrest⟩
    · exact ih _ hrest hm (fun q hq => hk q (List.mem_cons_of_mem _ hq))
    · refine ih _ hrest ?_ (fun q hq => hk q (List.mem_cons_of_mem _ hq))
      exact mem_staged_old _ _ _ _ _ _ hm hk0.1 hk0.2.1 hk0.2.2.1 hk0.2.2.2

theorem GoMap.mem_keys_set (m : GoMap) (k0 v k : String)
    (h : k ∈ (GoMap.set m k0 v).map Prod.fst) : k ∈ m.map Prod.fst ∨ k = k0 := by
  rw [GoMap.keys_set] at h
  by_cases hm : k0 ∈ m.map Prod.fst
  · simp only [hm, if_true] at h
    exact Or.inl h
  · simp only [hm, if_false, List.mem_append, List.mem_singleton] at h
    exact h

/-- Every staged key was staged before or is one of the four keys of a provider of the list. -/
theorem oidcLoop_done_keys
    (reg : RegisterData → Except String (String × String)) (os : Bool)
    (sso : WebSphereLibertyApplicationSSO) (l : List OidcClient) (st st1 : SSOState)
    (h : oidcLoop reg os sso l st = .done st1) (k : String)
    (hk : k ∈ st1.ssoSecretUpdates.map Prod.fst) :
    k ∈ st.ssoSecretUpdates.map Prod.fst ∨ ∃ q ∈ l, k ∈ registrationKeys (oidcClientName q) := by
  induction l generalizing st with
  | nil =>
    simp only [oidcLoop, LoopExit.done.injEq] at h
    subst h
    exact Or.inl hk
  | cons p rest ih =>
    rcases oidcLoop_cons_done reg os sso p rest st st1 h with
      ⟨_, hrest⟩ | ⟨_, _, rt, id, sec, _, _, hrest⟩
    · rcases ih _ hrest with h1 | ⟨q, hq, h2⟩
      · exact Or.inl h1
      · exact Or.inr ⟨q, List.mem_cons_of_mem _ hq, h2⟩
    · rcases ih _ hrest with h1 | ⟨q, hq, h2⟩
      · have hp : ∀ kk, kk ∈ registrationKeys (oidcClientName p) →
            ∃ q ∈ p :: rest, kk ∈ registrationKeys (oidcClientName q) :=
          fun kk hkk => ⟨p, List.mem_cons_self _ _, hkk⟩
        rcases GoMap.mem_keys_set _ _ _ _ h1 with h1 | h1
        · rcases GoMap.mem_keys_set _ _ _ _ h1 with h1 | h1
          · rcases GoMap.mem_keys_set _ _ _ _ h1 with h1 | h1
            · rcases GoMap.mem_keys_set _ _ _ _ h1 with h1 | h1
              · exact Or.inl h1
              · exact Or.inr (hp k (by simp [registrationKeys, h1]))
            · exact Or.inr (hp k (by simp [registrationKeys, h1]))
          · exact Or.inr (hp k (by simp [registrationKeys, h1]))
        · exact Or.inr (hp k (by simp [registrationKeys, h1]))
      · exact Or.inr ⟨q, List.mem_cons_of_mem _ hq, h2⟩


theorem oidcLoop_cons_ok
    (reg : RegisterData → Except String (String × String))
    (sso : WebSphereLibertyApplicationSSO) (p : OidcClient) (rest : List OidcClient)
    (st : SSOState) (rt : Route) (id sec : String)
    (hid : st.ssoSecret.Data.get (oidcClientName p ++ "-clientId") = "")
    (hrt : st.client.routeGet st.client.routeGets st.wlapp.Name st.wlapp.Namespace = .ok rt)
    (hreg : reg (registrationRequest sso st.ssoSecret p rt) = .ok (id, sec)) :
    oidcLoop reg true sso (p :: rest) st =
      oidcLoop reg true sso rest (registeredState sso st p rt id sec) := by
  rw [oidcLoop]
  simp only [hid, and_self, if_true, Client.GetRoute, hrt, hreg]
  rfl

theorem CreateOrUpdate_calls (c : Client) (obj : Secret) (mutate : Secret → Option Secret)
    (w : Client × Secret × Option String) (h : CreateOrUpdate c obj mutate = some w) :
    w.1.calls = c.calls := by
  unfold CreateOrUpdate at h
  cases hf : c.findSecret obj.Name obj.Namespace with
  | none =>
    simp only [hf] at h
    cases hm : mutate obj with
    | none => simp [hm] at h
    | some created =>
      simp only [hm] at h
      cases hw : c.writeErr with
      | none =>
        simp only [hw, Option.some.injEq] at h
        rw [← h]
      | some e =>
        simp only [hw, Option.some.injEq] at h
        rw [← h]
  | some existing =>
    simp only [hf] at h
    cases hm : mutate existing with
    | none => simp [hm] at h
    | some changed =>
      simp only [hm] at h
      by_cases hsame : changed = existing
      · simp only [hsame, if_true, Option.some.injEq] at h
        rw [← h]
      · simp only [hsame, if_false] at h
        cases hw : c.writeErr with
        | none =>
          simp only [hw, Option.some.injEq] at h
          rw [← h]
        | some e =>
          simp only [hw, Option.some.injEq] at h
          rw [← h]

theorem writeSSOSecretIfNeeded_calls (client : Client) (ssoSecret : Secret) (updates : GoMap)
    (w : Client × Secret × Option String)
    (h : writeSSOSecretIfNeeded client ssoSecret updates = some w) :
    w.1.calls =
      client.calls ++ (if updates = [] then []
        else [Call.createOrUpdate ssoSecret.Name ssoSecret.Namespace updates]) := by
  unfold writeSSOSecretIfNeeded at h
  cases updates with
  | nil =>
    simp only [List.length_nil, gt_iff_lt, Nat.lt_irrefl, if_false, Option.some.injEq] at h
    rw [← h]
    simp
  | cons kv t =>
    simp only [List.length_cons, gt_iff_lt, Nat.zero_lt_succ, if_true] at h
    rw [CreateOrUpdate_calls _ _ _ w h]
    simp [Client.log]

theorem writeSSOSecretIfNeeded_nil (client : Client) (ssoSecret : Secret) :
    writeSSOSecretIfNeeded client ssoSecret [] = some (client, ssoSecret, none) := by
  simp [writeSSOSecretIfNeeded]

/-- What the calls made by the provider loop can be, whichever way the loop
ends. `made` are the calls added to the log. -/
theorem oidcLoop_exit_calls
    (reg : RegisterData → Except String (String × String)) (os : Bool)
    (sso : WebSphereLibertyApplicationSSO) (l : List OidcClient) (st : SSOState) :
    ∃ made, (oidcLoop reg os sso l st).state.client.calls = st.client.calls ++ made ∧
      (∀ d, Call.register d ∈ made → os = true ∧ ∃ p ∈ l, ∃ rt,
        d = registrationRequest sso st.ssoSecret p rt ∧
        st.ssoSecret.Data.get (oidcClientName p ++ "-clientId") = "") ∧
      (∀ n ns, Call.getRoute n ns ∈ made → os = true ∧ ∃ p ∈ l,
        st.ssoSecret.Data.get (oidcClientName p ++ "-clientId") = "") ∧
      (∀ n ns, Call.getSecret n ns ∉ made) ∧
      (∀ n ns u, Call.createOrUpdate n ns u ∈ made → st.ssoSecretUpdates ≠ [] ∨
        ∃ d id sec, Call.register d ∈ made ∧ reg d = .ok (id, sec)) ∧
      ((oidcLoop reg os sso l st).state.ssoSecretUpdates ≠ [] → st.ssoSecretUpdates ≠ [] ∨
        ∃ d id sec, Call.register d ∈ made ∧ reg d = .ok (id, sec)) ∧
      ((∀ n ns u, Call.createOrUpdate n ns u ∉ made) →
        (oidcLoop reg os sso l st).state.client.secrets = st.client.secrets) := by
  induction l generalizing st with
  | nil =>
    refine ⟨[], ?_, ?_, ?_, ?_, ?_, ?_, ?_⟩ <;> simp [oidcLoop, LoopExit.state]
  | cons p rest ih =>
    by_cases hc : os = true ∧ st.ssoSecret.Data.get (oidcClientName p ++ "-clientId") = ""
    · obtain ⟨hos, hid⟩ := hc
      subst hos
      cases hrt : st.client.routeGet st.client.routeGets st.wlapp.Name st.wlapp.Namespace with
      | error e =>
        rw [oidcLoop_cons_defer reg sso p rest st e hid hrt]
        refine ⟨[Call.getRoute st.wlapp.Name st.wlapp.Namespace], ?_, ?_, ?_, ?_, ?_, ?_, ?_⟩
        · simp [LoopExit.state, Client.GetRoute, Client.log]
        · intro d hd
          simp at hd
        · intro n ns _
          exact ⟨rfl, p, List.mem_cons_self _ _, hid⟩
        · intro n ns hm
          simp at hm
        · intro n ns u hm
          simp at hm
        · intro hne
          exact Or.inl hne
        · intro _
          rfl
      | ok rt =>
        cases hreg : reg (registrationRequest sso st.ssoSecret p rt) with
        | error e =>
          cases hwr : writeSSOSecretIfNeeded
            ((st.client.GetRoute st.wlapp.Name st.wlapp.Namespace).1.log
              (.register (registrationRequest sso st.ssoSecret p rt)))
            st.ssoSecret st.ssoSecretUpdates with
          | none =>
            rw [oidcLoop_cons_abort reg sso p rest st rt e hid hrt hreg hwr]
            refine ⟨[Call.getRoute st.wlapp.Name st.wlapp.Namespace,
              Call.register (registrationRequest sso st.ssoSecret p rt)],
              ?_, ?_, ?_, ?_, ?_, ?_, ?_⟩
            · simp [LoopExit.state, Client.GetRoute, Client.log]
            · intro d hd
              refine ⟨rfl, p, List.mem_cons_self _ _, rt, ?_, hid⟩
              simpa using hd
            · intro n ns _
              exact ⟨rfl, p, List.mem_cons_self _ _, hid⟩
            · intro n ns hm
              simp at hm
            · intro n ns u hm
              simp at hm
            · intro hne
              exact Or.inl hne
            · intro _
              rfl
          | some w =>
            obtain ⟨c2, s2, e2⟩ := w
            have hcalls := writeSSOSecretIfNeeded_calls _ _ _ _ hwr
            rw [oidcLoop_cons_fail reg sso p rest st rt e hid hrt hreg c2 s2 e2 hwr]
            refine ⟨[Call.getRoute st.wlapp.Name st.wlapp.Namespace,
              Call.register (registrationRequest sso st.ssoSecret p rt)] ++
              (if st.ssoSecretUpdates = [] then []
                else [Call.createOrUpdate st.ssoSecret.Name st.ssoSecret.Namespace
                  st.ssoSecretUpdates]), ?_, ?_, ?_, ?_, ?_, ?_, ?_⟩
            · simp only [LoopExit.state]
              simp only at hcalls
              rw [hcalls]
              simp [Client.GetRoute, Client.log]
            · intro d hd
              refine ⟨rfl, p, List.mem_cons_self _ _, rt, ?_, hid⟩
              by_cases hu : st.ssoSecretUpdates = [] <;> simp [hu] at hd <;> exact hd
            · intro n ns _
              exact ⟨rfl, p, List.mem_cons_self _ _, hid⟩
            · intro n ns hm
              by_cases hu : st.ssoSecretUpdates = [] <;> simp [hu] at hm
            · intro n ns u hm
              by_cases hu : st.ssoSecretUpdates = []
              · simp [hu] at hm
              · exact Or.inl hu
            · intro hne
              exact Or.inl hne
            · intro hno
              by_cases hu : st.ssoSecretUpdates = []
              · rw [hu, writeSSOSecretIfNeeded_nil] at hwr
                simp only [Option.some.injEq, Prod.mk.injEq] at hwr
                simp only [LoopExit.state]
                rw [← hwr.1]
                rfl
              · exfalso
                apply hno st.ssoSecret.Name st.ssoSecret.Namespace st.ssoSecretUpdates
                simp [hu]
        | ok pr =>
          obtain ⟨id, sec⟩ := pr
          rw [oidcLoop_cons_ok reg sso p rest st rt id sec hid hrt hreg]
          obtain ⟨made, h1, h2, h3, h4, h5, h6, h7⟩ := ih (registeredState sso st p rt id sec)
          have hsucc : ∃ d id sec, Call.register d ∈
              [Call.getRoute st.wlapp.Name st.wlapp.Namespace,
                Call.register (registrationRequest sso st.ssoSecret p rt)] ++ made ∧
              reg d = .ok (id, sec) :=
            ⟨_, id, sec, by simp, hreg⟩
          refine ⟨[Call.getRoute st.wlapp.Name st.wlapp.Namespace,
            Call.register (registrationRequest sso st.ssoSecret p rt)] ++ made,
            ?_, ?_, ?_, ?_, ?_, ?_, ?_⟩
          · rw [h1]
            simp [registeredState, Client.GetRoute, Client.log]
          · intro d hd
            simp only [List.cons_append, List.nil_append, List.mem_cons, reduceCtorEq,
              Call.register.injEq, false_or] at hd
            rcases hd with rfl | hd
            · exact ⟨rfl, p, List.mem_cons_self _ _, rt, rfl, hid⟩
            · obtain ⟨_, q, hq, rt2, e1, e2⟩ := h2 d hd
              exact ⟨rfl, q, List.mem_cons_of_mem _ hq, rt2, e1, e2⟩
          · intro n ns _
            exact ⟨rfl, p, List.mem_cons_self _ _, hid⟩
          · intro n ns hm
            simp only [List.cons_append, List.nil_append, List.mem_cons, reduceCtorEq,
              false_or] at hm
            exact h4 n ns hm
          · intro n ns u _
            exact Or.inr hsucc
          · intro _
            exact Or.inr hsucc
          · intro hno
            rw [h7 (fun n ns u hm => hno n ns u (by simp [hm]))]
            rfl
    · rw [oidcLoop_cons_skip reg os sso p rest st hc]
      obtain ⟨made, h1, h2, h3, h4, h5, h6, h7⟩ :=
        ih { st with ssoEnv := st.ssoEnv ++ oidcEnv p }
      refine ⟨made, h1, ?_, ?_, h4, h5, h6, h7⟩
      · intro d hd
        obtain ⟨ho, q, hq, rt2, e1, e2⟩ := h2 d hd
        exact ⟨ho, q, List.mem_cons_of_mem _ hq, rt2, e1, e2⟩
      · intro n ns hm
        obtain ⟨ho, q, hq, e2⟩ := h3 n ns hm
        exact ⟨ho, q, List.mem_cons_of_mem _ hq, e2⟩


/-- The calls of a whole pass. Either the secret is missing and the pass is the
failed read alone, or the secret `s` was read and the further calls `made` are
route lookups and registration calls for providers without client id on
OpenShift, and secret writes that follow a successful registration. -/
theorem CustomizeEnvSSO_pass_calls
    (reg : RegisterData → Except String (String × String))
    (pts : PodTemplateSpec) (wlapp : WebSphereLibertyApplication) (client : Client)
    (os : Bool) (r : SSOResult) (h : CustomizeEnvSSO reg pts wlapp client os = some r) :
    (client.findSecret (wlapp.Name ++ ssoSecretNameSuffix) wlapp.Namespace = none ∧
      r.err ≠ none ∧ r.pts = pts ∧ r.wlapp = wlapp ∧ r.client.secrets = client.secrets ∧
      r.client.calls = client.calls ++
        [Call.getSecret (wlapp.Name ++ ssoSecretNameSuffix) wlapp.Namespace]) ∨
    (∃ s sso made,
      client.findSecret (wlapp.Name ++ ssoSecretNameSuffix) wlapp.Namespace = some s ∧
      wlapp.Spec.SSO = some sso ∧
      r.client.calls = client.calls ++
        [Call.getSecret (wlapp.Name ++ ssoSecretNameSuffix) wlapp.Namespace] ++ made ∧
      (∀ d, Call.register d ∈ made → os = true ∧ ∃ p ∈ sso.OIDC, ∃ rt,
        d = registrationRequest sso s p rt ∧
        s.Data.get (oidcClientName p ++ "-clientId") = "") ∧
      (∀ n ns, Call.getRoute n ns ∈ made → os = true ∧ ∃ p ∈ sso.OIDC,
        s.Data.get (oidcClientName p ++ "-clientId") = "") ∧
      (∀ n ns, Call.getSecret n ns ∉ made) ∧
      (∀ n ns u, Call.createOrUpdate n ns u ∈ made →
        ∃ d id sec, Call.register d ∈ made ∧ reg d = .ok (id, sec)) ∧
      ((∀ n ns u, Call.createOrUpdate n ns u ∉ made) →
        r.client.secrets = client.secrets)) := by
  unfold CustomizeEnvSSO at h
  simp only [Client.GetSecret] at h
  cases hs : client.findSecret (wlapp.Name ++ ssoSecretNameSuffix) wlapp.Namespace with
  | none =>
    left
    simp only [hs, Option.some.injEq] at h
    subst h
    exact ⟨rfl, by simp, rfl, rfl, rfl, rfl⟩
  | some s =>
    right
    simp only [hs] at h
    cases hsso : wlapp.Spec.SSO with
    | none => simp [hsso] at h
    | some sso =>
      simp only [hsso] at h
      obtain ⟨made, h1, h2, h3, h4, h5, h6, h7⟩ := oidcLoop_exit_calls reg os sso sso.OIDC
        { client := client.log (.getSecret (wlapp.Name ++ ssoSecretNameSuffix) wlapp.Namespace),
          wlapp := wlapp, ssoSecret := s, ssoEnv := secretEnv s ++ commonEnv sso }
      have h5a : ∀ n ns u, Call.createOrUpdate n ns u ∈ made →
          ∃ d id sec, Call.register d ∈ made ∧ reg d = .ok (id, sec) := by
        intro n ns u hm
        rcases h5 n ns u hm with hne | hreg
        · exact absurd rfl hne
        · exact hreg
      cases hloop : oidcLoop reg os sso sso.OIDC
          { client := client.log (.getSecret (wlapp.Name ++ ssoSecretNameSuffix) wlapp.Namespace),
            wlapp := wlapp, ssoSecret := s, ssoEnv := secretEnv s ++ commonEnv sso } with
      | returned err st =>
        simp only [hloop, Option.some.injEq] at h
        simp only [hloop, LoopExit.state] at h1 h6 h7
        subst h
        exact ⟨s, sso, made, rfl, rfl, h1, h2, h3, h4, h5a, h7⟩
      | aborted st => simp [hloop] at h
      | done st =>
        simp only [hloop] at h
        simp only [hloop, LoopExit.state] at h1 h6 h7
        have hex : ∃ w, writeSSOSecretIfNeeded st.client st.ssoSecret st.ssoSecretUpdates =
            some w ∧ r.client = w.1 := by
          cases hw : writeSSOSecretIfNeeded st.client st.ssoSecret st.ssoSecretUpdates with
          | none => simp [hw] at h
          | some w =>
            obtain ⟨c2, s2, e2⟩ := w
            rw [hw] at h
            cases e2 with
            | some e =>
              simp only [Option.some.injEq] at h
              subst h
              exact ⟨_, rfl, rfl⟩
            | none =>
              simp only at h
              cases hcs : pts.Spec.Containers with
              | nil => simp [hcs] at h
              | cons c cs =>
                simp only [hcs, Option.some.injEq] at h
                subst h
                exact ⟨_, rfl, rfl⟩
        obtain ⟨w, hw, hcl⟩ := hex
        have hwc := writeSSOSecretIfNeeded_calls st.client st.ssoSecret st.ssoSecretUpdates w hw
        refine ⟨s, sso, made ++ (if st.ssoSecretUpdates = [] then []
          else [Call.createOrUpdate st.ssoSecret.Name st.ssoSecret.Namespace
            st.ssoSecretUpdates]), rfl, rfl, ?_, ?_, ?_, ?_, ?_, ?_⟩
        · rw [hcl, hwc, h1]
          simp [Client.log]
        · intro d hd
          by_cases hu : st.ssoSecretUpdates = [] <;> simp [hu] at hd <;> exact h2 d hd
        · intro n ns hm
          by_cases hu : st.ssoSecretUpdates = [] <;> simp [hu] at hm <;> exact h3 n ns hm
        · intro n ns hm
          by_cases hu : st.ssoSecretUpdates = [] <;> simp [hu] at hm <;> exact h4 n ns hm
        · intro n ns u hm
          by_cases hu : st.ssoSecretUpdates = []
          · simp only [hu, if_true, List.append_nil] at hm
            obtain ⟨d, id, sec, hd, hr⟩ := h5a n ns u hm
            exact ⟨d, id, sec, by simp [hd], hr⟩
          · rcases h6 hu with hne | ⟨d, id, sec, hd, hr⟩
            · exact absurd rfl hne
            · exact ⟨d, id, sec, by simp [hd], hr⟩
        · intro hno
          have hu : st.ssoSecretUpdates = [] := by
            by_contra hu
            exact hno st.ssoSecret.Name st.ssoSecret.Namespace st.ssoSecretUpdates (by simp [hu])
          rw [hu, writeSSOSecretIfNeeded_nil] at hw
          rw [hcl, ← Option.some.inj hw]
          exact h7 (fun n ns u hm => hno n ns u (by simp [hm]))


/-! ## The registration pass: which calls are made -/

/-- C11: the client name of a descriptor is its ID, or oidc when the ID is empty.
A turn of the provider loop for a descriptor leaves the cluster client, with its
call log and counters, untouched when the platform is not OpenShift or the
secret holds a non-empty value under <clientName>-clientId. In every pass that
returns, each registration call and each route lookup made comes with OpenShift
and a descriptor of `spec.sso.oidc` whose <clientName>-clientId is empty or
absent in the loaded secret, the registration request naming that descriptor. -/
theorem CustomizeEnvSSO_registers_only_without_client_id
    (reg : RegisterData → Except String (String × String))
    (pts : PodTemplateSpec) (wlapp : WebSphereLibertyApplication) (client : Client)
    (os : Bool) :
    (∀ p : OidcClient, oidcClientName p = if p.ID = "" then "oidc" else p.ID) ∧
    (∀ (sso : WebSphereLibertyApplicationSSO) (p : OidcClient) (rest : List OidcClient)
        (st : SSOState),
      (os = false ∨ st.ssoSecret.Data.get (oidcClientName p ++ "-clientId") ≠ "") →
      oidcLoop reg os sso (p :: rest) st =
        oidcLoop reg os sso rest { st with ssoEnv := st.ssoEnv ++ oidcEnv p }) ∧
    (∀ r, CustomizeEnvSSO reg pts wlapp client os = some r →
      ∃ made, r.client.calls = client.calls ++ made ∧
        (∀ d, Call.register d ∈ made → os = true ∧ ∃ s sso p,
          client.findSecret (wlapp.Name ++ "-wlapp-sso") wlapp.Namespace = some s ∧
          wlapp.Spec.SSO = some sso ∧ p ∈ sso.OIDC ∧ d.ProviderId = oidcClientName p ∧
          s.Data.get (oidcClientName p ++ "-clientId") = "") ∧
        (∀ n ns, Call.getRoute n ns ∈ made → os = true ∧ ∃ s sso p,
          client.findSecret (wlapp.Name ++ "-wlapp-sso") wlapp.Namespace = some s ∧
          wlapp.Spec.SSO = some sso ∧ p ∈ sso.OIDC ∧
          s.Data.get (oidcClientName p ++ "-clientId") = "")) := by
  refine ⟨fun p => rfl, ?_, ?_⟩
  · intro sso p rest st hskip
    apply oidcLoop_cons_skip
    rintro ⟨hos, hid⟩
    rcases hskip with h | h
    · rw [hos] at h
      exact Bool.noConfusion h
    · exact h hid
  · intro r hr
    rcases CustomizeEnvSSO_pass_calls reg pts wlapp client os r hr with
      ⟨_, _, _, _, _, hcalls⟩ | ⟨s, sso, made, hs, hsso, hcalls, h2, h3, _, _, _⟩
    · refine ⟨_, hcalls, ?_, ?_⟩
      · intro d hd
        simp at hd
      · intro n ns hm
        simp at hm
    · refine ⟨[Call.getSecret (wlapp.Name ++ ssoSecretNameSuffix) wlapp.Namespace] ++ made,
        by rw [hcalls, List.append_assoc], ?_, ?_⟩
      · intro d hd
        simp only [List.singleton_append, List.mem_cons, reduceCtorEq, false_or] at hd
        obtain ⟨hos, p, hp, rt, hd2, hlack⟩ := h2 d hd
        refine ⟨hos, s, sso, p, hs, hsso, hp, ?_, hlack⟩
        rw [hd2]
        rfl
      · intro n ns hm
        simp only [List.singleton_append, List.mem_cons, reduceCtorEq, false_or] at hm
        obtain ⟨hos, p, hp, hlack⟩ := h3 n ns hm
        exact ⟨hos, s, sso, p, hs, hsso, hp, hlack⟩

/-- C13: with an empty update map writeSSOSecretIfNeeded returns the cluster
client as it was, so no call is logged, and no error. In every pass that
returns, if none of the registration calls made succeeded then no
create-or-update call was made and the stored secrets are as before. -/
theorem writeSSOSecretIfNeeded_skips_empty_update
    (reg : RegisterData → Except String (String × String))
    (pts : PodTemplateSpec) (wlapp : WebSphereLibertyApplication) (client : Client)
    (os : Bool) :
    (∀ (c : Client) (s : Secret), writeSSOSecretIfNeeded c s [] = some (c, s, none)) ∧
    (∀ r, CustomizeEnvSSO reg pts wlapp client os = some r →
      ∃ made, r.client.calls = client.calls ++ made ∧
        ((∀ d, Call.register d ∈ made → ∀ id sec, reg d ≠ .ok (id, sec)) →
          (∀ n ns u, Call.createOrUpdate n ns u ∉ made) ∧
          r.client.secrets = client.secrets)) := by
  refine ⟨writeSSOSecretIfNeeded_nil, ?_⟩
  intro r hr
  rcases CustomizeEnvSSO_pass_calls reg pts wlapp client os r hr with
    ⟨_, _, _, _, hsec, hcalls⟩ | ⟨s, sso, made, _, _, hcalls, _, _, _, h5, h7⟩
  · refine ⟨_, hcalls, fun _ => ⟨?_, hsec⟩⟩
    intro n ns u hm
    simp at hm
  · refine ⟨[Call.getSecret (wlapp.Name ++ ssoSecretNameSuffix) wlapp.Namespace] ++ made,
      by rw [hcalls, List.append_assoc], ?_⟩
    intro hnone
    have hno : ∀ n ns u, Call.createOrUpdate n ns u ∉ made := by
      intro n ns u hm
      obtain ⟨d, id, sec, hd, hok⟩ := h5 n ns u hm
      exact hnone d (by simp [hd]) id sec hok
    refine ⟨?_, h7 hno⟩
    intro n ns u hm
    simp only [List.singleton_append, List.mem_cons, reduceCtorEq, false_or] at hm
    exact hno n ns u hm

/-- C14: when no secret named <resourceName>-wlapp-sso is found in the
resource's namespace, CustomizeEnvSSO returns an error, the pod template and the
resource (with its status) are as on entry, the stored secrets are as before,
and the failed read is the only call of the pass. -/
theorem CustomizeEnvSSO_secret_missing
    (reg : RegisterData → Except String (String × String))
    (pts : PodTemplateSpec) (wlapp : WebSphereLibertyApplication) (client : Client)
    (os : Bool)
    (h : client.findSecret (wlapp.Name ++ "-wlapp-sso") wlapp.Namespace = none) :
    ∃ r, CustomizeEnvSSO reg pts wlapp client os = some r ∧ r.err ≠ none ∧
      r.pts = pts ∧ r.wlapp = wlapp ∧ r.client.secrets = client.secrets ∧
      r.client.calls = client.calls ++
        [Call.getSecret (wlapp.Name ++ "-wlapp-sso") wlapp.Namespace] := by
  have h2 : client.findSecret (wlapp.Name ++ ssoSecretNameSuffix) wlapp.Namespace = none := h
  have hr : ∃ r, CustomizeEnvSSO reg pts wlapp client os = some r := by
    unfold CustomizeEnvSSO
    simp only [Client.GetSecret, h2]
    exact ⟨_, rfl⟩
  obtain ⟨r, hr⟩ := hr
  rcases CustomizeEnvSSO_pass_calls reg pts wlapp client os r hr with
    ⟨_, h3, h4, h5, h6, h7⟩ | ⟨s, _, _, hs, _⟩
  · exact ⟨r, hr, h3, h4, h5, h6, h7⟩
  · rw [h2] at hs
    exact Option.noConfusion hs

/-- Witness of C14: a cluster without secrets. -/
theorem CustomizeEnvSSO_secret_missing_witness :
    ∃ r, CustomizeEnvSSO sampleRegister samplePts sampleApp {} true = some r ∧ r.err ≠ none ∧
      r.pts = samplePts ∧ r.wlapp = sampleApp ∧ r.client.secrets = ({} : Client).secrets ∧
      r.client.calls = ({} : Client).calls ++
        [Call.getSecret (sampleApp.Name ++ "-wlapp-sso") sampleApp.Namespace] :=
  CustomizeEnvSSO_secret_missing sampleRegister samplePts sampleApp {} true (by decide)

/-! ## A completed pass with a registration -/

theorem registrationKeys_disjoint (N M : String) (h : N ≠ M) :
    ∀ k ∈ registrationKeys N, k ∉ registrationKeys M := by
  have e1 := key_suffix_ne (N ++ autoregFragment) (M ++ autoregFragment)
  have e2 := key_suffix_ne (N ++ autoregFragment) M
  have e3 := key_suffix_ne N M
  have f1 := key_suffix_ne (M ++ autoregFragment) (N ++ autoregFragment)
  have f2 := key_suffix_ne (M ++ autoregFragment) N
  have f3 := key_suffix_ne M N
  have c1 : ∀ s : String, N ++ s ≠ M ++ s := fun s e => h (str_append_right_cancel _ _ _ e)
  have c2 : ∀ s : String, N ++ autoregFragment ++ s ≠ M ++ autoregFragment ++ s :=
    fun s e => h (str_append_right_cancel _ _ _ (str_append_right_cancel _ _ _ e))
  intro k hk
  simp only [registrationKeys, List.mem_cons, List.mem_singleton, List.not_mem_nil,
    or_false] at hk ⊢
  rcases hk with rfl | rfl | rfl | rfl
  · exact not_or.2 ⟨c2 _, not_or.2 ⟨e1.1, not_or.2 ⟨e2.2.1, e2.2.2.1⟩⟩⟩
  · exact not_or.2 ⟨Ne.symm f1.1, not_or.2 ⟨c2 _, not_or.2 ⟨e2.2.2.2.1, e2.2.2.2.2.1⟩⟩⟩
  · exact not_or.2 ⟨Ne.symm f2.2.1, not_or.2 ⟨Ne.symm f2.2.2.2.1, not_or.2 ⟨c1 _, e3.2.2.2.2.2⟩⟩⟩
  · exact not_or.2 ⟨Ne.symm f2.2.2.1, not_or.2 ⟨Ne.symm f2.2.2.2.2.1,
      not_or.2 ⟨Ne.symm f3.2.2.2.2.2, c1 _⟩⟩⟩

/-- A write that returned without error: the secret it found has data keys, one
call is logged, the function holds the stored secret afterwards, and that secret
reads staged keys as staged and all other keys as before. -/
theorem writeSSOSecretIfNeeded_written (client : Client) (ssoSecret existing : Secret)
    (updates : GoMap) (c2 : Client) (final : Secret)
    (hne : updates ≠ []) (hn : (updates.map Prod.fst).Nodup)
    (hfind : client.findSecret ssoSecret.Name ssoSecret.Namespace = some existing)
    (hwr : writeSSOSecretIfNeeded client ssoSecret updates = some (c2, final, none)) :
    existing.Data ≠ [] ∧
      c2.findSecret ssoSecret.Name ssoSecret.Namespace = some final ∧
      c2.calls = client.calls ++
        [Call.createOrUpdate ssoSecret.Name ssoSecret.Namespace updates] ∧
      ∀ k, final.Data.get k =
        if k ∈ updates.map Prod.fst then updates.get k else existing.Data.get k := by
  have hlen : updates.length > 0 := List.length_pos.2 hne
  have hfind2 : (client.log (.createOrUpdate ssoSecret.Name ssoSecret.Namespace updates)).findSecret
      ssoSecret.Name ssoSecret.Namespace = some existing := hfind
  have hnamed := findSecret_named client _ _ existing hfind
  have hget := GoMap.get_fold_set updates hn existing.Data
  unfold writeSSOSecretIfNeeded CreateOrUpdate at hwr
  simp only [hlen, if_true, hfind2] at hwr
  by_cases hdata : existing.Data = []
  · simp [hdata, hne] at hwr
  · simp only [hdata, false_and, if_false] at hwr
    generalize updates.foldl (fun d kv => GoMap.set d kv.1 kv.2) existing.Data = newData
      at hget hwr
    by_cases hsame : ({ existing with Data := newData } : Secret) = existing
    · simp only [hsame, if_true, Option.some.injEq, Prod.mk.injEq, and_true] at hwr
      obtain ⟨h1, h2⟩ := hwr
      subst h1
      subst h2
      refine ⟨hdata, hfind, rfl, ?_⟩
      intro k
      have hd : newData = existing.Data := congrArg Secret.Data hsame
      rw [hd] at hget
      exact hget k
    · simp only [hsame, if_false] at hwr
      cases hw : (client.log
          (.createOrUpdate ssoSecret.Name ssoSecret.Namespace updates)).writeErr with
      | some err => simp [hw] at hwr
      | none =>
        simp only [hw, Option.some.injEq, Prod.mk.injEq, and_true] at hwr
        obtain ⟨h1, h2⟩ := hwr
        subst h1
        subst h2
        exact ⟨hdata, findSecret_replaced client.secrets _ _ existing _ hfind hnamed, rfl, hget⟩

/-- A write into a secret with data keys returns without error when the store
takes writes. -/
theorem writeSSOSecretIfNeeded_returns (client : Client) (ssoSecret existing : Secret)
    (updates : GoMap) (hne : updates ≠ []) (hn : (updates.map Prod.fst).Nodup)
    (hfind : client.findSecret ssoSecret.Name ssoSecret.Namespace = some existing)
    (hdata : existing.Data ≠ []) (hw : client.writeErr = none) :
    ∃ c2 final, writeSSOSecretIfNeeded client ssoSecret updates = some (c2, final, none) := by
  obtain ⟨⟨c2, s2, e2⟩, hwr, _, h3⟩ :=
    writeSSOSecretIfNeeded_staged client ssoSecret existing updates hne hn hfind hdata
  have he : e2 = none := (h3 hw).1
  subst he
  exact ⟨c2, s2, hwr⟩


/-- C12: the secret is found, `spec.sso` lists the providers `pre`, then `p`,
then `post`; the loop runs through `pre`; `p` has no client id, its route lookup
succeeds and its registration returns `(id, sec)`; the loop then runs through
`post`, none of which has `p`'s client name N. Then the update map holds
N-clientId = id, N-clientSecret = sec, N-autoreg-RegisteredOidcClientId = id and
N-autoreg-RegisteredOidcSecret = sec, and whenever the pass completes, that is,
CustomizeEnvSSO returns without error, Status.RouteAvailable is true, the last
call is a create-or-update with this update map, the stored secret reads these
four keys so, and every key that is not one of the four keys of a provider of
the list reads as in the loaded secret. The pass does complete when the secret
has a data key, the store takes writes and the template has a container. -/
theorem CustomizeEnvSSO_registration_persisted
    (reg : RegisterData → Except String (String × String))
    (pts : PodTemplateSpec) (wlapp : WebSphereLibertyApplication) (client : Client)
    (s : Secret) (sso : WebSphereLibertyApplicationSSO)
    (pre : List OidcClient) (p : OidcClient) (post : List OidcClient)
    (st1 st2 : SSOState) (rt : Route) (id sec : String)
    (hsecret : client.findSecret (wlapp.Name ++ "-wlapp-sso") wlapp.Namespace = some s)
    (hsso : wlapp.Spec.SSO = some sso)
    (hoidc : sso.OIDC = pre ++ p :: post)
    (hpre : oidcLoop reg true sso pre
      { client := client.log (.getSecret (wlapp.Name ++ "-wlapp-sso") wlapp.Namespace),
        wlapp := wlapp, ssoSecret := s, ssoEnv := secretEnv s ++ commonEnv sso } = .done st1)
    (hid : s.Data.get (oidcClientName p ++ "-clientId") = "")
    (hroute : client.routeGet st1.client.routeGets wlapp.Name wlapp.Namespace = .ok rt)
    (hreg : reg (registrationRequest sso s p rt) = .ok (id, sec))
    (hpost : oidcLoop reg true sso post (registeredState sso st1 p rt id sec) = .done st2)
    (hlast : ∀ q ∈ post, oidcClientName q ≠ oidcClientName p) :
    (oidcClientName p ++ "-clientId", id) ∈ st2.ssoSecretUpdates ∧
    (oidcClientName p ++ "-clientSecret", sec) ∈ st2.ssoSecretUpdates ∧
    (oidcClientName p ++ "-autoreg-" ++ "RegisteredOidcClientId", id) ∈
      st2.ssoSecretUpdates ∧
    (oidcClientName p ++ "-autoreg-" ++ "RegisteredOidcSecret", sec) ∈
      st2.ssoSecretUpdates ∧
    (∀ r, CustomizeEnvSSO reg pts wlapp client true = some r → r.err = none →
      ∃ final, r.wlapp.Status.RouteAvailable = some true ∧
        r.client.calls.getLast? = some (.createOrUpdate (wlapp.Name ++ "-wlapp-sso")
          wlapp.Namespace st2.ssoSecretUpdates) ∧
        r.client.findSecret (wlapp.Name ++ "-wlapp-sso") wlapp.Namespace = some final ∧
        final.Data.get (oidcClientName p ++ "-clientId") = id ∧
        final.Data.get (oidcClientName p ++ "-clientSecret") = sec ∧
        final.Data.get (oidcClientName p ++ "-autoreg-" ++ "RegisteredOidcClientId") = id ∧
        final.Data.get (oidcClientName p ++ "-autoreg-" ++ "RegisteredOidcSecret") = sec ∧
        (∀ k, (∀ q ∈ sso.OIDC, k ∉ registrationKeys (oidcClientName q)) →
          final.Data.get k = s.Data.get k)) ∧
    (s.Data ≠ [] → client.writeErr = none → pts.Spec.Containers ≠ [] →
      ∃ r, CustomizeEnvSSO reg pts wlapp client true = some r ∧ r.err = none) := by
  have hsecret2 : client.findSecret (wlapp.Name ++ ssoSecretNameSuffix) wlapp.Namespace =
      some s := hsecret
  change oidcLoop reg true sso pre
    { client := client.log (.getSecret (wlapp.Name ++ ssoSecretNameSuffix) wlapp.Namespace),
      wlapp := wlapp, ssoSecret := s, ssoEnv := secretEnv s ++ commonEnv sso } = .done st1
    at hpre
  obtain ⟨⟨f1, f2, f3, f4, _, f6, f7, _⟩, _, hnodup1, _, _⟩ :=
    oidcLoop_done_inv reg true sso pre _ st1 hpre (by simp)
  obtain ⟨cl1, wl1, sec1, env1, upd1⟩ := st1
  simp only [Client.log] at f1 f2 f3 f4 f6 f7 hroute hnodup1
  subst f1
  obtain ⟨hname, hns⟩ := findSecret_named client _ _ sec1 hsecret2
  have hrt1 : cl1.routeGet cl1.routeGets wl1.Name wl1.Namespace = .ok rt := by
    rw [f4, f6, f7]
    exact hroute
  have hnodupR : ((registeredState sso
      { client := cl1, wlapp := wl1, ssoSecret := sec1, ssoEnv := env1,
        ssoSecretUpdates := upd1 } p rt id sec).ssoSecretUpdates.map Prod.fst).Nodup :=
    GoMap.nodup_set _ _ _ (GoMap.nodup_set _ _ _ (GoMap.nodup_set _ _ _
      (GoMap.nodup_set _ _ _ hnodup1)))
  obtain ⟨⟨g1, g2, g3, _, _, _, _, _⟩, ⟨more, gcalls, _⟩, hnodup2, _, _⟩ :=
    oidcLoop_done_inv reg true sso post _ st2 hpost hnodupR
  have hall : oidcLoop reg true sso sso.OIDC
      { client := client.log (.getSecret (wlapp.Name ++ ssoSecretNameSuffix) wlapp.Namespace),
        wlapp := wlapp, ssoSecret := sec1, ssoEnv := secretEnv sec1 ++ commonEnv sso } =
      .done st2 := by
    rw [hoidc, oidcLoop_append_done reg true sso pre (p :: post) _ _ hpre,
      oidcLoop_cons_ok reg sso p post _ rt id sec hid hrt1 hreg]
    exact hpost
  have hroute2 := oidcLoop_done_route_available reg true sso post _ st2 hpost (Or.inl rfl)
  obtain ⟨m1, m2, m3, m4⟩ := mem_staged_new upd1 (oidcClientName p) id sec
  have hkeep : ∀ k v, k ∈ registrationKeys (oidcClientName p) →
      (k, v) ∈ (registeredState sso
        { client := cl1, wlapp := wl1, ssoSecret := sec1, ssoEnv := env1,
          ssoSecretUpdates := upd1 } p rt id sec).ssoSecretUpdates →
      (k, v) ∈ st2.ssoSecretUpdates := by
    intro k v hk hm
    apply oidcLoop_done_keeps_pair reg true sso post _ st2 hpost k v hm
    intro q hq
    exact registrationKeys_disjoint _ _ (Ne.symm (hlast q hq)) k hk
  have p1 := hkeep _ _ (by simp [registrationKeys]) m1
  have p2 := hkeep _ _ (by simp [registrationKeys]) m2
  have p3 := hkeep _ _ (by simp [registrationKeys]) m3
  have p4 := hkeep _ _ (by simp [registrationKeys]) m4
  have hne : st2.ssoSecretUpdates ≠ [] := List.ne_nil_of_mem p1
  simp only [registeredState, Client.log, Client.GetRoute] at g1 g2 g3
  have hfind : st2.client.findSecret st2.ssoSecret.Name st2.ssoSecret.Namespace = some sec1 := by
    simp only [Client.findSecret, g1, g2, f2, hname, hns]
    exact hsecret2
  refine ⟨p1, p2, p3, p4, ?_, ?_⟩
  · intro r hr herr
    unfold CustomizeEnvSSO at hr
    simp only [Client.GetSecret, hsecret2, hsso, hall] at hr
    have hex : ∃ c2 final,
        writeSSOSecretIfNeeded st2.client st2.ssoSecret st2.ssoSecretUpdates =
          some (c2, final, none) ∧ r.wlapp = st2.wlapp ∧ r.client = c2 := by
      cases hw : writeSSOSecretIfNeeded st2.client st2.ssoSecret st2.ssoSecretUpdates with
      | none => simp [hw] at hr
      | some w =>
        obtain ⟨c2, s2, e2⟩ := w
        rw [hw] at hr
        cases e2 with
        | some e =>
          simp only [Option.some.injEq] at hr
          subst hr
          simp at herr
        | none =>
          simp only at hr
          cases hcs : pts.Spec.Containers with
          | nil => simp [hcs] at hr
          | cons c cs =>
            simp only [hcs, Option.some.injEq] at hr
            subst hr
            exact ⟨_, _, rfl, rfl, rfl⟩
    obtain ⟨c2, final, hwr, hwl, hcl⟩ := hex
    obtain ⟨_, hfinal, hcalls, hdata⟩ :=
      writeSSOSecretIfNeeded_written st2.client st2.ssoSecret sec1 st2.ssoSecretUpdates c2 final
        hne hnodup2 hfind hwr
    rw [g1, hname, hns] at hfinal hcalls
    have hval : ∀ k v, (k, v) ∈ st2.ssoSecretUpdates → final.Data.get k = v := by
      intro k v hm
      rw [hdata k]
      have hk : k ∈ st2.ssoSecretUpdates.map Prod.fst := List.mem_map_of_mem Prod.fst hm
      simp only [hk, if_true]
      exact GoMap.get_of_mem _ hnodup2 k v hm
    refine ⟨final, ?_, ?_, ?_, hval _ _ p1, hval _ _ p2, hval _ _ p3, hval _ _ p4, ?_⟩
    · rw [hwl]
      exact hroute2
    · rw [hcl, hcalls]
      exact List.getLast?_concat _
    · rw [hcl]
      exact hfinal
    · intro k hk
      rw [hdata k]
      have hnot : k ∉ st2.ssoSecretUpdates.map Prod.fst := by
        intro hin
        rcases oidcLoop_done_keys reg true sso sso.OIDC _ st2 hall k hin with h0 | ⟨q, hq, hkq⟩
        · simp at h0
        · exact hk q hq hkq
      simp only [hnot, if_false]
  · intro hdata hwrite hc
    have hw2 : st2.client.writeErr = none := by
      rw [g3, f3]
      exact hwrite
    obtain ⟨c2, final, hwr⟩ :=
      writeSSOSecretIfNeeded_returns st2.client st2.ssoSecret sec1 st2.ssoSecretUpdates hne
        hnodup2 hfind hdata hw2
    unfold CustomizeEnvSSO
    simp only [Client.GetSecret, hsecret2, hsso, hall, hwr]
    cases hcs : pts.Spec.Containers with
    | nil => exact absurd hcs hc
    | cons c cs => exact ⟨_, rfl, rfl⟩


/-- Witness of C12: providers `a` and `b` both register; the pass completes, and
the stored secret then holds the credentials of `a` and still holds the
bootstrap key it had. -/
theorem CustomizeEnvSSO_registration_persisted_witness :
    ∃ r final, CustomizeEnvSSO sampleRegisterAll samplePts sampleApp clusterWithRoute true =
        some r ∧ r.err = none ∧
      r.wlapp.Status.RouteAvailable = some true ∧
      r.client.findSecret "demo-wlapp-sso" "ns" = some final ∧
      final.Data.get "a-clientId" = "id-a" ∧
      final.Data.get "a-clientSecret" = "secret-a" ∧
      final.Data.get "a-autoreg-RegisteredOidcClientId" = "id-a" ∧
      final.Data.get "a-autoreg-RegisteredOidcSecret" = "secret-a" ∧
      final.Data.get "a-autoreg-scopes" = sampleSecret.Data.get "a-autoreg-scopes" := by
  obtain ⟨_, _, _, _, hpass, hret⟩ :=
    CustomizeEnvSSO_registration_persisted sampleRegisterAll samplePts sampleApp
      clusterWithRoute sampleSecret { OIDC := [{ ID := "a" }, { ID := "b" }] }
      [] { ID := "a" } [{ ID := "b" }] _ _ sampleRoute "id-a" "secret-a"
      (by decide) rfl rfl rfl (by decide) rfl rfl rfl (by decide)
  obtain ⟨r, h1, h2⟩ := hret (by decide) rfl (by decide)
  obtain ⟨final, h3, _, h9, h10, h11, h12, h13, h14⟩ := hpass r h1 h2
  exact ⟨r, final, h1, h2, h3, h9, h10, h11, h12, h13, h14 "a-autoreg-scopes" (by decide)⟩

/-! ## The environment built by a pass -/

/-- A pass that ran through the provider loop and whose write step returned no
error merges the candidate list into the first container. -/
theorem CustomizeEnvSSO_of_done
    (reg : RegisterData → Except String (String × String))
    (pts : PodTemplateSpec) (wlapp : WebSphereLibertyApplication) (client : Client)
    (os : Bool) (s : Secret) (sso : WebSphereLibertyApplicationSSO)
    (c : Container) (cs : List Container) (st : SSOState) (c2 : Client) (s2 : Secret)
    (hc : pts.Spec.Containers = c :: cs)
    (hsecret : client.findSecret (wlapp.Name ++ ssoSecretNameSuffix) wlapp.Namespace = some s)
    (hsso : wlapp.Spec.SSO = some sso)
    (hloop : oidcLoop reg os sso sso.OIDC
      { client := client.log (.getSecret (wlapp.Name ++ ssoSecretNameSuffix) wlapp.Namespace),
        wlapp := wlapp, ssoSecret := s, ssoEnv := secretEnv s ++ commonEnv sso } = .done st)
    (hw : writeSSOSecretIfNeeded st.client st.ssoSecret st.ssoSecretUpdates =
      some (c2, s2, none)) :
    CustomizeEnvSSO reg pts wlapp client os = some
      { err := none,
        pts := { pts with Spec := { pts.Spec with Containers :=
          { c with Env :=
            (appendMissingEnv c.Env (ssoCandidates s sso s2.ResourceVersion) c.Env) } :: cs } },
        wlapp := st.wlapp, client := c2 } := by
  have henv := oidcLoop_done_env reg os sso sso.OIDC _ st hloop
  unfold CustomizeEnvSSO
  simp only [Client.GetSecret, hsecret, hsso, hloop, hw, hc, henv, ssoCandidates]

/-- Every result of a pass either leaves the pod template as it was or merges a
candidate list into the first container, without error. -/
theorem CustomizeEnvSSO_result_env
    (reg : RegisterData → Except String (String × String))
    (pts : PodTemplateSpec) (wlapp : WebSphereLibertyApplication) (client : Client)
    (os : Bool) (r : SSOResult) (h : CustomizeEnvSSO reg pts wlapp client os = some r) :
    r.pts = pts ∨ ∃ s sso c cs rev,
      client.findSecret (wlapp.Name ++ ssoSecretNameSuffix) wlapp.Namespace = some s ∧
      wlapp.Spec.SSO = some sso ∧ pts.Spec.Containers = c :: cs ∧ r.err = none ∧
      r.pts = { pts with Spec := { pts.Spec with Containers :=
        { c with Env := appendMissingEnv c.Env (ssoCandidates s sso rev) c.Env } :: cs } } := by
  have h0 := h
  unfold CustomizeEnvSSO at h
  simp only [Client.GetSecret] at h
  cases hs : client.findSecret (wlapp.Name ++ ssoSecretNameSuffix) wlapp.Namespace with
  | none =>
    simp only [hs, Option.some.injEq] at h
    subst h
    exact Or.inl rfl
  | some s =>
    simp only [hs] at h
    cases hsso : wlapp.Spec.SSO with
    | none => simp [hsso] at h
    | some sso =>
      simp only [hsso] at h
      cases hloop : oidcLoop reg os sso sso.OIDC
          { client := client.log (.getSecret (wlapp.Name ++ ssoSecretNameSuffix) wlapp.Namespace),
            wlapp := wlapp, ssoSecret := s, ssoEnv := secretEnv s ++ commonEnv sso } with
      | returned err st =>
        simp only [hloop, Option.some.injEq] at h
        subst h
        exact Or.inl rfl
      | aborted st => simp [hloop] at h
      | done st =>
        simp only [hloop] at h
        cases hw : writeSSOSecretIfNeeded st.client st.ssoSecret st.ssoSecretUpdates with
        | none => simp [hw] at h
        | some w =>
          obtain ⟨c2, s2, e2⟩ := w
          rw [hw] at h
          cases e2 with
          | some e =>
            simp only [Option.some.injEq] at h
            subst h
            exact Or.inl rfl
          | none =>
            cases hcs : pts.Spec.Containers with
            | nil => simp [hcs] at h
            | cons c cs =>
              right
              have hr := CustomizeEnvSSO_of_done reg pts wlapp client os s sso c cs st c2 s2
                hcs hs hsso hloop hw
              rw [h0, Option.some.injEq] at hr
              subst hr
              exact ⟨s, sso, c, cs, s2.ResourceVersion, rfl, rfl, rfl, rfl, rfl⟩

/-- A pass in which no provider needs registration. -/
theorem CustomizeEnvSSO_no_registration
    (reg : RegisterData → Except String (String × String))
    (pts : PodTemplateSpec) (wlapp : WebSphereLibertyApplication) (client : Client)
    (os : Bool) (s : Secret) (sso : WebSphereLibertyApplicationSSO)
    (c : Container) (cs : List Container)
    (hc : pts.Spec.Containers = c :: cs)
    (hsecret : client.findSecret (wlapp.Name ++ ssoSecretNameSuffix) wlapp.Namespace = some s)
    (hsso : wlapp.Spec.SSO = some sso)
    (hno : os = false ∨ ∀ p ∈ sso.OIDC, s.Data.get (oidcClientName p ++ "-clientId") ≠ "") :
    CustomizeEnvSSO reg pts wlapp client os = some
      { err := none,
        pts := { pts with Spec := { pts.Spec with Containers :=
          { c with Env :=
            (appendMissingEnv c.Env (ssoCandidates s sso s.ResourceVersion) c.Env) } :: cs } },
        wlapp := wlapp,
        client := client.log (.getSecret (wlapp.Name ++ ssoSecretNameSuffix) wlapp.Namespace) } := by
  have hskip : ∀ p ∈ sso.OIDC,
      ¬ (os = true ∧ s.Data.get (oidcClientName p ++ "-clientId") = "") := by
    rintro p hp ⟨hos, hid⟩
    rcases hno with h | h
    · rw [hos] at h
      exact Bool.noConfusion h
    · exact h p hp hid
  have hloop := oidcLoop_no_registration reg os sso sso.OIDC
    { client := client.log (.getSecret (wlapp.Name ++ ssoSecretNameSuffix) wlapp.Namespace),
      wlapp := wlapp, ssoSecret := s, ssoEnv := secretEnv s ++ commonEnv sso } hskip
  exact CustomizeEnvSSO_of_done reg pts wlapp client os s sso c cs _ _ s hc hsecret hsso hloop
    (writeSSOSecretIfNeeded_nil _ _)

/-! ## Names of the candidates -/

theorem createEnvVarSSO_name (loginID envSuffix : String) (value : Value) :
    ∃ rest, (createEnvVarSSO loginID envSuffix value).Name = "SEC_SSO_" ++ rest :=
  ⟨loginID ++ envSuffix, by simp [createEnvVarSSO, ssoEnvVarPrefix, String.append_assoc]⟩

theorem mem_strEnv (id suffix value : String) (v : EnvVar) (h : v ∈ strEnv id suffix value) :
    v = createEnvVarSSO id suffix (.str value) := by
  unfold strEnv at h
  by_cases hv : value = ""
  · simp [hv] at h
  · simpa [hv] using h

theorem mem_boolEnv (id suffix : String) (value : Option Bool) (v : EnvVar)
    (h : v ∈ boolEnv id suffix value) : ∃ b, v = createEnvVarSSO id suffix (.bool b) := by
  unfold boolEnv at h
  cases value with
  | none => simp at h
  | some b => exact ⟨b, by simpa using h⟩

theorem strEnv_named (id suffix value : String) (v : EnvVar) (h : v ∈ strEnv id suffix value) :
    ∃ rest, v.Name = "SEC_SSO_" ++ rest := by
  rw [mem_strEnv id suffix value v h]
  exact createEnvVarSSO_name _ _ _

theorem boolEnv_named (id suffix : String) (value : Option Bool) (v : EnvVar)
    (h : v ∈ boolEnv id suffix value) : ∃ rest, v.Name = "SEC_SSO_" ++ rest := by
  obtain ⟨b, hb⟩ := mem_boolEnv id suffix value v h
  rw [hb]
  exact createEnvVarSSO_name _ _ _

theorem oidcEnv_named (oidcClient : OidcClient) (v : EnvVar) (h : v ∈ oidcEnv oidcClient) :
    ∃ rest, v.Name = "SEC_SSO_" ++ rest := by
  unfold oidcEnv at h
  simp only [List.mem_append] at h
  rcases h with (((((((h | h) | h) | h) | h) | h) | h) | h) | h
  all_goals first | exact strEnv_named _ _ _ v h | exact boolEnv_named _ _ _ v h

theorem oauth2Env_named (oauth2Client : OAuth2Client) (v : EnvVar)
    (h : v ∈ oauth2Env oauth2Client) : ∃ rest, v.Name = "SEC_SSO_" ++ rest := by
  unfold oauth2Env at h
  simp only [List.mem_append] at h
  rcases h with ((((((((((((h | h) | h) | h) | h) | h) | h) | h) | h) | h) | h) | h) | h) | h
  all_goals first | exact strEnv_named _ _ _ v h | exact boolEnv_named _ _ _ v h

theorem commonEnv_named (sso : WebSphereLibertyApplicationSSO) (v : EnvVar)
    (h : v ∈ commonEnv sso) : ∃ rest, v.Name = "SEC_SSO_" ++ rest := by
  unfold commonEnv at h
  simp only [List.mem_append] at h
  rcases h with (h | h) | h
  · cases hm : sso.MapToUserRegistry with
    | none => simp [hm] at h
    | some b =>
      simp only [hm, List.mem_singleton] at h
      rw [h]
      exact createEnvVarSSO_name _ _ _
  · by_cases hr : sso.RedirectToRPHostAndPort = ""
    · simp [hr] at h
    · simp only [ne_eq, hr, not_false_eq_true, if_true, List.mem_singleton] at h
      rw [h]
      exact createEnvVarSSO_name _ _ _
  · cases hg : sso.Github with
    | none => simp [hg] at h
    | some gh =>
      simp only [hg] at h
      by_cases hh : gh.Hostname = ""
      · simp [hh] at h
      · simp only [ne_eq, hh, not_false_eq_true, if_true, List.mem_singleton] at h
        rw [h]
        exact createEnvVarSSO_name _ _ _

theorem secretEnv_named (s : Secret) (v : EnvVar) (h : v ∈ secretEnv s) :
    ∃ rest, v.Name = "SEC_SSO_" ++ rest := by
  unfold secretEnv at h
  simp only [List.mem_map] at h
  obtain ⟨k, _, hk⟩ := h
  exact ⟨normalizeEnvVariableName k, by rw [← hk]; rfl⟩

theorem ssoCandidates_named (s : Secret) (sso : WebSphereLibertyApplicationSSO) (rev : String)
    (v : EnvVar) (h : v ∈ ssoCandidates s sso rev) :
    (∃ rest, v.Name = "SEC_SSO_" ++ rest) ∨ v.Name = "SSO_SECRET_REV" := by
  unfold ssoCandidates at h
  simp only [List.mem_append, List.mem_flatten, List.mem_map, List.mem_singleton] at h
  rcases h with (((h | h) | ⟨l, ⟨p, _, rfl⟩, h⟩) | ⟨l, ⟨p, _, rfl⟩, h⟩) | h
  · exact Or.inl (secretEnv_named s v h)
  · exact Or.inl (commonEnv_named sso v h)
  · exact Or.inl (oidcEnv_named p v h)
  · exact Or.inl (oauth2Env_named p v h)
  · right
    rw [h]

/-- Counterexample to C16: on the sample application, off OpenShift, the pass
appends to the empty env list of the container one variable, SSO_SECRET_REV,
and this name does not start with SEC_SSO_. -/
theorem CustomizeEnvSSO_appends_revision_variable :
    (∃ r, CustomizeEnvSSO sampleRegister samplePts sampleApp clusterWithRoute false = some r ∧
      r.err = none ∧
      samplePts.Spec.Containers = [{ Name := "app", Env := [] }] ∧
      r.pts.Spec.Containers =
        [{ Name := "app", Env := [{ Name := "SSO_SECRET_REV", Value := "1" }] }]) ∧
    ¬ ∃ rest : String, "SSO_SECRET_REV" = "SEC_SSO_" ++ rest := by
  refine ⟨⟨_, rfl, rfl, by decide, by decide⟩, ?_⟩
  rintro ⟨rest, h⟩
  rw [String.ext_iff] at h
  have h2 := congrArg (List.take 2) h
  simp only [String.data_append] at h2
  rw [List.take_append_of_le_length (by decide)] at h2
  revert h2
  decide

/-- C16 as amended: whatever a pass appends to the first container's env list
is named with the prefix SEC_SSO_, except the revision variable, whose name is
SSO_SECRET_REV. -/
theorem CustomizeEnvSSO_appended_names
    (reg : RegisterData → Except String (String × String))
    (pts : PodTemplateSpec) (wlapp : WebSphereLibertyApplication) (client : Client)
    (os : Bool) (r : SSOResult) (c : Container) (cs : List Container)
    (hc : pts.Spec.Containers = c :: cs)
    (h : CustomizeEnvSSO reg pts wlapp client os = some r) :
    ∃ added, r.pts.Spec.Containers = { c with Env := c.Env ++ added } :: cs ∧
      ∀ v ∈ added, (∃ rest, v.Name = "SEC_SSO_" ++ rest) ∨ v.Name = "SSO_SECRET_REV" := by
  rcases CustomizeEnvSSO_result_env reg pts wlapp client os r h with
    hsame | ⟨s, sso, c1, cs1, rev, _, _, hc1, _, hpts⟩
  · refine ⟨[], ?_, by simp⟩
    rw [hsame, hc]
    simp
  · rw [hc] at hc1
    obtain ⟨rfl, rfl⟩ := List.cons.inj hc1
    refine ⟨(ssoCandidates s sso rev).filter (fun v => !(findEnvVar v.Name c.Env).isSome),
      ?_, ?_⟩
    · rw [hpts, appendMissingEnv_eq]
    · intro v hv
      exact ssoCandidates_named s sso rev v (List.mem_of_mem_filter hv)

/-- Witness of C16 as amended: the sample pass off OpenShift. -/
theorem CustomizeEnvSSO_appended_names_witness :
    ∃ added, [({ Name := "app", Env := [{ Name := "SSO_SECRET_REV", Value := "1" }] } :
        Container)] = { Name := "app", Env := [] ++ added } :: [] ∧
      ∀ v ∈ added, (∃ rest, v.Name = "SEC_SSO_" ++ rest) ∨ v.Name = "SSO_SECRET_REV" :=
  CustomizeEnvSSO_appended_names sampleRegister samplePts sampleApp clusterWithRoute false
    { err := none,
      pts := { Spec := { Containers :=
        [{ Name := "app", Env := [{ Name := "SSO_SECRET_REV", Value := "1" }] }] } },
      wlapp := sampleApp,
      client := clusterWithRoute.log (.getSecret "demo-wlapp-sso" "ns") }
    { Name := "app" } [] rfl rfl

/-! ## The candidates of one OIDC descriptor -/

theorem ToUpper_eq_empty (s : String) : strings.ToUpper s = "" ↔ s = "" := by
  unfold strings.ToUpper
  rw [String.ext_iff, String.ext_iff]
  simp

/-- C17: the candidates of an OIDC descriptor are, in the order of the fields,
one variable SEC_SSO_<P><suffix> per non-empty string field and per non-nil
boolean pointer, where P is OIDC for an empty ID and the upper-cased ID
otherwise; the value is the field's string, or "true" or "false" for a boolean.
A descriptor with an empty ID and only DiscoveryEndpoint = https://idp/disc set
yields SEC_SSO_OIDC_DISCOVERYENDPOINT = https://idp/disc and nothing else, and a
pointer to false yields "false". -/
theorem oidcEnv_candidates (c : OidcClient) :
    oidcEnv c =
      ([("_DISCOVERYENDPOINT", if c.DiscoveryEndpoint = "" then none else some c.DiscoveryEndpoint),
        ("_GROUPNAMEATTRIBUTE",
          if c.GroupNameAttribute = "" then none else some c.GroupNameAttribute),
        ("_USERNAMEATTRIBUTE",
          if c.UserNameAttribute = "" then none else some c.UserNameAttribute),
        ("_DISPLAYNAME", if c.DisplayName = "" then none else some c.DisplayName),
        ("_USERINFOENDPOINTENABLED",
          c.UserInfoEndpointEnabled.map (fun b => if b then "true" else "false")),
        ("_REALMNAMEATTRIBUTE",
          if c.RealmNameAttribute = "" then none else some c.RealmNameAttribute),
        ("_SCOPE", if c.Scope = "" then none else some c.Scope),
        ("_TOKENENDPOINTAUTHMETHOD",
          if c.TokenEndpointAuthMethod = "" then none else some c.TokenEndpointAuthMethod),
        ("_HOSTNAMEVERIFICATIONENABLED",
          c.HostNameVerificationEnabled.map (fun b => if b then "true" else "false"))] :
        List (String × Option String)).filterMap
        (fun f => f.2.map (fun value =>
          ({ Name := "SEC_SSO_" ++ (if c.ID = "" then "OIDC" else strings.ToUpper c.ID) ++ f.1,
             Value := value } : EnvVar))) ∧
    oidcEnv { ID := "", DiscoveryEndpoint := "https://idp/disc" } =
      [{ Name := "SEC_SSO_OIDC_DISCOVERYENDPOINT", Value := "https://idp/disc" }] ∧
    oidcEnv { ID := "", UserInfoEndpointEnabled := some false } =
      [{ Name := "SEC_SSO_OIDC_USERINFOENDPOINTENABLED", Value := "false" }] := by
  refine ⟨?_, by decide, by decide⟩
  have hid : (if strings.ToUpper c.ID = "" then "OIDC" else strings.ToUpper c.ID) =
      (if c.ID = "" then "OIDC" else strings.ToUpper c.ID) := by
    by_cases h : c.ID = ""
    · rw [if_pos ((ToUpper_eq_empty c.ID).2 h), if_pos h]
    · have h2 : ¬ strings.ToUpper c.ID = "" := fun e => h ((ToUpper_eq_empty c.ID).1 e)
      rw [if_neg h2, if_neg h]
  have hstr : ∀ id suffix value : String, strEnv id suffix value =
      (Option.map (fun v => ({ Name := "SEC_SSO_" ++ id ++ suffix, Value := v } : EnvVar))
        (if value = "" then none else some value)).toList := by
    intro id suffix value
    by_cases h : value = "" <;>
      simp [strEnv, h, createEnvVarSSO, getValue, ssoEnvVarPrefix]
  have hbool : ∀ (id suffix : String) (value : Option Bool), boolEnv id suffix value =
      (Option.map (fun v => ({ Name := "SEC_SSO_" ++ id ++ suffix, Value := v } : EnvVar))
        (value.map (fun b => if b then "true" else "false"))).toList := by
    intro id suffix value
    cases value with
    | none => simp [boolEnv]
    | some b => cases b <;>
        simp [boolEnv, createEnvVarSSO, getValue, ssoEnvVarPrefix, strings.FormatBool]
  have hfm : ∀ (g : String × Option String → Option EnvVar) (x : String × Option String)
      (t : List (String × Option String)),
      List.filterMap g (x :: t) = (g x).toList ++ List.filterMap g t := by
    intro g x t
    cases hx : g x <;> simp [List.filterMap_cons, hx]
  unfold oidcEnv
  simp only [hid, hstr, hbool, hfm, List.filterMap_nil, List.append_nil, List.append_assoc]

/-! ## Idempotence of the merge -/

/-- C19: on a template with a container, with the secret found and `spec.sso`
set, when the platform is not OpenShift or every OIDC provider has a non-empty
client id in the secret, CustomizeEnvSSO returns without error, and a second
call on the resulting template with the same cluster returns that template
unchanged. -/
theorem CustomizeEnvSSO_idempotent_without_registration
    (reg : RegisterData → Except String (String × String))
    (pts : PodTemplateSpec) (wlapp : WebSphereLibertyApplication) (client : Client)
    (os : Bool) (s : Secret) (sso : WebSphereLibertyApplicationSSO)
    (hc : pts.Spec.Containers ≠ [])
    (hsecret : client.findSecret (wlapp.Name ++ "-wlapp-sso") wlapp.Namespace = some s)
    (hsso : wlapp.Spec.SSO = some sso)
    (hno : os = false ∨ ∀ p ∈ sso.OIDC, s.Data.get (oidcClientName p ++ "-clientId") ≠ "") :
    ∃ r1 r2, CustomizeEnvSSO reg pts wlapp client os = some r1 ∧ r1.err = none ∧
      CustomizeEnvSSO reg r1.pts wlapp client os = some r2 ∧ r2.err = none ∧
      r2.pts = r1.pts := by
  cases hcs : pts.Spec.Containers with
  | nil => exact absurd hcs hc
  | cons c cs =>
    have h1 := CustomizeEnvSSO_no_registration reg pts wlapp client os s sso c cs hcs hsecret
      hsso hno
    have h2 := CustomizeEnvSSO_no_registration reg
      { pts with Spec := { pts.Spec with Containers :=
        { c with Env :=
          (appendMissingEnv c.Env (ssoCandidates s sso s.ResourceVersion) c.Env) } :: cs } }
      wlapp client os s sso
      { c with Env := (appendMissingEnv c.Env (ssoCandidates s sso s.ResourceVersion) c.Env) }
      cs rfl hsecret hsso hno
    refine ⟨_, _, h1, rfl, h2, rfl, ?_⟩
    simp only
    rw [appendMissingEnv_fixed (ssoCandidates s sso s.ResourceVersion)
      (appendMissingEnv c.Env (ssoCandidates s sso s.ResourceVersion) c.Env)
      (fun v hv => appendMissingEnv_finds c.Env _ v hv)]

/-- Witness of C19: the sample application off OpenShift. -/
theorem CustomizeEnvSSO_idempotent_without_registration_witness :
    ∃ r1 r2, CustomizeEnvSSO sampleRegister samplePts sampleApp clusterWithRoute false =
        some r1 ∧ r1.err = none ∧
      CustomizeEnvSSO sampleRegister r1.pts sampleApp clusterWithRoute false = some r2 ∧
      r2.err = none ∧ r2.pts = r1.pts :=
  CustomizeEnvSSO_idempotent_without_registration sampleRegister samplePts sampleApp
    clusterWithRoute false sampleSecret { OIDC := [{ ID := "a" }, { ID := "b" }] }
    (by decide) (by decide) rfl (Or.inl rfl)

/-! ## The secret-derived candidates -/

theorem Char_eq_of_toNat_eq (a b : Char) (h : a.toNat = b.toNat) : a = b := by
  rw [← Char.ofNat_toNat a, ← Char.ofNat_toNat b, h]

theorem charsLE_total (a b : List Char) :
    strings.charsLE a b = true ∨ strings.charsLE b a = true := by
  induction a generalizing b with
  | nil => exact Or.inl (by simp [strings.charsLE])
  | cons x xs ih =>
    cases b with
    | nil => exact Or.inr (by simp [strings.charsLE])
    | cons y ys =>
      simp only [strings.charsLE, Bool.or_eq_true, decide_eq_true_eq, Bool.and_eq_true,
        beq_iff_eq]
      rcases Nat.lt_trichotomy x.toNat y.toNat with hlt | heq | hgt
      · exact Or.inl (Or.inl hlt)
      · have hxy := Char_eq_of_toNat_eq x y heq
        rcases ih ys with h | h
        · exact Or.inl (Or.inr ⟨hxy, h⟩)
        · exact Or.inr (Or.inr ⟨hxy.symm, h⟩)
      · exact Or.inr (Or.inl hgt)

theorem charsLE_trans (a b c : List Char) (h1 : strings.charsLE a b = true)
    (h2 : strings.charsLE b c = true) : strings.charsLE a c = true := by
  induction a generalizing b c with
  | nil => simp [strings.charsLE]
  | cons x xs ih =>
    cases b with
    | nil => simp [strings.charsLE] at h1
    | cons y ys =>
      cases c with
      | nil => simp [strings.charsLE] at h2
      | cons z zs =>
        simp only [strings.charsLE, Bool.or_eq_true, decide_eq_true_eq, Bool.and_eq_true,
          beq_iff_eq] at h1 h2 ⊢
        rcases h1 with h1 | ⟨rfl, h1⟩
        · rcases h2 with h2 | ⟨rfl, _⟩
          · exact Or.inl (Nat.lt_trans h1 h2)
          · exact Or.inl h1
        · rcases h2 with h2 | ⟨rfl, h2⟩
          · exact Or.inl h2
          · exact Or.inr ⟨rfl, ih ys zs h1 h2⟩

theorem sort_Strings_sorted (l : List String) :
    (sort.Strings l).Sorted (fun a b => strings.charsLE a.toList b.toList = true) := by
  haveI : IsTotal String (fun a b => strings.charsLE a.toList b.toList = true) :=
    ⟨fun a b => charsLE_total a.toList b.toList⟩
  haveI : IsTrans String (fun a b => strings.charsLE a.toList b.toList = true) :=
    ⟨fun a b c => charsLE_trans a.toList b.toList c.toList⟩
  exact List.sorted_insertionSort _ l

theorem sort_Strings_perm (l : List String) : (sort.Strings l).Perm l :=
  List.perm_insertionSort _ l

/-- C15: the secret-derived candidates are the image of a key list `ks` that has
no repetition, holds exactly the keys of the secret's data that do not contain
-autoreg-, and ascends in the order of strings. The variable of a key is named
SEC_SSO_ followed by the key upper-cased with '-' and '.' turned into '_', has
no literal value, and its secretKeyRef names the secret and the key. -/
theorem secretEnv_candidates (s : Secret) :
    ∃ ks : List String,
      secretEnv s = ks.map (fun k =>
        ({ Name := "SEC_SSO_" ++ String.mk ((strings.ToUpper k).toList.map
             (fun ch => if ch = '-' ∨ ch = '.' then '_' else ch)),
           Value := "",
           ValueFrom := some { SecretKeyRef := some { Name := s.Name, Key := k } } } :
          EnvVar)) ∧
      ks.Nodup ∧
      (∀ k, k ∈ ks ↔ (k ∈ s.Data.map Prod.fst ∧ strings.Contains k "-autoreg-" = false)) ∧
      ks.Sorted (fun a b => strings.charsLE a.toList b.toList = true) := by
  refine ⟨sort.Strings (s.Data.keys.filter (fun k => !strings.Contains k autoregFragment)),
    ?_, ?_, ?_, sort_Strings_sorted _⟩
  · unfold secretEnv
    apply List.map_congr_left
    intro k _
    have hre : ∀ ch : Char, (if ch = '-' then '_' else if ch = '.' then '_' else ch) =
        (if ch = '-' ∨ ch = '.' then '_' else ch) := by
      intro ch
      by_cases h1 : ch = '-'
      · simp [h1]
      · by_cases h2 : ch = '.'
        · simp [h2]
        · simp [h1, h2]
    simp only [normalizeEnvVariableName, ssoEnvVarPrefix, hre]
  · rw [(sort_Strings_perm _).nodup_iff]
    exact List.Nodup.filter _ (List.nodup_dedup _)
  · intro k
    rw [(sort_Strings_perm _).mem_iff]
    simp [GoMap.keys, autoregFragment]

/-! ## The revision variable -/

theorem findEnvVar_none_of_fresh (name : String) (env : List EnvVar)
    (h : ∀ e ∈ env, e.Name ≠ name) : (!(findEnvVar name env).isSome) = true := by
  rw [Bool.not_eq_true', ← Bool.not_eq_true, findEnvVar_isSome_iff]
  rintro ⟨e, he, hn⟩
  exact h e he hn

theorem filter_ssoCandidates_fresh (s : Secret) (sso : WebSphereLibertyApplicationSSO)
    (rev : String) (env : List EnvVar) (h : ∀ e ∈ env, e.Name ≠ "SSO_SECRET_REV") :
    (ssoCandidates s sso rev).filter (fun v => !(findEnvVar v.Name env).isSome) =
      (secretEnv s ++ commonEnv sso ++ (sso.OIDC.map oidcEnv).flatten ++
        (sso.Oauth2.map oauth2Env).flatten).filter
          (fun v => !(findEnvVar v.Name env).isSome) ++
        [{ Name := "SSO_SECRET_REV", Value := rev }] := by
  unfold ssoCandidates
  rw [List.filter_append]
  congr 1
  simp only [List.filter_cons, List.filter_nil, findEnvVar_none_of_fresh _ env h, if_true]

theorem secretEnv_congr (s s1 : Secret) (hn : s1.Name = s.Name) (hd : s1.Data = s.Data) :
    secretEnv s1 = secretEnv s := by
  unfold secretEnv
  rw [hn, hd]

/-- Counterexample to C18: with a variable SSO_SECRET_REV already in the
container, the pass on the secret at revision 1 and the pass on the same secret
at revision 2 both return the template as it was, holding the value 0; and in a
pass on OpenShift that registers the providers, the variable appended holds the
token 1+ of the written secret, not the token 1 of the loaded one. -/
theorem CustomizeEnvSSO_revision_not_recorded :
    (∃ r1 r2,
      CustomizeEnvSSO sampleRegister samplePtsWithRev sampleApp clusterWithRoute false =
        some r1 ∧
      CustomizeEnvSSO sampleRegister samplePtsWithRev sampleApp clusterWithRouteRev2 false =
        some r2 ∧
      r1.err = none ∧ r2.err = none ∧ r1.pts = samplePtsWithRev ∧ r2.pts = samplePtsWithRev) ∧
    (∃ r3, CustomizeEnvSSO sampleRegisterAll samplePts sampleApp clusterWithRoute true =
        some r3 ∧ r3.err = none ∧
      r3.pts.Spec.Containers =
        [{ Name := "app", Env := [{ Name := "SSO_SECRET_REV", Value := "1+" }] }] ∧
      sampleSecret.ResourceVersion = "1") :=
  ⟨⟨_, _, rfl, rfl, rfl, rfl, by decide, by decide⟩, ⟨_, rfl, rfl, by decide, rfl⟩⟩

/-- C18 as amended: the template's first container `c` has no variable named
SSO_SECRET_REV on entry, the secret `s` is found, the provider loop runs through
and the write step returns no error, leaving the function with the secret `s2`.
Then CustomizeEnvSSO returns without error and the first container's env list
contains SSO_SECRET_REV with the revision token of `s2`. When nothing was staged
this is the token of the loaded secret, and the same call on a cluster whose
secret differs from `s` in the revision token only returns a different
template. -/
theorem CustomizeEnvSSO_records_revision
    (reg : RegisterData → Except String (String × String))
    (pts : PodTemplateSpec) (wlapp : WebSphereLibertyApplication) (client : Client)
    (os : Bool) (s : Secret) (sso : WebSphereLibertyApplicationSSO)
    (c : Container) (cs : List Container) (st : SSOState) (c2 : Client) (s2 : Secret)
    (hc : pts.Spec.Containers = c :: cs)
    (hfresh : ∀ e ∈ c.Env, e.Name ≠ "SSO_SECRET_REV")
    (hsecret : client.findSecret (wlapp.Name ++ "-wlapp-sso") wlapp.Namespace = some s)
    (hsso : wlapp.Spec.SSO = some sso)
    (hloop : oidcLoop reg os sso sso.OIDC
      { client := client.log (.getSecret (wlapp.Name ++ "-wlapp-sso") wlapp.Namespace),
        wlapp := wlapp, ssoSecret := s, ssoEnv := secretEnv s ++ commonEnv sso } = .done st)
    (hw : writeSSOSecretIfNeeded st.client st.ssoSecret st.ssoSecretUpdates =
      some (c2, s2, none)) :
    ∃ r c1, CustomizeEnvSSO reg pts wlapp client os = some r ∧ r.err = none ∧
      r.pts.Spec.Containers = c1 :: cs ∧
      { Name := "SSO_SECRET_REV", Value := s2.ResourceVersion } ∈ c1.Env ∧
      (st.ssoSecretUpdates = [] → s2.ResourceVersion = s.ResourceVersion) ∧
      (st.ssoSecretUpdates = [] → ∀ (client1 : Client) (s1 : Secret),
        client1.findSecret (wlapp.Name ++ "-wlapp-sso") wlapp.Namespace = some s1 →
        s1.Name = s.Name → s1.Data = s.Data → s1.ResourceVersion ≠ s.ResourceVersion →
        ∃ r1, CustomizeEnvSSO reg pts wlapp client1 os = some r1 ∧ r1.err = none ∧
          r1.pts ≠ r.pts) := by
  have hsecret2 : client.findSecret (wlapp.Name ++ ssoSecretNameSuffix) wlapp.Namespace =
      some s := hsecret
  change oidcLoop reg os sso sso.OIDC
    { client := client.log (.getSecret (wlapp.Name ++ ssoSecretNameSuffix) wlapp.Namespace),
      wlapp := wlapp, ssoSecret := s, ssoEnv := secretEnv s ++ commonEnv sso } = .done st
    at hloop
  have hres := CustomizeEnvSSO_of_done reg pts wlapp client os s sso c cs st c2 s2 hc hsecret2
    hsso hloop hw
  obtain ⟨⟨f1, _⟩, _, _, _, hstaged⟩ := oidcLoop_done_inv reg os sso sso.OIDC _ st hloop
    (by simp)
  simp only at f1
  have hrev : st.ssoSecretUpdates = [] → s2 = s := by
    intro hu
    rw [hu, writeSSOSecretIfNeeded_nil, f1] at hw
    exact (congrArg (fun t => t.2.1) (Option.some.inj hw)).symm
  refine ⟨_, _, hres, rfl, rfl, ?_, fun hu => by rw [hrev hu], ?_⟩
  · simp only
    rw [appendMissingEnv_eq, filter_ssoCandidates_fresh s sso _ c.Env hfresh]
    simp
  · intro hu client1 s1 hs1 hname hdata hne
    have hno : os = false ∨
        ∀ p ∈ sso.OIDC, s1.Data.get (oidcClientName p ++ "-clientId") ≠ "" := by
      cases hos : os with
      | false => exact Or.inl rfl
      | true =>
        right
        intro p hp hlack
        rw [hdata] at hlack
        obtain ⟨_, _, _, _, _, _, hm, _⟩ := hstaged p hp hos hlack
        rw [hu] at hm
        simp at hm
    have hres1 := CustomizeEnvSSO_no_registration reg pts wlapp client1 os s1 sso c cs hc hs1
      hsso hno
    refine ⟨_, hres1, rfl, ?_⟩
    intro heq
    have h1 := congrArg (fun p : PodTemplateSpec => (p.Spec.Containers.map (fun x => x.Env))) heq
    simp only [List.map_cons, List.cons.injEq, and_true] at h1
    rw [appendMissingEnv_eq, appendMissingEnv_eq,
      filter_ssoCandidates_fresh s1 sso _ c.Env hfresh,
      filter_ssoCandidates_fresh s sso _ c.Env hfresh, secretEnv_congr s s1 hname hdata,
      hrev hu] at h1
    have h2 := List.append_cancel_left (List.append_cancel_left h1)
    simp only [List.cons.injEq, EnvVar.mk.injEq, true_and, and_true] at h2
    exact hne h2

/-- Witness of C18 as amended: the sample application off OpenShift, on the
cluster at revision 1 and on the cluster at revision 2. -/
theorem CustomizeEnvSSO_records_revision_witness :
    ∃ r c1, CustomizeEnvSSO sampleRegister samplePts sampleApp clusterWithRoute false =
        some r ∧ r.err = none ∧
      r.pts.Spec.Containers = c1 :: [] ∧
      { Name := "SSO_SECRET_REV", Value := "1" } ∈ c1.Env ∧
      ∃ r1, CustomizeEnvSSO sampleRegister samplePts sampleApp clusterWithRouteRev2 false =
          some r1 ∧ r1.err = none ∧ r1.pts ≠ r.pts := by
  obtain ⟨r, c1, h1, h2, h3, h4, _, h6⟩ :=
    CustomizeEnvSSO_records_revision sampleRegister samplePts sampleApp clusterWithRoute false
      sampleSecret { OIDC := [{ ID := "a" }, { ID := "b" }] } { Name := "app" } [] _ _
      sampleSecret rfl (by decide) (by decide) rfl rfl rfl
  exact ⟨r, c1, h1, h2, h3, h4,
    h6 rfl clusterWithRouteRev2 { sampleSecret with ResourceVersion := "2" } (by decide) rfl rfl
      (by decide)⟩

/-! ## Distinct names -/

theorem ssoCandidates_names (s : Secret) (sso : WebSphereLibertyApplicationSSO)
    (rev : String) :
    (ssoCandidates s sso rev).map (fun v => v.Name) =
      (ssoCandidates s sso "").map (fun v => v.Name) := by
  simp [ssoCandidates]

/-- Counterexample to C20: three passes off OpenShift on the container without
env. OIDC IDs `a` and `A` are distinct and both yield SEC_SSO_A_DISCOVERYENDPOINT;
an OIDC and an OAuth2 descriptor of ID `x` both yield SEC_SSO_X_SCOPE; the secret
keys `k-1` and `k.1` both yield SEC_SSO_K_1. Each time both variables are
appended. -/
theorem CustomizeEnvSSO_appends_equal_names :
    (∃ r, CustomizeEnvSSO sampleRegister samplePts sampleAppCaseIds clusterWithRoute false =
        some r ∧ r.err = none ∧
      (["a", "A"] : List String).Nodup ∧
      r.pts.Spec.Containers = [{ Name := "app", Env :=
        [{ Name := "SEC_SSO_A_DISCOVERYENDPOINT", Value := "https://one" },
         { Name := "SEC_SSO_A_DISCOVERYENDPOINT", Value := "https://two" },
         { Name := "SSO_SECRET_REV", Value := "1" }] }]) ∧
    (∃ r, CustomizeEnvSSO sampleRegister samplePts sampleAppSharedId clusterWithRoute false =
        some r ∧ r.err = none ∧
      r.pts.Spec.Containers = [{ Name := "app", Env :=
        [{ Name := "SEC_SSO_X_SCOPE", Value := "openid" },
         { Name := "SEC_SSO_X_SCOPE", Value := "profile" },
         { Name := "SSO_SECRET_REV", Value := "1" }] }]) ∧
    (∃ r, CustomizeEnvSSO sampleRegister samplePts sampleApp clusterTwinKeys false =
        some r ∧ r.err = none ∧
      (r.pts.Spec.Containers.map (fun x => x.Env.map (fun v => v.Name))) =
        [["SEC_SSO_K_1", "SEC_SSO_K_1", "SSO_SECRET_REV"]]) :=
  ⟨⟨_, rfl, rfl, by decide, by decide⟩, ⟨_, rfl, rfl, by decide⟩, ⟨_, rfl, rfl, by decide⟩⟩

/-- C20 as amended: the first container's env names are pairwise distinct, the
secret `s` is found, and the candidates the pass builds from `s` and `spec.sso`
(secret-derived, cross-provider, per OIDC and OAuth2 descriptor, and
SSO_SECRET_REV) have pairwise distinct names. Then after every return of
CustomizeEnvSSO no two entries of the first container's env list share a name. -/
theorem CustomizeEnvSSO_distinct_names
    (reg : RegisterData → Except String (String × String))
    (pts : PodTemplateSpec) (wlapp : WebSphereLibertyApplication) (client : Client)
    (os : Bool) (s : Secret) (sso : WebSphereLibertyApplicationSSO)
    (r : SSOResult) (c : Container) (cs : List Container)
    (hc : pts.Spec.Containers = c :: cs)
    (hnames : (c.Env.map (fun v => v.Name)).Nodup)
    (hsecret : client.findSecret (wlapp.Name ++ "-wlapp-sso") wlapp.Namespace = some s)
    (hsso : wlapp.Spec.SSO = some sso)
    (hcand : ((ssoCandidates s sso "").map (fun v => v.Name)).Nodup)
    (h : CustomizeEnvSSO reg pts wlapp client os = some r) :
    ∃ c1, r.pts.Spec.Containers = c1 :: cs ∧ (c1.Env.map (fun v => v.Name)).Nodup := by
  have hsecret2 : client.findSecret (wlapp.Name ++ ssoSecretNameSuffix) wlapp.Namespace =
      some s := hsecret
  rcases CustomizeEnvSSO_result_env reg pts wlapp client os r h with
    hsame | ⟨s1, sso1, c1, cs1, rev, hs1, hsso1, hc1, _, hpts⟩
  · exact ⟨c, by rw [hsame, hc], hnames⟩
  · rw [hc] at hc1
    obtain ⟨rfl, rfl⟩ := List.cons.inj hc1
    rw [hsecret2] at hs1
    rw [hsso] at hsso1
    obtain rfl := Option.some.inj hs1
    obtain rfl := Option.some.inj hsso1
    refine ⟨_, by rw [hpts], ?_⟩
    simp only
    rw [appendMissingEnv_eq, List.map_append, List.nodup_append]
    refine ⟨hnames, ?_, ?_⟩
    · rw [← ssoCandidates_names s sso rev] at hcand
      exact hcand.sublist ((List.filter_sublist _).map _)
    · intro n hn1 hn2
      obtain ⟨v, hv, rfl⟩ := List.mem_map.1 hn2
      obtain ⟨e, he, hen⟩ := List.mem_map.1 hn1
      have hp := (List.mem_filter.1 hv).2
      rw [Bool.not_eq_true', ← Bool.not_eq_true, findEnvVar_isSome_iff] at hp
      exact hp ⟨e, he, hen⟩

/-- Witness of C20 as amended: a container with two variables, one of them
named like a candidate, and seven candidates from the secret, two OIDC
descriptors, one OAuth2 descriptor and the revision; the pass off OpenShift
leaves eight variables with eight names. -/
theorem CustomizeEnvSSO_distinct_names_witness :
    ∃ r c1, CustomizeEnvSSO sampleRegister samplePresetPts
        { Name := "demo", Namespace := "ns", Spec := { SSO := some sampleThreeProviders } }
        clusterWithCredentials false = some r ∧
      r.pts.Spec.Containers = c1 :: [] ∧
      c1.Env.map (fun v => v.Name) =
        ["JAVA_OPTS", "SEC_SSO_A_SCOPE", "SEC_SSO_A_CLIENTID", "SEC_SSO_B_CLIENTSECRET",
         "SEC_SSO_A_DISCOVERYENDPOINT", "SEC_SSO_B_SCOPE", "SEC_SSO_C_TOKENENDPOINT",
         "SSO_SECRET_REV"] ∧
      (c1.Env.map (fun v => v.Name)).Nodup := by
  have hres := CustomizeEnvSSO_no_registration sampleRegister samplePresetPts
    { Name := "demo", Namespace := "ns", Spec := { SSO := some sampleThreeProviders } }
    clusterWithCredentials false sampleCredentials sampleThreeProviders
    { Name := "app", Env := [{ Name := "JAVA_OPTS", Value := "-Xmx1g" },
                             { Name := "SEC_SSO_A_SCOPE", Value := "preset" }] } []
    rfl (by decide) rfl (Or.inl rfl)
  obtain ⟨c1, h1, h2⟩ := CustomizeEnvSSO_distinct_names sampleRegister samplePresetPts
    { Name := "demo", Namespace := "ns", Spec := { SSO := some sampleThreeProviders } }
    clusterWithCredentials false sampleCredentials sampleThreeProviders _
    { Name := "app", Env := [{ Name := "JAVA_OPTS", Value := "-Xmx1g" },
                             { Name := "SEC_SSO_A_SCOPE", Value := "preset" }] } []
    rfl (by decide) (by decide) rfl (by decide) hres
  refine ⟨_, c1, hres, h1, ?_, h2⟩
  rw [← (List.cons.inj h1).1]
  decide

/-! ## Contains and Remove -/

theorem Contains_eq_true_iff (list : List String) (s : String) :
    Contains list s = true ↔ s ∈ list := by
  induction list with
  | nil => simp [Contains]
  | cons v rest ih =>
    by_cases h : v = s
    · simp [Contains, h]
    · have h2 : ¬ s = v := fun e => h e.symm
      simp [Contains, h, h2, ih]

theorem Remove_loop_skip (s : String) (m k i : Nat) (cells : List String) (len : Nat)
    (h : ∀ j, i ≤ j → j < i + m → cells.getD j "" ≠ s) :
    Remove.loop s (m + k) i cells len = Remove.loop s k (i + m) cells len := by
  induction m generalizing i with
  | zero => simp
  | succ m ih =>
    have h0 : cells.getD i "" ≠ s := h i (Nat.le_refl i) (by omega)
    rw [show m + 1 + k = (m + k) + 1 by omega, Remove.loop, if_neg h0,
      ih (i + 1) (fun j h1 h2 => h j (by omega) (by omega))]
    rw [show i + 1 + m = i + (m + 1) by omega]

theorem getD_ne_of_not_mem (s : String) (cells : List String) (j : Nat)
    (hj : j < cells.length) (h : s ∉ cells) : cells.getD j "" ≠ s := by
  intro e
  apply h
  rw [List.getD_eq_getElem cells "" hj] at e
  rw [← e]
  exact List.getElem_mem hj

theorem Remove_of_not_mem (list : List String) (s : String) (h : s ∉ list) :
    Remove list s = some list := by
  unfold Remove
  have := Remove_loop_skip s list.length 0 0 list list.length
    (fun j _ hj => getD_ne_of_not_mem s list j (by omega) h)
  rw [Nat.add_zero] at this
  rw [this, Remove.loop, List.take_length]

theorem Remove_of_single (pre post : List String) (s : String) (h1 : s ∉ pre)
    (h2 : s ∉ post) : Remove (pre ++ s :: post) s = some (pre ++ post) := by
  unfold Remove
  have hlen : (pre ++ s :: post).length = pre.length + (post.length + 1) := by simp
  have hskip := Remove_loop_skip s pre.length (post.length + 1) 0 (pre ++ s :: post)
    (pre ++ s :: post).length (by
      intro j _ hj
      rw [Nat.zero_add] at hj
      rw [List.getD_append _ _ _ _ hj]
      exact getD_ne_of_not_mem s pre j hj h1)
  rw [hlen] at hskip ⊢
  rw [hskip, Nat.zero_add, Remove.loop]
  have hat : (pre ++ s :: post).getD pre.length "" = s := by
    rw [List.getD_append_right _ _ _ _ (Nat.le_refl _)]
    simp
  rw [if_pos hat, if_pos (by omega)]
  have e1 : pre.length + (post.length + 1) - (pre.length + 1) = post.length := by omega
  have e2 : pre.length + (post.length + 1) - 1 = pre.length + post.length := by omega
  have hcells : List.take pre.length (pre ++ s :: post) ++
      List.take (pre.length + (post.length + 1) - (pre.length + 1))
        (List.drop (pre.length + 1) (pre ++ s :: post)) ++
      List.drop (pre.length + (post.length + 1) - 1) (pre ++ s :: post) =
      pre ++ (post ++ List.drop post.length (s :: post)) := by
    rw [e1, e2]
    simp
  rw [hcells, e2]
  cases post with
  | nil => simp [Remove.loop]
  | cons q qs =>
    have hmem : s ∉ pre ++ ((q :: qs) ++ List.drop (q :: qs).length (s :: q :: qs)) := by
      intro hm
      rcases List.mem_append.1 hm with hm | hm
      · exact h1 hm
      · rcases List.mem_append.1 hm with hm | hm
        · exact h2 hm
        · rw [List.length_cons, List.drop_succ_cons] at hm
          exact h2 (List.mem_of_mem_drop hm)
    have hskip2 := Remove_loop_skip s (q :: qs).length 0 (pre.length + 1)
      (pre ++ ((q :: qs) ++ List.drop (q :: qs).length (s :: q :: qs)))
      (pre.length + (q :: qs).length) (by
        intro j _ hj
        refine getD_ne_of_not_mem s _ j ?_ hmem
        simp only [List.length_append, List.length_cons, List.length_drop] at hj ⊢
        omega)
    rw [Nat.add_zero] at hskip2
    rw [hskip2, Remove.loop, ← List.append_assoc, List.take_left']
    simp


/-- C28 at its failing input: on the list s, s, a the first turn deletes the
first s and moves the second into the cell just visited, the next turns read a,
and Remove returns the list s, a, which still contains s; the elements different
from s are the list a. -/
theorem Remove_skips_adjacent_occurrence :
    Remove ["s", "s", "a"] "s" = some ["s", "a"] ∧
    Contains ["s", "a"] "s" = true ∧
    (["s", "s", "a"] : List String).filter (fun v => v ≠ "s") = ["a"] := by
  decide

/-- C29 at its failing input: on the list s, s the first turn shortens the list
to length 1, the second turn reads s from the second cell and evaluates
list[2:] on a list of length 1, and Remove aborts. So it does on s, x, s. -/
theorem Remove_aborts_on_stale_trailing_occurrence :
    Remove ["s", "s"] "s" = none ∧
    Remove.loop "s" 1 1 ["s", "s"] 1 = none ∧
    Remove ["s", "x", "s"] "s" = none := by
  decide

/-- C30: on a list in which `s` occurs at most once Remove returns, and what it
returns is the list with that occurrence deleted, which is the list of the
elements different from `s` in their order, and the list itself when `s` does
not occur; Contains is false on the result. -/
theorem Remove_at_most_one_occurrence (list : List String) (s : String)
    (h : list.count s ≤ 1) :
    ∃ r, Remove list s = some r ∧ r = list.erase s ∧
      r = list.filter (fun v => v ≠ s) ∧ (s ∉ list → r = list) ∧ Contains r s = false := by
  by_cases hm : s ∈ list
  · obtain ⟨pre, post, rfl, hnot⟩ := List.eq_append_cons_of_mem hm
    have hpost : s ∉ post := by
      intro hp
      have h1 : 0 < post.count s := List.count_pos_iff.2 hp
      rw [List.count_append, List.count_cons_self] at h
      omega
    have hf : ∀ l : List String, s ∉ l → l.filter (fun v => v ≠ s) = l := by
      intro l hl
      apply List.filter_eq_self.2
      intro a ha
      simp only [ne_eq, decide_not, Bool.not_eq_true', decide_eq_false_iff_not]
      intro e
      exact hl (e ▸ ha)
    refine ⟨pre ++ post, Remove_of_single pre post s hnot hpost, ?_, ?_, fun hn => absurd hm hn,
      ?_⟩
    · rw [List.erase_append_right _ hnot, List.erase_cons_head]
    · rw [List.filter_append, List.filter_cons, hf pre hnot, hf post hpost]
      simp
    · rw [← Bool.not_eq_true, Contains_eq_true_iff]
      intro hc
      rcases List.mem_append.1 hc with hc | hc
      · exact hnot hc
      · exact hpost hc
  · refine ⟨list, Remove_of_not_mem list s hm, (List.erase_of_not_mem hm).symm, ?_,
      fun _ => rfl, ?_⟩
    · symm
      apply List.filter_eq_self.2
      intro a ha
      simp only [ne_eq, decide_not, Bool.not_eq_true', decide_eq_false_iff_not]
      intro e
      exact hm (e ▸ ha)
    · rw [← Bool.not_eq_true, Contains_eq_true_iff]
      exact hm

/-- Witness of C30: the list a, s, b. -/
theorem Remove_at_most_one_occurrence_witness :
    ∃ r, Remove ["a", "s", "b"] "s" = some r ∧ r = (["a", "s", "b"] : List String).erase "s" ∧
      r = (["a", "s", "b"] : List String).filter (fun v => v ≠ "s") ∧
      ("s" ∉ (["a", "s", "b"] : List String) → r = ["a", "s", "b"]) ∧
      Contains r "s" = false :=
  Remove_at_most_one_occurrence ["a", "s", "b"] "s" (by decide)


/-! ## Serviceability: the template wiring and the claim -/

/-- C22: on a template with first container `c`, with serviceability configured,
ConfigureServiceability returns the template with mounts appended to `c` and
volumes appended to the template and nothing else changed. After it, `c` has a
mount and the template a volume named serviceability. A mount is added exactly
when `c` had none of that name, and it has the path /serviceability; a volume is
added exactly when the template had none of that name, and it references the
claim spec.serviceability.volumeClaimName, or <resourceName>-serviceability when
that is empty, which is the name CreateServiceabilityPVC gives its claim.
Without serviceability the template is returned as it is. -/
theorem ConfigureServiceability_mounts_and_volumes {Q : Type}
    (ParseQuantity : String → Except String Q)
    (pts : PodTemplateSpec) (la : WebSphereLibertyApplication)
    (c : Container) (cs : List Container) (hc : pts.Spec.Containers = c :: cs) :
    (∀ svc, la.Spec.Serviceability = some svc →
      ∃ r addedMounts addedVolumes,
        ConfigureServiceability pts la = some r ∧
        r.Annotations = pts.Annotations ∧
        r.Spec.Containers = { c with VolumeMounts := c.VolumeMounts ++ addedMounts } :: cs ∧
        r.Spec.Volumes = pts.Spec.Volumes ++ addedVolumes ∧
        (∃ m ∈ c.VolumeMounts ++ addedMounts, m.Name = "serviceability") ∧
        (∃ v ∈ pts.Spec.Volumes ++ addedVolumes, v.Name = "serviceability") ∧
        addedMounts = (if ∃ m ∈ c.VolumeMounts, m.Name = "serviceability" then []
          else [{ Name := "serviceability", MountPath := "/serviceability" }]) ∧
        addedVolumes = (if ∃ v ∈ pts.Spec.Volumes, v.Name = "serviceability" then []
          else [{ Name := "serviceability",
                  PersistentVolumeClaim := some { ClaimName :=
                    if svc.VolumeClaimName ≠ "" then svc.VolumeClaimName
                    else la.Name ++ "-serviceability" } }]) ∧
        (∀ pvc, CreateServiceabilityPVC ParseQuantity la = some pvc →
          pvc.Name = la.Name ++ "-serviceability")) ∧
    (la.Spec.Serviceability = none → ConfigureServiceability pts la = some pts) := by
  constructor
  · intro svc hsvc
    have hany : ∀ {α : Type} (l : List α) (f : α → String),
        (l.any (fun v => decide (f v = "serviceability")) = true) ↔
          ∃ v ∈ l, f v = "serviceability" := by
      intro α l f
      simp [List.any_eq_true]
    have hpvc : ∀ pvc, CreateServiceabilityPVC ParseQuantity la = some pvc →
        pvc.Name = la.Name ++ "-serviceability" := by
      intro pvc h
      unfold CreateServiceabilityPVC at h
      simp only [WebSphereLibertyApplication.GetServiceability, hsvc] at h
      cases hq : ParseQuantity svc.GetSize with
      | error e => simp [hq] at h
      | ok q =>
        simp only [hq] at h
        by_cases hcl : svc.StorageClassName = ""
        · simp only [hcl, ne_eq, not_true_eq_false, if_false, Option.some.injEq] at h
          rw [← h]
        · simp only [hcl, ne_eq, not_false_eq_true, if_true, Option.some.injEq] at h
          rw [← h]
    unfold ConfigureServiceability
    simp only [WebSphereLibertyApplication.GetServiceability, hsvc, hc, foundLoop_eq,
      Bool.false_or, serviceabilityMountPath]
    by_cases hm : ∃ m ∈ c.VolumeMounts, m.Name = "serviceability" <;>
      by_cases hv : ∃ v ∈ pts.Spec.Volumes, v.Name = "serviceability"
    · refine ⟨_, [], [], rfl, rfl, ?_, ?_, ?_, ?_, by rw [if_pos hm], by rw [if_pos hv], hpvc⟩
      · simp [(hany c.VolumeMounts (fun v => v.Name)).2 hm]
      · simp [(hany pts.Spec.Volumes (fun v => v.Name)).2 hv]
      · simpa using hm
      · simpa using hv
    · refine ⟨_, [], _, rfl, rfl, ?_, ?_, ?_, ?_, by rw [if_pos hm], by rw [if_neg hv], hpvc⟩
      · simp [(hany c.VolumeMounts (fun v => v.Name)).2 hm]
      · have hv2 := (hany pts.Spec.Volumes (fun v => v.Name)).not.2 hv
        rw [Bool.not_eq_true] at hv2
        simp [hv2]
      · simpa using hm
      · exact ⟨_, List.mem_append_right _ (List.mem_singleton.2 rfl), rfl⟩
    · refine ⟨_, _, [], rfl, rfl, ?_, ?_, ?_, ?_, by rw [if_neg hm], by rw [if_pos hv], hpvc⟩
      · have hm2 := (hany c.VolumeMounts (fun v => v.Name)).not.2 hm
        rw [Bool.not_eq_true] at hm2
        simp [hm2]
      · simp [(hany pts.Spec.Volumes (fun v => v.Name)).2 hv]
      · exact ⟨_, List.mem_append_right _ (List.mem_singleton.2 rfl), rfl⟩
      · simpa using hv
    · refine ⟨_, _, _, rfl, rfl, ?_, ?_, ?_, ?_, by rw [if_neg hm], by rw [if_neg hv], hpvc⟩
      · have hm2 := (hany c.VolumeMounts (fun v => v.Name)).not.2 hm
        rw [Bool.not_eq_true] at hm2
        simp [hm2]
      · have hv2 := (hany pts.Spec.Volumes (fun v => v.Name)).not.2 hv
        rw [Bool.not_eq_true] at hv2
        simp [hv2]
      · exact ⟨_, List.mem_append_right _ (List.mem_singleton.2 rfl), rfl⟩
      · exact ⟨_, List.mem_append_right _ (List.mem_singleton.2 rfl), rfl⟩
  · intro hnone
    unfold ConfigureServiceability
    simp only [WebSphereLibertyApplication.GetServiceability, hnone]


/-- Witness of C22: a container that mounts another volume, serviceability by
size. -/
theorem ConfigureServiceability_mounts_and_volumes_witness :
    ∃ r addedMounts addedVolumes,
      ConfigureServiceability sampleMountedPts sampleServiceabilityApp = some r ∧
      r.Annotations = [] ∧
      r.Spec.Containers =
        [{ Name := "app",
           VolumeMounts := [{ Name := "tmp", MountPath := "/tmp" }] ++ addedMounts }] ∧
      r.Spec.Volumes = [{ Name := "tmp" }] ++ addedVolumes ∧
      addedMounts = [{ Name := "serviceability", MountPath := "/serviceability" }] ∧
      addedVolumes = [{ Name := "serviceability",
                        PersistentVolumeClaim := some { ClaimName := "demo-serviceability" } }] := by
  obtain ⟨r, am, av, h1, h2, h3, h4, _, _, h7, h8, _⟩ :=
    (ConfigureServiceability_mounts_and_volumes sampleParseQuantity sampleMountedPts
      sampleServiceabilityApp
      { Name := "app", VolumeMounts := [{ Name := "tmp", MountPath := "/tmp" }] } [] rfl).1
      { Size := "10Gi", StorageClassName := "fast" } rfl
  refine ⟨r, am, av, h1, h2, h3, h4, ?_, ?_⟩
  · rw [h7]
    decide
  · rw [h8]
    decide

/-- C23: with serviceability configured and its size parsing to `q`,
CreateServiceabilityPVC returns a claim named <resourceName>-serviceability in
the application's namespace, whose requests are storage = `q` and whose access
modes are ReadWriteMany, ReadWriteOnce; its storage class is set exactly when
spec.serviceability.storageClassName is non-empty, and then to that name. -/
theorem CreateServiceabilityPVC_claim {Q : Type} (ParseQuantity : String → Except String Q)
    (wlapp : WebSphereLibertyApplication) (svc : WebSphereLibertyApplicationServiceability)
    (q : Q) (hsvc : wlapp.Spec.Serviceability = some svc)
    (hq : ParseQuantity svc.Size = .ok q) :
    ∃ pvc, CreateServiceabilityPVC ParseQuantity wlapp = some pvc ∧
      pvc.Name = wlapp.Name ++ "-serviceability" ∧
      pvc.Namespace = wlapp.Namespace ∧
      pvc.Requests = [("storage", q)] ∧
      pvc.AccessModes = ["ReadWriteMany", "ReadWriteOnce"] ∧
      (pvc.StorageClassName ≠ none ↔ svc.StorageClassName ≠ "") ∧
      (svc.StorageClassName ≠ "" → pvc.StorageClassName = some svc.StorageClassName) ∧
      pvc.Labels = wlapp.GetLabels ∧ pvc.Annotations = wlapp.GetAnnotations := by
  unfold CreateServiceabilityPVC
  simp only [WebSphereLibertyApplication.GetServiceability, hsvc,
    WebSphereLibertyApplicationServiceability.GetSize, hq]
  by_cases hcl : svc.StorageClassName = ""
  · refine ⟨_, by rw [if_neg (by simpa using hcl)], rfl, rfl, rfl, rfl, ?_, ?_, rfl, rfl⟩
    · simp [hcl]
    · intro h
      exact absurd hcl h
  · refine ⟨_, by rw [if_pos hcl], rfl, rfl, rfl, rfl, ?_, ?_, rfl, rfl⟩
    · simp [hcl]
    · intro _
      rfl

/-- Witness of C23: size 10Gi with the storage class fast. -/
theorem CreateServiceabilityPVC_claim_witness :
    ∃ pvc, CreateServiceabilityPVC sampleParseQuantity sampleServiceabilityApp = some pvc ∧
      pvc.Name = "demo" ++ "-serviceability" ∧
      pvc.Namespace = "ns" ∧
      pvc.Requests = [("storage", "10Gi")] ∧
      pvc.AccessModes = ["ReadWriteMany", "ReadWriteOnce"] ∧
      (pvc.StorageClassName ≠ none ↔ "fast" ≠ "") ∧
      ("fast" ≠ "" → pvc.StorageClassName = some "fast") ∧
      pvc.Labels = sampleServiceabilityApp.GetLabels ∧
      pvc.Annotations = sampleServiceabilityApp.GetAnnotations :=
  CreateServiceabilityPVC_claim sampleParseQuantity sampleServiceabilityApp
    { Size := "10Gi", StorageClassName := "fast" } "10Gi" rfl rfl

/-- C27: serviceability is configured with an empty volumeClaimName and Validate
returns ok. Then the size parses, to `q` say, and CreateServiceabilityPVC, which
hands the same size to the same conversion, returns a claim, requesting `q`. -/
theorem Validate_ok_then_CreateServiceabilityPVC_returns {Q : Type}
    (ParseQuantity : String → Except String Q)
    (wlapp : WebSphereLibertyApplication) (svc : WebSphereLibertyApplicationServiceability)
    (hsvc : wlapp.Spec.Serviceability = some svc)
    (hclaim : svc.VolumeClaimName = "")
    (hvalid : Validate ParseQuantity wlapp = (true, none)) :
    ∃ q pvc, ParseQuantity svc.Size = .ok q ∧
      CreateServiceabilityPVC ParseQuantity wlapp = some pvc ∧
      pvc.Requests = [("storage", q)] := by
  have h1 := (Validate_ok_iff ParseQuantity wlapp svc hsvc).1 (by rw [hvalid])
  rcases h1 with h1 | ⟨_, h1⟩
  · exact absurd hclaim h1
  · cases hq : ParseQuantity svc.Size with
    | error e =>
      rw [hq] at h1
      exact absurd h1 (by simp [parsed])
    | ok q =>
      have hpvc : ∃ pvc, CreateServiceabilityPVC ParseQuantity wlapp = some pvc ∧
          pvc.Requests = [("storage", q)] := by
        unfold CreateServiceabilityPVC
        simp only [WebSphereLibertyApplication.GetServiceability, hsvc,
          WebSphereLibertyApplicationServiceability.GetSize, hq]
        by_cases hcl : svc.StorageClassName = ""
        · exact ⟨_, by rw [if_neg (by simpa using hcl)], rfl⟩
        · exact ⟨_, by rw [if_pos hcl], rfl⟩
      obtain ⟨pvc, h2, h3⟩ := hpvc
      exact ⟨q, pvc, rfl, h2, h3⟩

/-- Witness of C27: size 10Gi and no claim name. -/
theorem Validate_ok_then_CreateServiceabilityPVC_returns_witness :
    ∃ q pvc, sampleParseQuantity "10Gi" = .ok q ∧
      CreateServiceabilityPVC sampleParseQuantity sampleServiceabilityApp = some pvc ∧
      pvc.Requests = [("storage", q)] :=
  Validate_ok_then_CreateServiceabilityPVC_returns sampleParseQuantity sampleServiceabilityApp
    { Size := "10Gi", StorageClassName := "fast" } rfl rfl (by decide)

/-! ## Initialize: the application name -/

/-- C25 at its failing input: the resource demo has no application name and
carries the label app.kubernetes.io/part-of = suite. After Initialize its
application name is suite, not demo, the name of the custom resource. The same
resource without the label gets the application name demo. -/
theorem Initialize_takes_part_of_label :
    sampleLabelledApp.Spec.ApplicationName = "" ∧ sampleLabelledApp.Name = "demo" ∧
    sampleLabelledApp.Labels = some [("app.kubernetes.io/part-of", "suite")] ∧
    sampleLabelledApp.Initialize.Spec.ApplicationName = "suite" ∧
    ({ sampleLabelledApp with Labels := none }).Initialize.Spec.ApplicationName = "demo" := by
  decide

/-! ## The ledger: undeclared condition types -/

theorem GetType_eq_none_iff (x : StatusCondition) :
    x.GetType = none ↔ x.Type_ ≠ StatusConditionTypeReconciled := by
  unfold StatusCondition.GetType convertToCommonStatusConditionType
  by_cases h : x.Type_ = StatusConditionTypeReconciled <;> simp [h]

theorem SetCondition_none_of_incoming (s : WebSphereLibertyApplicationStatus)
    (c : StatusCondition) (now : Nat) (h : c.GetType = none) : s.SetCondition c now = none := by
  unfold WebSphereLibertyApplicationStatus.SetCondition
  cases SetCondition.scan s.Conditions c 0 none with
  | none => rfl
  | some slot => simp only [h]

theorem SetCondition_none_of_stored (s : WebSphereLibertyApplicationStatus)
    (c : StatusCondition) (now : Nat) (x : StatusCondition) (hx : x ∈ s.Conditions)
    (h : x.Type_ ≠ StatusConditionTypeReconciled) : s.SetCondition c now = none := by
  unfold WebSphereLibertyApplicationStatus.SetCondition
  cases hs : SetCondition.scan s.Conditions c 0 none with
  | none => rfl
  | some slot => exact absurd ((SetCondition_scan_some _ _ _ _ _ hs).1 x hx) h

theorem SetCondition_some_of_declared (s : WebSphereLibertyApplicationStatus)
    (c : StatusCondition) (now : Nat)
    (hst : ∀ x ∈ s.Conditions, x.Type_ = StatusConditionTypeReconciled)
    (hc : c.Type_ = StatusConditionTypeReconciled) : s.SetCondition c now ≠ none := by
  unfold WebSphereLibertyApplicationStatus.SetCondition
  rw [SetCondition_scan_declared s.Conditions c 0 none hst hc]
  simp only [GetType_of_declared c hc, StatusCondition.SetType,
    convertFromCommonStatusConditionType, if_true]
  split <;> simp

theorem GetCondition_scan_none_of_undeclared (pre : List StatusCondition) (x : StatusCondition)
    (post : List StatusCondition) (t : common.StatusConditionType)
    (hpre : ∀ y ∈ pre, y.GetType ≠ some t)
    (hx : x.Type_ ≠ StatusConditionTypeReconciled) :
    GetCondition.scan (pre ++ x :: post) t = none := by
  induction pre with
  | nil =>
    rw [List.nil_append, GetCondition.scan, (GetType_eq_none_iff x).2 hx]
  | cons y ys ih =>
    rw [List.cons_append, GetCondition.scan]
    cases hy : y.GetType with
    | none => rfl
    | some ty =>
      have hne : ty ≠ t := by
        intro e
        exact hpre y (List.mem_cons_self _ _) (by rw [hy, e])
      simp only [hne, if_false]
      exact ih (fun z hz => hpre z (List.mem_cons_of_mem _ hz))

theorem GetCondition_scan_none (conds : List StatusCondition) (t : common.StatusConditionType)
    (h : GetCondition.scan conds t = none) :
    ∃ pre x post, conds = pre ++ x :: post ∧ (∀ y ∈ pre, y.GetType ≠ some t) ∧
      x.Type_ ≠ StatusConditionTypeReconciled := by
  induction conds with
  | nil => simp [GetCondition.scan] at h
  | cons y ys ih =>
    rw [GetCondition.scan] at h
    cases hy : y.GetType with
    | none => exact ⟨[], y, ys, rfl, by simp, (GetType_eq_none_iff y).1 hy⟩
    | some ty =>
      simp only [hy] at h
      by_cases hne : ty = t
      · simp [hne] at h
      · simp only [hne, if_false] at h
        obtain ⟨pre, x, post, h1, h2, h3⟩ := ih h
        refine ⟨y :: pre, x, post, by rw [h1, List.cons_append], ?_, h3⟩
        intro z hz
        rcases List.mem_cons.1 hz with rfl | hz
        · rw [hy]
          intro e
          exact hne (Option.some.inj e)
        · exact h2 z hz

/-- C24: each conversion returns exactly on the declared type Reconciled and
aborts on every other value, and the two are inverse to each other where they
return. SetCondition aborts exactly when the incoming condition or some stored
condition has an undeclared type. GetCondition aborts exactly when it reaches a
stored condition of undeclared type, that is, when no stored condition before
that one has the type asked for. The type Ready, which is not declared, makes
each of the four abort. -/
theorem ledger_aborts_on_undeclared_type :
    (∀ c, (convertToCommonStatusConditionType c ≠ none ↔ c = StatusConditionTypeReconciled) ∧
      (convertToCommonStatusConditionType c = none ↔ c ≠ StatusConditionTypeReconciled)) ∧
    (∀ c, (convertFromCommonStatusConditionType c ≠ none ↔
        c = common.StatusConditionTypeReconciled) ∧
      (convertFromCommonStatusConditionType c = none ↔
        c ≠ common.StatusConditionTypeReconciled)) ∧
    (∀ c d, convertToCommonStatusConditionType c = some d ↔
      convertFromCommonStatusConditionType d = some c) ∧
    (∀ (s : WebSphereLibertyApplicationStatus) (c : StatusCondition) (now : Nat),
      s.SetCondition c now = none ↔
        (c.Type_ ≠ StatusConditionTypeReconciled ∨
          ∃ x ∈ s.Conditions, x.Type_ ≠ StatusConditionTypeReconciled)) ∧
    (∀ (s : WebSphereLibertyApplicationStatus) (t : common.StatusConditionType),
      s.GetCondition t = none ↔
        ∃ pre x post, s.Conditions = pre ++ x :: post ∧ (∀ y ∈ pre, y.GetType ≠ some t) ∧
          x.Type_ ≠ StatusConditionTypeReconciled) ∧
    convertToCommonStatusConditionType "Ready" = none ∧
    convertFromCommonStatusConditionType ⟨"Ready"⟩ = none ∧
    ({} : WebSphereLibertyApplicationStatus).SetCondition { Type_ := "Ready" } 0 = none ∧
    ({ Conditions := [{ Type_ := "Ready" }] } : WebSphereLibertyApplicationStatus).GetCondition
      common.StatusConditionTypeReconciled = none := by
  refine ⟨?_, ?_, ?_, ?_, ?_, by decide, by decide, by decide, by decide⟩
  · intro c
    unfold convertToCommonStatusConditionType
    by_cases h : c = StatusConditionTypeReconciled <;> simp [h]
  · intro c
    unfold convertFromCommonStatusConditionType
    by_cases h : c = common.StatusConditionTypeReconciled <;> simp [h]
  · intro c d
    unfold convertToCommonStatusConditionType convertFromCommonStatusConditionType
    by_cases h1 : c = StatusConditionTypeReconciled <;>
      by_cases h2 : d = common.StatusConditionTypeReconciled
    · simp [h1, h2]
    · simp only [h1, h2, if_true, if_false, Option.some.injEq, reduceCtorEq, iff_false]
      exact fun e => h2 e.symm
    · simp only [h1, h2, if_true, if_false, Option.some.injEq, reduceCtorEq, false_iff]
      exact fun e => h1 e.symm
    · simp [h1, h2]
  · intro s c now
    constructor
    · intro h
      by_contra hn
      rw [not_or, not_not] at hn
      obtain ⟨hc, hst⟩ := hn
      refine SetCondition_some_of_declared s c now ?_ hc h
      intro x hx
      by_contra hx2
      exact hst ⟨x, hx, hx2⟩
    · rintro (h | ⟨x, hx, h⟩)
      · exact SetCondition_none_of_incoming s c now ((GetType_eq_none_iff c).2 h)
      · exact SetCondition_none_of_stored s c now x hx h
  · intro s t
    unfold WebSphereLibertyApplicationStatus.GetCondition
    constructor
    · exact GetCondition_scan_none s.Conditions t
    · rintro ⟨pre, x, post, h1, h2, h3⟩
      rw [h1]
      exact GetCondition_scan_none_of_undeclared pre x post t h2 h3


/-! ## The registration request -/

theorem Char_toUpper_eq_iff (c U L : Char) (hU : 65 ≤ U.toNat ∧ U.toNat ≤ 90)
    (hL : L.toNat = U.toNat + 32) : c.toUpper = U ↔ (c = L ∨ c = U) := by
  have hofNat : ∀ n : Nat, n < 128 → (Char.ofNat n).toNat = n := by
    intro n hn
    interval_cases n <;> rfl
  unfold Char.toUpper
  show (if c.toNat ≥ 97 ∧ c.toNat ≤ 122 then Char.ofNat (c.toNat - 32) else c) = U ↔ _
  by_cases h1 : c.toNat ≥ 97 ∧ c.toNat ≤ 122
  · rw [if_pos h1]
    constructor
    · intro e
      left
      apply Char_eq_of_toNat_eq
      have e2 := congrArg Char.toNat e
      rw [hofNat _ (by omega)] at e2
      omega
    · rintro (e | e)
      · apply Char_eq_of_toNat_eq
        rw [hofNat _ (by omega), e]
        omega
      · rw [e] at h1
        omega
  · rw [if_neg h1]
    constructor
    · exact fun e => Or.inr e
    · rintro (e | e)
      · exfalso
        apply h1
        rw [e]
        omega
      · exact e

theorem ToUpper_eq_TRUE_iff (buf : String) :
    strings.ToUpper buf = "TRUE" ↔
      ∃ c1 c2 c3 c4, buf.toList = [c1, c2, c3, c4] ∧ (c1 = 't' ∨ c1 = 'T') ∧
        (c2 = 'r' ∨ c2 = 'R') ∧ (c3 = 'u' ∨ c3 = 'U') ∧ (c4 = 'e' ∨ c4 = 'E') := by
  unfold strings.ToUpper
  rw [String.ext_iff]
  show List.map Char.toUpper buf.toList = ['T', 'R', 'U', 'E'] ↔ _
  have hT := fun c => Char_toUpper_eq_iff c 'T' 't' (by decide) (by decide)
  have hR := fun c => Char_toUpper_eq_iff c 'R' 'r' (by decide) (by decide)
  have hU := fun c => Char_toUpper_eq_iff c 'U' 'u' (by decide) (by decide)
  have hE := fun c => Char_toUpper_eq_iff c 'E' 'e' (by decide) (by decide)
  constructor
  · intro h
    match hl : buf.toList, h with
    | [c1, c2, c3, c4], h =>
      simp only [List.map_cons, List.map_nil, List.cons.injEq, and_true] at h
      exact ⟨c1, c2, c3, c4, rfl, (hT c1).1 h.1, (hR c2).1 h.2.1, (hU c3).1 h.2.2.1,
        (hE c4).1 h.2.2.2⟩
    | [], h => simp at h
    | [_], h => simp at h
    | [_, _], h => simp at h
    | [_, _, _], h => simp at h
    | _ :: _ :: _ :: _ :: _ :: _, h => simp at h
  · rintro ⟨c1, c2, c3, c4, hl, h1, h2, h3, h4⟩
    rw [hl]
    simp only [List.map_cons, List.map_nil, (hT c1).2 h1, (hR c2).2 h2, (hU c3).2 h3,
      (hE c4).2 h4]

theorem oidcLoop_cons_register_call
    (reg : RegisterData → Except String (String × String))
    (sso : WebSphereLibertyApplicationSSO) (p : OidcClient) (rest : List OidcClient)
    (st : SSOState) (rt : Route)
    (hid : st.ssoSecret.Data.get (oidcClientName p ++ "-clientId") = "")
    (hrt : st.client.routeGet st.client.routeGets st.wlapp.Name st.wlapp.Namespace = .ok rt) :
    ∃ more, (oidcLoop reg true sso (p :: rest) st).state.client.calls =
      st.client.calls ++ [Call.getRoute st.wlapp.Name st.wlapp.Namespace,
        Call.register (registrationRequest sso st.ssoSecret p rt)] ++ more := by
  cases hreg : reg (registrationRequest sso st.ssoSecret p rt) with
  | error e =>
    cases hwr : writeSSOSecretIfNeeded
      ((st.client.GetRoute st.wlapp.Name st.wlapp.Namespace).1.log
        (.register (registrationRequest sso st.ssoSecret p rt)))
      st.ssoSecret st.ssoSecretUpdates with
    | none =>
      rw [oidcLoop_cons_abort reg sso p rest st rt e hid hrt hreg hwr]
      exact ⟨[], by simp [LoopExit.state, Client.GetRoute, Client.log]⟩
    | some w =>
      obtain ⟨c2, s2, e2⟩ := w
      have hcalls := writeSSOSecretIfNeeded_calls _ _ _ _ hwr
      rw [oidcLoop_cons_fail reg sso p rest st rt e hid hrt hreg c2 s2 e2 hwr]
      simp only [LoopExit.state]
      simp only at hcalls
      rw [hcalls]
      refine ⟨if st.ssoSecretUpdates = [] then []
        else [Call.createOrUpdate st.ssoSecret.Name st.ssoSecret.Namespace st.ssoSecretUpdates],
        ?_⟩
      simp [Client.GetRoute, Client.log]
  | ok pr =>
    obtain ⟨id, sec⟩ := pr
    rw [oidcLoop_cons_ok reg sso p rest st rt id sec hid hrt hreg]
    obtain ⟨made, h, _⟩ := oidcLoop_exit_calls reg true sso rest
      (registeredState sso st p rt id sec)
    rw [h]
    exact ⟨made, by simp [registeredState, Client.GetRoute, Client.log]⟩

/-- C21: the client name N of a descriptor is its ID, or oidc when the ID is
empty. The request assembled for it from the secret and the route has the
descriptor's discovery endpoint, https:// followed by the route's host, the
shared redirect target, N as provider id, and the secret's values under
N-autoreg-initialAccessToken, -initialClientId, -initialClientSecret,
-grantTypes and -scopes, an absent key reading as the empty string; InsecureTLS
is true exactly when the value under N-autoreg-insecureTLS has the four letters
of true, each in either case. In the loop turn of a descriptor without client
id whose route lookup returns the route, the call logged right after the lookup
is the registration with this request, and every registration call made by a
pass carries the request assembled for a descriptor of `spec.sso.oidc`. A
sample request is evaluated at the end. -/
theorem registrationRequest_fields
    (sso : WebSphereLibertyApplicationSSO) (s : Secret) (p : OidcClient) (rt : Route) :
    oidcClientName p = (if p.ID = "" then "oidc" else p.ID) ∧
    (registrationRequest sso s p rt).DiscoveryURL = p.DiscoveryEndpoint ∧
    (registrationRequest sso s p rt).RouteURL = "https://" ++ rt.Host ∧
    (registrationRequest sso s p rt).RedirectToRPHostAndPort = sso.RedirectToRPHostAndPort ∧
    (registrationRequest sso s p rt).ProviderId = oidcClientName p ∧
    (registrationRequest sso s p rt).InitialAccessToken =
      s.Data.get (oidcClientName p ++ "-autoreg-" ++ "initialAccessToken") ∧
    (registrationRequest sso s p rt).InitialClientId =
      s.Data.get (oidcClientName p ++ "-autoreg-" ++ "initialClientId") ∧
    (registrationRequest sso s p rt).InitialClientSecret =
      s.Data.get (oidcClientName p ++ "-autoreg-" ++ "initialClientSecret") ∧
    (registrationRequest sso s p rt).GrantTypes =
      s.Data.get (oidcClientName p ++ "-autoreg-" ++ "grantTypes") ∧
    (registrationRequest sso s p rt).Scopes =
      s.Data.get (oidcClientName p ++ "-autoreg-" ++ "scopes") ∧
    (∀ k, k ∉ s.Data.map Prod.fst → s.Data.get k = "") ∧
    ((registrationRequest sso s p rt).InsecureTLS = true ↔
      ∃ c1 c2 c3 c4,
        (s.Data.get (oidcClientName p ++ "-autoreg-" ++ "insecureTLS")).toList =
          [c1, c2, c3, c4] ∧
        (c1 = 't' ∨ c1 = 'T') ∧ (c2 = 'r' ∨ c2 = 'R') ∧ (c3 = 'u' ∨ c3 = 'U') ∧
        (c4 = 'e' ∨ c4 = 'E')) ∧
    (∀ (reg : RegisterData → Except String (String × String)) (rest : List OidcClient)
        (st : SSOState),
      st.ssoSecret.Data.get (oidcClientName p ++ "-clientId") = "" →
      st.client.routeGet st.client.routeGets st.wlapp.Name st.wlapp.Namespace = .ok rt →
      ∃ more, (oidcLoop reg true sso (p :: rest) st).state.client.calls =
        st.client.calls ++ [Call.getRoute st.wlapp.Name st.wlapp.Namespace,
          Call.register (registrationRequest sso st.ssoSecret p rt)] ++ more) ∧
    (∀ (reg : RegisterData → Except String (String × String)) (pts : PodTemplateSpec)
        (wlapp : WebSphereLibertyApplication) (client : Client) (os : Bool) (r : SSOResult),
      CustomizeEnvSSO reg pts wlapp client os = some r →
      ∃ made, r.client.calls = client.calls ++ made ∧
        ∀ d, Call.register d ∈ made → ∃ s1 sso1 p1 rt1,
          client.findSecret (wlapp.Name ++ "-wlapp-sso") wlapp.Namespace = some s1 ∧
          wlapp.Spec.SSO = some sso1 ∧ p1 ∈ sso1.OIDC ∧
          d = registrationRequest sso1 s1 p1 rt1) ∧
    registrationRequest { RedirectToRPHostAndPort := "https://rp" }
        { Data := [("oidc-autoreg-insecureTLS", "True"), ("oidc-autoreg-scopes", "openid")] }
        { DiscoveryEndpoint := "https://idp/disc" } { Host := "apps.example" } =
      { DiscoveryURL := "https://idp/disc", RouteURL := "https://apps.example",
        RedirectToRPHostAndPort := "https://rp", Scopes := "openid", InsecureTLS := true,
        ProviderId := "oidc" } := by
  refine ⟨rfl, rfl, rfl, rfl, rfl, rfl, rfl, rfl, rfl, rfl, ?_, ?_, ?_, ?_, by decide⟩
  · intro k hk
    exact GoMap.get_of_not_mem s.Data k hk
  · rw [← ToUpper_eq_TRUE_iff]
    simp [registrationRequest, autoregFragment]
  · intro reg rest st hid hrt
    exact oidcLoop_cons_register_call reg sso p rest st rt hid hrt
  · intro reg pts wlapp client os r hr
    rcases CustomizeEnvSSO_pass_calls reg pts wlapp client os r hr with
      ⟨_, _, _, _, _, hcalls⟩ | ⟨s1, sso1, made, hs, hsso, hcalls, h2, _⟩
    · refine ⟨_, hcalls, ?_⟩
      intro d hd
      simp at hd
    · refine ⟨[Call.getSecret (wlapp.Name ++ ssoSecretNameSuffix) wlapp.Namespace] ++ made,
        by rw [hcalls, List.append_assoc], ?_⟩
      intro d hd
      simp only [List.singleton_append, List.mem_cons, reduceCtorEq, false_or] at hd
      obtain ⟨_, p1, hp1, rt1, hd1, _⟩ := h2 d hd
      exact ⟨s1, sso1, p1, rt1, hs, hsso, hp1, hd1⟩


/-! ## Early ends of a pass -/

theorem CustomizeEnvSSO_of_returned
    (reg : RegisterData → Except String (String × String))
    (pts : PodTemplateSpec) (wlapp : WebSphereLibertyApplication) (client : Client)
    (os : Bool) (s : Secret) (sso : WebSphereLibertyApplicationSSO)
    (err : Option String) (st : SSOState)
    (hsecret : client.findSecret (wlapp.Name ++ ssoSecretNameSuffix) wlapp.Namespace = some s)
    (hsso : wlapp.Spec.SSO = some sso)
    (hloop : oidcLoop reg os sso sso.OIDC
      { client := client.log (.getSecret (wlapp.Name ++ ssoSecretNameSuffix) wlapp.Namespace),
        wlapp := wlapp, ssoSecret := s, ssoEnv := secretEnv s ++ commonEnv sso } =
        .returned err st) :
    CustomizeEnvSSO reg pts wlapp client os =
      some { err := err, pts := pts, wlapp := st.wlapp, client := st.client } := by
  unfold CustomizeEnvSSO
  simp only [Client.GetSecret, hsecret, hsso]
  rw [hloop]

theorem CustomizeEnvSSO_of_write_error
    (reg : RegisterData → Except String (String × String))
    (pts : PodTemplateSpec) (wlapp : WebSphereLibertyApplication) (client : Client)
    (os : Bool) (s : Secret) (sso : WebSphereLibertyApplicationSSO)
    (st : SSOState) (c2 : Client) (s2 : Secret) (e : String)
    (hsecret : client.findSecret (wlapp.Name ++ ssoSecretNameSuffix) wlapp.Namespace = some s)
    (hsso : wlapp.Spec.SSO = some sso)
    (hloop : oidcLoop reg os sso sso.OIDC
      { client := client.log (.getSecret (wlapp.Name ++ ssoSecretNameSuffix) wlapp.Namespace),
        wlapp := wlapp, ssoSecret := s, ssoEnv := secretEnv s ++ commonEnv sso } = .done st)
    (hw : writeSSOSecretIfNeeded st.client st.ssoSecret st.ssoSecretUpdates =
      some (c2, s2, some e)) :
    CustomizeEnvSSO reg pts wlapp client os =
      some { err := some ("Error occured when updating SSO secret: " ++ e), pts := pts,
             wlapp := st.wlapp, client := c2 } := by
  unfold CustomizeEnvSSO
  simp only [Client.GetSecret, hsecret, hsso]
  rw [hloop]
  simp only [hw]

/-- C26: the secret is found and `spec.sso` is set. If, on OpenShift, the loop
runs through the providers `pre` and the next provider `p` has no client id,
then a failed route lookup ends the pass without error and with the pod
template as on entry; a failed registration call ends it with an error and the
pod template as on entry, and it does return when nothing is staged or the
secret has a data key; otherwise the flush aborts the call, before anything is
written to the template. If the loop runs through all providers and the final secret
write fails, the pass ends with an error and the pod template as on entry. And
every pass that returns an error returns the pod template as on entry. -/
theorem CustomizeEnvSSO_early_end_keeps_template
    (reg : RegisterData → Except String (String × String))
    (pts : PodTemplateSpec) (wlapp : WebSphereLibertyApplication) (client : Client)
    (os : Bool) (s : Secret) (sso : WebSphereLibertyApplicationSSO)
    (hsecret : client.findSecret (wlapp.Name ++ "-wlapp-sso") wlapp.Namespace = some s)
    (hsso : wlapp.Spec.SSO = some sso) :
    (∀ (pre : List OidcClient) (p : OidcClient) (post : List OidcClient) (st1 : SSOState),
      os = true → sso.OIDC = pre ++ p :: post →
      oidcLoop reg os sso pre
        { client := client.log (.getSecret (wlapp.Name ++ "-wlapp-sso") wlapp.Namespace),
          wlapp := wlapp, ssoSecret := s, ssoEnv := secretEnv s ++ commonEnv sso } =
          .done st1 →
      s.Data.get (oidcClientName p ++ "-clientId") = "" →
      (∀ e, client.routeGet st1.client.routeGets wlapp.Name wlapp.Namespace = .error e →
        ∃ r, CustomizeEnvSSO reg pts wlapp client os = some r ∧ r.err = none ∧ r.pts = pts) ∧
      (∀ rt e, client.routeGet st1.client.routeGets wlapp.Name wlapp.Namespace = .ok rt →
        reg (registrationRequest sso s p rt) = .error e →
        (∀ r, CustomizeEnvSSO reg pts wlapp client os = some r → r.err ≠ none ∧ r.pts = pts) ∧
        ((st1.ssoSecretUpdates = [] ∨ s.Data ≠ []) →
          ∃ r, CustomizeEnvSSO reg pts wlapp client os = some r ∧ r.err ≠ none ∧
            r.pts = pts) ∧
        ((st1.ssoSecretUpdates ≠ [] ∧ s.Data = []) →
          CustomizeEnvSSO reg pts wlapp client os = none))) ∧
    (∀ (st : SSOState) (c2 : Client) (s2 : Secret) (e : String),
      oidcLoop reg os sso sso.OIDC
        { client := client.log (.getSecret (wlapp.Name ++ "-wlapp-sso") wlapp.Namespace),
          wlapp := wlapp, ssoSecret := s, ssoEnv := secretEnv s ++ commonEnv sso } =
          .done st →
      writeSSOSecretIfNeeded st.client st.ssoSecret st.ssoSecretUpdates =
        some (c2, s2, some e) →
      ∃ r, CustomizeEnvSSO reg pts wlapp client os = some r ∧ r.err ≠ none ∧ r.pts = pts) ∧
    (∀ r, CustomizeEnvSSO reg pts wlapp client os = some r → r.err ≠ none → r.pts = pts) := by
  have hsecret2 : client.findSecret (wlapp.Name ++ ssoSecretNameSuffix) wlapp.Namespace =
      some s := hsecret
  refine ⟨?_, ?_, ?_⟩
  · intro pre p post st1 hos hoidc hpre hid
    subst hos
    change oidcLoop reg true sso pre
      { client := client.log (.getSecret (wlapp.Name ++ ssoSecretNameSuffix) wlapp.Namespace),
        wlapp := wlapp, ssoSecret := s, ssoEnv := secretEnv s ++ commonEnv sso } = .done st1
      at hpre
    obtain ⟨⟨f1, f2, _, f4, _, f6, f7, _⟩, _, hnodup, _⟩ :=
      oidcLoop_done_inv reg true sso pre _ st1 hpre (by simp)
    simp only [Client.log] at f1 f2 f4 f6 f7
    have happ := oidcLoop_append_done reg true sso pre (p :: post) _ _ hpre
    rw [← hoidc] at happ
    have hid1 : st1.ssoSecret.Data.get (oidcClientName p ++ "-clientId") = "" := by
      rw [f1]
      exact hid
    constructor
    · intro e hroute
      have hrt1 : st1.client.routeGet st1.client.routeGets st1.wlapp.Name st1.wlapp.Namespace =
          .error e := by
        rw [f4, f6, f7]
        exact hroute
      rw [oidcLoop_cons_defer reg sso p post st1 e hid1 hrt1] at happ
      exact ⟨_, CustomizeEnvSSO_of_returned reg pts wlapp client true s sso _ _ hsecret2 hsso
        happ, rfl, rfl⟩
    · intro rt e hroute hreg
      have hrt1 : st1.client.routeGet st1.client.routeGets st1.wlapp.Name st1.wlapp.Namespace =
          .ok rt := by
        rw [f4, f6, f7]
        exact hroute
      have hreg1 : reg (registrationRequest sso st1.ssoSecret p rt) = .error e := by
        rw [f1]
        exact hreg
      obtain ⟨hname, hns⟩ := findSecret_named client _ _ s hsecret2
      have hfind : ((st1.client.GetRoute st1.wlapp.Name st1.wlapp.Namespace).1.log
          (.register (registrationRequest sso st1.ssoSecret p rt))).findSecret
            st1.ssoSecret.Name st1.ssoSecret.Namespace = some s := by
        simp only [Client.findSecret, Client.log, Client.GetRoute, f1, f2, hname, hns]
        exact hsecret2
      cases hwr : writeSSOSecretIfNeeded
        ((st1.client.GetRoute st1.wlapp.Name st1.wlapp.Namespace).1.log
          (.register (registrationRequest sso st1.ssoSecret p rt)))
        st1.ssoSecret st1.ssoSecretUpdates with
      | none =>
        rw [oidcLoop_cons_abort reg sso p post st1 rt e hid1 hrt1 hreg1 hwr] at happ
        have hnone : CustomizeEnvSSO reg pts wlapp client true = none := by
          unfold CustomizeEnvSSO
          simp only [Client.GetSecret, hsecret2, hsso]
          rw [happ]
        refine ⟨?_, ?_, fun _ => hnone⟩
        · intro r hr
          rw [hnone] at hr
          exact Option.noConfusion hr
        · intro hok
          exfalso
          rcases hok with hu | hdata
          · rw [hu, writeSSOSecretIfNeeded_nil] at hwr
            exact Option.noConfusion hwr
          · by_cases hu : st1.ssoSecretUpdates = []
            · rw [hu, writeSSOSecretIfNeeded_nil] at hwr
              exact Option.noConfusion hwr
            · obtain ⟨w, hw, _⟩ := writeSSOSecretIfNeeded_staged _ st1.ssoSecret s
                st1.ssoSecretUpdates hu hnodup hfind hdata
              rw [hw] at hwr
              exact Option.noConfusion hwr
      | some w =>
        obtain ⟨c2, s2, e2⟩ := w
        rw [oidcLoop_cons_fail reg sso p post st1 rt e hid1 hrt1 hreg1 c2 s2 e2 hwr] at happ
        have hres := CustomizeEnvSSO_of_returned reg pts wlapp client true s sso _ _ hsecret2
          hsso happ
        refine ⟨?_, ?_, ?_⟩
        · intro r hr
          rw [hres, Option.some.injEq] at hr
          subst hr
          exact ⟨by simp, rfl⟩
        · intro _
          exact ⟨_, hres, by simp, rfl⟩
        · rintro ⟨hu, hdata⟩
          rw [writeSSOSecretIfNeeded_nil_data _ st1.ssoSecret s st1.ssoSecretUpdates hu hfind
            hdata] at hwr
          exact Option.noConfusion hwr
  · intro st c2 s2 e hloop hw
    exact ⟨_, CustomizeEnvSSO_of_write_error reg pts wlapp client os s sso st c2 s2 e hsecret2
      hsso hloop hw, by simp, rfl⟩
  · intro r hr herr
    rcases CustomizeEnvSSO_result_env reg pts wlapp client os r hr with
      h | ⟨_, _, _, _, _, _, _, _, hnone, _⟩
    · exact h
    · exact absurd hnone herr

/-- Witness of C26: the sample application on OpenShift. Without a route the
pass defers at provider `a`; with a route and a registrar that refuses `b` the
pass fails at provider `b`; with a store that refuses writes the pass fails at
the final write. Each time the template is returned as it was. -/
theorem CustomizeEnvSSO_early_end_keeps_template_witness :
    (∃ r, CustomizeEnvSSO sampleRegister samplePts sampleApp clusterWithoutRoute true =
      some r ∧ r.err = none ∧ r.pts = samplePts) ∧
    (∃ r, CustomizeEnvSSO sampleRegister samplePts sampleApp clusterWithRoute true =
      some r ∧ r.err ≠ none ∧ r.pts = samplePts) ∧
    (∃ r, CustomizeEnvSSO sampleRegisterAll samplePts sampleApp clusterWriteRefused true =
      some r ∧ r.err ≠ none ∧ r.pts = samplePts) :=
  ⟨((CustomizeEnvSSO_early_end_keeps_template sampleRegister samplePts sampleApp
      clusterWithoutRoute true sampleSecret { OIDC := [{ ID := "a" }, { ID := "b" }] }
      (by decide) rfl).1 [] { ID := "a" } [{ ID := "b" }] _ rfl rfl rfl (by decide)).1
      "not found" rfl,
   (((CustomizeEnvSSO_early_end_keeps_template sampleRegister samplePts sampleApp
      clusterWithRoute true sampleSecret { OIDC := [{ ID := "a" }, { ID := "b" }] }
      (by decide) rfl).1 [{ ID := "a" }] { ID := "b" } [] _ rfl rfl rfl (by decide)).2
      sampleRoute "registration refused" rfl rfl).2.1 (Or.inr (by decide)),
   (CustomizeEnvSSO_early_end_keeps_template sampleRegisterAll samplePts sampleApp
      clusterWriteRefused true sampleSecret { OIDC := [{ ID := "a" }, { ID := "b" }] }
      (by decide) rfl).2.1 _ _ _ "forbidden" rfl rfl⟩

end WLO
